import Mathlib

/-!
ch32v003dbg : shallow embedding and verification

Shallow embedding of the probe firmware (`context.c`, `break.c`, `flash.c`, `packet.c`,
`server.c`, `utils.c`, `xmodem.c`): machine integers are naturals reduced modulo `2^w`
where the C type truncates, module globals are record fields threaded through
the functions, and the target (memory, registers) is an explicit value.
-/

namespace Ch32

/-! ## Machine integers -/

/-- Truncation to `uint8_t`. -/
def u8 (x : Nat) : Nat := x % 256

/-- Truncation to `uint16_t`. -/
def u16 (x : Nat) : Nat := x % 65536

/-- Truncation to `uint32_t`. -/
def u32 (x : Nat) : Nat := x % 4294967296

/-- Value of a 32-bit pattern read as a C `int` (two's complement). -/
def s32 (x : Nat) : Int :=
  if u32 x < 2147483648 then (u32 x : Int) else (u32 x : Int) - 4294967296

/-- 32-bit pattern of a C `int`. -/
def ofS32 (y : Int) : Nat := (y % 4294967296).toNat

/-- The C expression `x >> k` on an `int` holding the pattern `x`: the compiler of
the probe (GCC, ARM) shifts negative values arithmetically (sign extension). -/
def asr32 (x k : Nat) : Nat := ofS32 (Int.shiftRight (s32 x) k)

/-- The C expression `x << k` on a 32-bit operand, truncated to 32 bits. -/
def shl32 (x k : Nat) : Nat := u32 (x <<< k)

/-! ## Target memory

The target is little-endian and byte-addressed; the probe reaches it through
aligned 32-bit accesses only. -/

/-- Target memory: the byte stored at each address. -/
abbrev Mem := Nat → Fin 256

/-- The byte `x mod 256` as a memory cell. -/
def toByte (x : Nat) : Fin 256 := ⟨x % 256, Nat.mod_lt x (by decide)⟩

/-- Little-endian word held by the four bytes at `addr .. addr+3`. -/
def Mem.read32 (m : Mem) (addr : Nat) : Nat :=
  (m addr).val + 256 * (m (u32 (addr + 1))).val + 65536 * (m (u32 (addr + 2))).val
    + 16777216 * (m (u32 (addr + 3))).val

/-- Store of a word, little-endian, into the four bytes at `addr .. addr+3`. -/
def Mem.write32 (m : Mem) (addr data : Nat) : Mem := fun x =>
  if x = addr then toByte data
  else if x = u32 (addr + 1) then toByte (data >>> 8)
  else if x = u32 (addr + 2) then toByte (data >>> 16)
  else if x = u32 (addr + 3) then toByte (data >>> 24)
  else m x

/-! ## `context.c` : memory access -/

/-- `ctx_get_mem_u32_aligned`, the run of the resident program succeeding:
`lw a1, 0(a1)` at the address in DATA1, the value returned through DATA0. -/
def ctx_get_mem_u32_aligned (m : Mem) (addr : Nat) : Nat :=
  m.read32 (u32 addr)

/-- `ctx_set_mem_u32_aligned`, the run of the resident program succeeding:
`sw a0, 0(a1)`; returns the new memory and the `bool` result. -/
def ctx_set_mem_u32_aligned (m : Mem) (addr data : Nat) : Mem × Bool :=
  (m.write32 (u32 addr) (u32 data), true)

/-- `ctx_get_mem_u32`: `data_lo` and `data_hi` are declared `int`, so the right
shift of `data_lo` is an arithmetic shift. -/
def ctx_get_mem_u32 (m : Mem) (addr : Nat) : Nat :=
  let addr := u32 addr
  let offset := addr &&& 3
  let addr_lo := addr &&& 0xFFFFFFFC
  let addr_hi := u32 (addr + 3) &&& 0xFFFFFFFC
  let data_lo := ctx_get_mem_u32_aligned m addr_lo
  if offset = 0 then data_lo
  else
    let data_hi := ctx_get_mem_u32_aligned m addr_hi
    asr32 data_lo (offset * 8) ||| shl32 data_hi (32 - offset * 8)

/-- `ctx_get_mem_u16`: `data_lo`, `data_hi` are `uint32_t`; the result is
truncated to `uint16_t`. -/
def ctx_get_mem_u16 (m : Mem) (addr : Nat) : Nat :=
  let addr := u32 addr
  let offset := addr &&& 3
  let addr_lo := u32 (addr + 0) &&& 0xFFFFFFFC
  let addr_hi := u32 (addr + 3) &&& 0xFFFFFFFC
  let data_lo := ctx_get_mem_u32_aligned m addr_lo
  if offset < 3 then u16 (data_lo >>> (offset * 8))
  else
    let data_hi := ctx_get_mem_u32_aligned m addr_hi
    u16 ((data_lo >>> 24) ||| shl32 data_hi 8)

/-- `ctx_get_mem_u8`. -/
def ctx_get_mem_u8 (m : Mem) (addr : Nat) : Nat :=
  let addr := u32 addr
  let offset := addr &&& 3
  let addr_lo := addr &&& 0xFFFFFFFC
  let data_lo := ctx_get_mem_u32_aligned m addr_lo
  u8 (data_lo >>> (offset * 8))

/-- `ctx_set_mem_u32`. -/
def ctx_set_mem_u32 (m : Mem) (addr data : Nat) : Mem × Bool :=
  let addr := u32 addr
  let data := u32 data
  let offset := addr &&& 3
  let addr_lo := addr &&& 0xFFFFFFFC
  let addr_hi := u32 (addr + 4) &&& 0xFFFFFFFC
  if offset = 0 then ctx_set_mem_u32_aligned m addr_lo data
  else
    let data_lo := ctx_get_mem_u32_aligned m addr_lo
    let data_hi := ctx_get_mem_u32_aligned m addr_hi
    let (data_lo, data_hi) :=
      if offset = 1 then
        ((data_lo &&& 0x000000FF) ||| shl32 data 8, (data_hi &&& 0xFFFFFF00) ||| (data >>> 24))
      else if offset = 2 then
        ((data_lo &&& 0x0000FFFF) ||| shl32 data 16, (data_hi &&& 0xFFFF0000) ||| (data >>> 16))
      else if offset = 3 then
        ((data_lo &&& 0x00FFFFFF) ||| shl32 data 24, (data_hi &&& 0xFF000000) ||| (data >>> 8))
      else (data_lo, data_hi)
    let r1 := ctx_set_mem_u32_aligned m addr_lo data_lo
    if r1.2 then ctx_set_mem_u32_aligned r1.1 addr_hi data_hi else (r1.1, false)

/-- `ctx_set_mem_u8`. -/
def ctx_set_mem_u8 (m : Mem) (addr data : Nat) : Mem × Bool :=
  let addr := u32 addr
  let data := u8 data
  let offset := addr &&& 3
  let addr_lo := addr &&& 0xFFFFFFFC
  let data_lo := ctx_get_mem_u32_aligned m addr_lo
  let data_lo :=
    if offset = 0 then (data_lo &&& 0xFFFFFF00) ||| data
    else if offset = 1 then (data_lo &&& 0xFFFF00FF) ||| shl32 data 8
    else if offset = 2 then (data_lo &&& 0xFF00FFFF) ||| shl32 data 16
    else if offset = 3 then (data_lo &&& 0x00FFFFFF) ||| shl32 data 24
    else data_lo
  ctx_set_mem_u32_aligned m addr_lo data_lo

/-- The 32-bit word whose little-endian bytes are `b0 b1 b2 b3` (each reduced modulo 256). -/
def wordOfBytes (b0 b1 b2 b3 : Nat) : Nat :=
  b0 % 256 + 256 * (b1 % 256) + 65536 * (b2 % 256) + 16777216 * (b3 % 256)

/-! ## `context.c` : aligned block access -/

/-- Words streamed by the block-read program from `addr`, `n` of them. -/
def read_words (m : Mem) (addr : Nat) : Nat → List Nat
  | 0 => []
  | n + 1 => m.read32 (u32 addr) :: read_words m (addr + 4) n

/-- `ctx_get_block_aligned`, every run of the program succeeding: `data[0]` is
always stored, then `data[i]` for `1 ≤ i < data_count`; the result is `true`
on every path. Returns the words stored into `data`. -/
def ctx_get_block_aligned (m : Mem) (addr data_count : Nat) : List Nat × Bool :=
  (read_words m addr (max data_count 1), true)

/-- Words streamed by the block-write program to `addr`. -/
def write_words (m : Mem) (addr : Nat) : List Nat → Mem
  | [] => m
  | w :: ws => write_words (m.write32 (u32 addr) (u32 w)) (addr + 4) ws

/-- `ctx_set_block_aligned`, every run of the program succeeding: `data[0]` is
always written, then `data[i]` for `1 ≤ i < data_count`. `data` is the content
of the caller's buffer, word by word. -/
def ctx_set_block_aligned (m : Mem) (addr : Nat) (data : Nat → Nat) (data_count : Nat) :
    Mem × Bool :=
  (write_words m addr ((List.range (max data_count 1)).map data), true)

/-! ## `flash.h`, `break.c` : the software breakpoint engine -/

def MAX_BREAKPOINT : Nat := 32
def CH32_FLASH_PAGE_WORDS : Nat := 16
def CH32_FLASH_PAGE_SIZE : Nat := 64
def CH32_FLASH_SIZE : Nat := 16384
def CH32_FLASH_PAGE_COUNT : Nat := 256

/-- Array store `a[i] = v`. -/
def upd (a : Nat → Nat) (i v : Nat) : Nat → Nat := fun j => if j = i then v else a j

/-- The module globals of `break.c`. Arrays are indexed by naturals. -/
structure Brk where
  halted : Bool
  breakpoint_count : Int
  breakpoints : Nat → Nat
  flash_dirty : Nat → Nat
  flash_clean : Nat → Nat
  break_map : Nat → Nat
  flash_map : Nat → Nat
  dirty_map : Nat → Nat

/-- State of the statics at power-on: everything zero. -/
def Brk.power_on : Brk :=
  { halted := false, breakpoint_count := 0, breakpoints := fun _ => 0,
    flash_dirty := fun _ => 0, flash_clean := fun _ => 0,
    break_map := fun _ => 0, flash_map := fun _ => 0, dirty_map := fun _ => 0 }

/-- `break_init`: only the table and its count are reset. -/
def break_init (b : Brk) : Brk :=
  { b with breakpoint_count := 0,
           breakpoints := fun i => if i < MAX_BREAKPOINT then 0xDEADBEEF else b.breakpoints i }

/-- The loop of `break_find` over the slots `i, i+1, ..` (`n` of them left). -/
def break_find_loop (bps : Nat → Nat) (addr : Nat) : Nat → Nat → Int
  | 0, _ => -1
  | n + 1, i => if bps i = addr then (i : Int) else break_find_loop bps addr n (i + 1)

/-- `break_find`. -/
def break_find (b : Brk) (addr : Nat) : Int :=
  break_find_loop b.breakpoints addr MAX_BREAKPOINT 0

/-- A byte array after the little-endian store of the words `ws` at offset `base`
(the `uint32_t*` view of a `uint8_t` array on the little-endian host). -/
def store_words (a : Nat → Nat) (base : Nat) (ws : List Nat) : Nat → Nat := fun j =>
  if base ≤ j ∧ j < base + 4 * ws.length then
    (ws.getD ((j - base) / 4) 0 >>> (8 * ((j - base) % 4))) % 256
  else a j

/-- `memcpy(dst + base, src + base, n)`. -/
def memcpy_at (dst src : Nat → Nat) (base n : Nat) : Nat → Nat := fun j =>
  if base ≤ j ∧ j < base + n then src j else dst j

/-- Little-endian store of a 16-bit value into a byte array. -/
def store_u16 (a : Nat → Nat) (i v : Nat) : Nat → Nat :=
  upd (upd a i (v % 256)) (i + 1) ((v >>> 8) % 256)

/-- Little-endian store of a 32-bit value into a byte array. -/
def store_u32 (a : Nat → Nat) (i v : Nat) : Nat → Nat :=
  upd (upd (upd (upd a i (v % 256)) (i + 1) ((v >>> 8) % 256)) (i + 2) ((v >>> 16) % 256))
    (i + 3) ((v >>> 24) % 256)

/-- Little-endian load of a 16-bit value from a byte array. -/
def load_u16 (a : Nat → Nat) (i : Nat) : Nat := a i % 256 + 256 * (a (i + 1) % 256)

/-- Little-endian load of a 32-bit value from a byte array. -/
def load_u32 (a : Nat → Nat) (i : Nat) : Nat :=
  a i % 256 + 256 * (a (i + 1) % 256) + 65536 * (a (i + 2) % 256) + 16777216 * (a (i + 3) % 256)

/-- `break_set(addr, size)` on the engine state `b` and the target memory `t` (read by
the page snapshot, whose result is not checked). `CHECK` expands to nothing (`LOGS` is 0).
Returns the new state and the `int` result. -/
def break_set (b : Brk) (t : Mem) (addr size : Nat) : Brk × Int :=
  let addr := u32 addr
  if size ≠ 2 ∧ size ≠ 4 then (b, -1)
  else if u32 (addr + size) ≥ CH32_FLASH_SIZE ∨ addr &&& 1 ≠ 0 then (b, -1)
  else if break_find b addr ≠ -1 then (b, -1)
  else
    let bp_index := break_find b 0xDEADBEEF
    if bp_index = -1 then (b, -1)
    else
      let breakpoints := upd b.breakpoints bp_index.toNat addr
      let breakpoint_count := b.breakpoint_count + 1
      let page := addr / CH32_FLASH_PAGE_SIZE
      let break_map := upd b.break_map page (u8 (b.break_map page + 1))
      let dirty_map := upd b.dirty_map page (u8 (b.dirty_map page + 1))
      let (flash_clean, flash_dirty) :=
        if break_map page = 1 then
          let page_base := page * CH32_FLASH_PAGE_SIZE
          let flash_clean :=
            store_words b.flash_clean page_base
              (ctx_get_block_aligned t page_base CH32_FLASH_PAGE_WORDS).1
          (flash_clean, memcpy_at b.flash_dirty flash_clean page_base CH32_FLASH_PAGE_WORDS)
        else (b.flash_clean, b.flash_dirty)
      let flash_dirty :=
        if size = 2 then store_u16 flash_dirty addr 0x9002
        else if size = 4 then store_u32 flash_dirty addr 0x00100073
        else flash_dirty
      ({ b with breakpoints := breakpoints, breakpoint_count := breakpoint_count,
                break_map := break_map, dirty_map := dirty_map,
                flash_clean := flash_clean, flash_dirty := flash_dirty }, bp_index)

/-- `break_clear(addr, size)`. -/
def break_clear (b : Brk) (addr size : Nat) : Brk × Int :=
  let addr := u32 addr
  if size ≠ 2 ∧ size ≠ 4 then (b, -1)
  else if u32 (addr + size) ≥ CH32_FLASH_SIZE ∨ addr &&& 1 ≠ 0 then (b, -1)
  else
    let bp_index := break_find b addr
    if bp_index = -1 then (b, -1)
    else
      let breakpoints := upd b.breakpoints bp_index.toNat 0xDEADBEEF
      let breakpoint_count := b.breakpoint_count - 1
      let page := addr / CH32_FLASH_PAGE_SIZE
      let break_map := upd b.break_map page (u8 (b.break_map page + 255))
      let dirty_map := upd b.dirty_map page (u8 (b.dirty_map page + 1))
      let flash_dirty :=
        if size = 2 then store_u16 b.flash_dirty addr (load_u16 b.flash_clean addr)
        else if size = 4 then store_u32 b.flash_dirty addr (load_u32 b.flash_clean addr)
        else b.flash_dirty
      ({ b with breakpoints := breakpoints, breakpoint_count := breakpoint_count,
                break_map := break_map, dirty_map := dirty_map,
                flash_dirty := flash_dirty }, bp_index)

/-- Target flash after `flash_erase_page(base)` followed by
`flash_write_pages(base, data + base, CH32_FLASH_PAGE_WORDS)`, both succeeding:
the 64-byte page at `base` is replaced by the bytes of `data`. -/
def flash_program_page (t : Mem) (base : Nat) (data : Nat → Nat) : Mem := fun x =>
  if base ≤ x ∧ x < base + CH32_FLASH_PAGE_SIZE then toByte (data x) else t x

/-- One iteration of the loop of `break_patch_flash`. `ok page` tells whether the erase and
the write of that page succeed; their results are not checked by the code. -/
def break_patch_page (ok : Nat → Bool) (s : Brk × Mem) (page : Nat) : Brk × Mem :=
  if s.1.dirty_map page = 0 then s
  else
    let page_base := page * CH32_FLASH_PAGE_SIZE
    let t := if ok page then flash_program_page s.2 page_base s.1.flash_dirty else s.2
    ({ s.1 with flash_map := upd s.1.flash_map page (s.1.break_map page),
                dirty_map := upd s.1.dirty_map page 0 }, t)

/-- `break_patch_flash`. -/
def break_patch_flash (ok : Nat → Bool) (b : Brk) (t : Mem) : Brk × Mem :=
  (List.range CH32_FLASH_PAGE_COUNT).foldl (break_patch_page ok) (b, t)

/-- One iteration of the loop of `break_unpatch_flash`. -/
def break_unpatch_page (ok : Nat → Bool) (s : Brk × Mem) (page : Nat) : Brk × Mem :=
  if s.1.flash_map page = 0 then s
  else
    let page_base := page * CH32_FLASH_PAGE_SIZE
    let t := if ok page then flash_program_page s.2 page_base s.1.flash_clean else s.2
    ({ s.1 with flash_map := upd s.1.flash_map page 0,
                dirty_map := upd s.1.dirty_map page 1 }, t)

/-- `break_unpatch_flash`. -/
def break_unpatch_flash (ok : Nat → Bool) (b : Brk) (t : Mem) : Brk × Mem :=
  (List.range CH32_FLASH_PAGE_COUNT).foldl (break_unpatch_page ok) (b, t)

/-- The operations of the engine that change its bookkeeping. -/
inductive BrkOp where
  | init
  | set (addr size : Nat)
  | clear (addr size : Nat)
  | patch
  | unpatch

/-- Effect of one operation (flash erase and write succeeding). -/
def BrkOp.run (s : Brk × Mem) : BrkOp → Brk × Mem
  | .init => (break_init s.1, s.2)
  | .set addr size => ((break_set s.1 s.2 addr size).1, s.2)
  | .clear addr size => ((break_clear s.1 addr size).1, s.2)
  | .patch => break_patch_flash (fun _ => true) s.1 s.2
  | .unpatch => break_unpatch_flash (fun _ => true) s.1 s.2

/-- Effect of a sequence of operations. -/
def run_ops (s : Brk × Mem) (ops : List BrkOp) : Brk × Mem := ops.foldl BrkOp.run s

/-- Little-endian 16-bit value held by target memory at `a`. -/
def Mem.load16 (m : Mem) (a : Nat) : Nat := (m a).val + 256 * (m (a + 1)).val

/-- Little-endian 32-bit value held by target memory at `a`. -/
def Mem.load32 (m : Mem) (a : Nat) : Nat :=
  (m a).val + 256 * (m (a + 1)).val + 65536 * (m (a + 2)).val + 16777216 * (m (a + 3)).val

/-- The breakpoint table right after `break_init` at power-on: 32 empty slots. -/
def empty_table : Nat → Nat := fun i => if i < 32 then 0xDEADBEEF else 0

/-- Engine state after power-on and `break_init` (as `main` does), with the hart halted. -/
def Brk.start : Brk := { break_init Brk.power_on with halted := true }

/-- Setting and clearing one breakpoint at `0x100`, with no patch in between. -/
def set_clear_pair : List BrkOp := [BrkOp.set 0x100 2, BrkOp.clear 0x100 2]

/-- 256 bookkeeping operations on page 4 (127 set/clear pairs, then two sets), then a patch. -/
def wrap_ops : List BrkOp :=
  (List.replicate 127 set_clear_pair).flatten ++ [BrkOp.set 0x100 2, BrkOp.set 0x102 2, BrkOp.patch]

/-- A target flash image holding the 32-bit instruction `0x00000013` (`nop`) at `0x3E`,
across the boundary of pages 0 and 1, and zero elsewhere. -/
def straddle_flash : Mem := fun x => if x = 62 then toByte 0x13 else toByte 0

/-! ## `utils.c`, `utils.h` : hexadecimal helpers and `s_cmp` -/

/-- The bytes of a C string literal (without the terminating NUL). -/
def cstr (s : String) : List Nat := s.toList.map Char.toNat

/-- `to_hex`: the argument and the result are `uint8_t`. -/
def to_hex (x : Nat) : Nat := if x < 10 then u8 (x + 48) else u8 (x + 65 - 10)

/-- `from_hex`: an `int`, `-1` for a byte that is no hex digit. -/
def from_hex (b : Nat) : Int :=
  if 48 ≤ b ∧ b ≤ 57 then (b : Int) - 48
  else if 97 ≤ b ∧ b ≤ 102 then (b : Int) - 97 + 10
  else if 65 ≤ b ∧ b ≤ 70 then (b : Int) - 65 + 10
  else -1

/-- `from_hex_check`: `some digit` when it returns `true` (with `*out = digit`). -/
def from_hex_check (b : Nat) : Option Nat :=
  if 48 ≤ b ∧ b ≤ 57 then some (b - 48)
  else if 97 ≤ b ∧ b ≤ 102 then some (b - 97 + 10)
  else if 65 ≤ b ∧ b ≤ 70 then some (b - 65 + 10)
  else none

/-- `s_cmp(prefix, text)`: `prefix` is a string literal, `text` the bytes found at the
text pointer (no terminator is looked for: the loop stops at the end of `prefix` or at the
first difference). The bytes are compared as `unsigned char` (ARM ABI). This is the loop,
from index `i` of the text. -/
def s_cmp_from (text : Nat → Nat) : List Nat → Nat → Int
  | [], _ => 0
  | c :: cs, i =>
    if c = 0 then 0
    else if c > text i then -1
    else if c < text i then 1
    else s_cmp_from text cs (i + 1)

/-- `s_cmp(prefix, text)`. -/
def s_cmp (pfx : List Nat) (text : Nat → Nat) : Int := s_cmp_from text pfx 0

/-! ## `packet.c` -/

/-- A `packet`: the buffer keeps whatever was stored in it before, beyond `len`. -/
structure Packet where
  buf : Nat → Nat
  cap : Nat
  len : Nat
  pos : Nat
  error : Bool

/-- `packet_clear`. -/
def packet_clear (p : Packet) : Packet := { p with len := 0, pos := 0, error := false }

/-- `packet_init`: the buffer is fresh heap memory, whose content `heap` is not defined. -/
def packet_init (heap : Nat → Nat) (cap : Nat) : Packet :=
  { buf := heap, cap := u16 cap, len := 0, pos := 0, error := false }

/-- `packet_skip`. -/
def packet_skip (p : Packet) (d : Nat) : Packet × Bool :=
  if p.pos + d > p.len then ({ p with error := true }, false)
  else ({ p with pos := u16 (p.pos + d) }, true)

/-- `packet_match`. -/
def packet_match (p : Packet) (b : Nat) : Bool := p.pos < p.len && p.buf p.pos == b

/-- `packet_match_advance`. -/
def packet_match_advance (p : Packet) (b : Nat) : Packet × Bool :=
  if packet_match p b then ({ p with pos := u16 (p.pos + 1) }, true) else (p, false)

/-- `packet_take`. -/
def packet_take (p : Packet) : Packet × Nat :=
  if p.pos < p.len then ({ p with pos := u16 (p.pos + 1) }, p.buf p.pos)
  else ({ p with error := true }, 0)

/-- `packet_expect`. -/
def packet_expect (p : Packet) (b : Nat) : Packet × Bool :=
  let r := packet_match_advance p b
  if r.2 then (r.1, true) else ({ r.1 with error := true }, false)

/-- `packet_put`. -/
def packet_put (p : Packet) (b : Nat) : Packet × Bool :=
  if p.len ≥ p.cap then ({ p with error := true }, false)
  else ({ p with buf := upd p.buf p.len (u8 b), len := u16 (p.len + 1) }, true)

/-- `packet_expect_buf`. -/
def packet_expect_buf (p : Packet) : List Nat → Packet × Bool
  | [] => (p, true)
  | c :: cs =>
    if c = 0 then (p, true)
    else
      let r := packet_expect p c
      if r.2 then packet_expect_buf r.1 cs else (r.1, false)

/-- The loop of `packet_put_buf` from index `i`, `n` bytes left. -/
def packet_put_buf_loop (buf : Nat → Nat) : Nat → Nat → Packet → Packet × Bool
  | 0, _, p => (p, true)
  | n + 1, i, p =>
    let r := packet_put p (buf i)
    if r.2 then packet_put_buf_loop buf n (i + 1) r.1 else (r.1, false)

/-- `packet_put_buf(p, buf, count)`; `buf` gives the bytes found at the source pointer. -/
def packet_put_buf (p : Packet) (buf : Nat → Nat) (count : Nat) : Packet × Bool :=
  packet_put_buf_loop buf count 0 p

/-- The bytes found at a pointer to a string literal: the characters, then NUL. -/
def cstr_at (s : String) : Nat → Nat := fun i => (cstr s).getD i 0

/-- The loop of `packet_take_hex_digits`: `digits` left, local cursor `pos`. -/
def packet_take_hex_digits_loop (p : Packet) : Nat → Nat → Nat → Packet × Nat
  | 0, accum, pos => ({ p with pos := u16 pos }, accum)
  | digits + 1, accum, pos =>
    if pos ≥ p.len then ({ p with error := true }, 0)
    else
      match from_hex_check (p.buf pos) with
      | none => ({ p with error := true }, 0)
      | some digit =>
        packet_take_hex_digits_loop p digits (u32 (accum <<< 4) ||| digit) (u32 (pos + 1))

/-- `packet_take_hex_digits`. -/
def packet_take_hex_digits (p : Packet) (digits : Nat) : Packet × Nat :=
  packet_take_hex_digits_loop p (u8 digits) 0 p.pos

/-- The loop of `packet_take_hex`: at most `n` more digits; returns the accumulator, the
local cursor and `any_digits`. -/
def packet_take_hex_loop (p : Packet) : Nat → Nat → Nat → Bool → Nat × Nat × Bool
  | 0, accum, pos, any => (accum, pos, any)
  | n + 1, accum, pos, any =>
    if pos ≥ p.len then (accum, pos, any)
    else
      match from_hex_check (p.buf pos) with
      | none => (accum, pos, any)
      | some digit => packet_take_hex_loop p n (u32 (accum <<< 4) ||| digit) (u32 (pos + 1)) true

/-- `packet_take_hex`. -/
def packet_take_hex (p : Packet) : Packet × Nat :=
  let r := packet_take_hex_loop p 8 0 p.pos false
  if !r.2.2 then ({ p with error := true }, 0)
  else ({ p with pos := u16 r.2.1 }, r.1)

/-- The loop of `packet_take_hex_to_buf`: `n` bytes left, local cursor `pos`, destination
index `i`. Returns the packet, the destination buffer and the result. -/
def packet_take_hex_to_buf_loop (p : Packet) :
    Nat → Nat → Nat → (Nat → Nat) → Packet × (Nat → Nat) × Bool
  | 0, pos, _, buf => ({ p with pos := u16 pos }, buf, true)
  | n + 1, pos, i, buf =>
    if pos + 1 ≥ p.len then ({ p with error := true }, buf, false)
    else
      match from_hex_check (p.buf pos) with
      | none => ({ p with error := true }, buf, false)
      | some hi =>
        match from_hex_check (p.buf (pos + 1)) with
        | none => ({ p with error := true }, buf, false)
        | some lo =>
          packet_take_hex_to_buf_loop p n (pos + 2) (i + 1) (upd buf i (u8 ((hi <<< 4) ||| lo)))

/-- `packet_take_hex_to_buf(p, buf, count)`: `buf` is the destination, byte by byte. -/
def packet_take_hex_to_buf (p : Packet) (buf : Nat → Nat) (count : Nat) :
    Packet × (Nat → Nat) × Bool :=
  packet_take_hex_to_buf_loop p count p.pos 0 buf

/-- The loop shared by `packet_match_prefix`: local cursor `pos`. -/
def packet_match_prefix_loop (p : Packet) : List Nat → Nat → Option Nat
  | [], pos => some pos
  | c :: cs, pos =>
    if c = 0 then some pos
    else if pos ≥ p.len ∨ p.buf pos ≠ c then none
    else packet_match_prefix_loop p cs (pos + 1)

/-- `packet_match_prefix`. -/
def packet_match_prefix (p : Packet) (s : List Nat) : Packet × Bool :=
  match packet_match_prefix_loop p s p.pos with
  | none => (p, false)
  | some pos => ({ p with pos := u16 pos }, true)

/-- The loop of `packet_match_prefix_hex`. -/
def packet_match_prefix_hex_loop (p : Packet) : List Nat → Nat → Option Nat
  | [], pos => some pos
  | c :: cs, pos =>
    if c = 0 then some pos
    else if pos + 1 ≥ p.len ∨ from_hex (p.buf pos) ≠ (c >>> 4 : Nat)
        ∨ from_hex (p.buf (pos + 1)) ≠ (c &&& 0xF : Nat) then none
    else packet_match_prefix_hex_loop p cs (pos + 2)

/-- `packet_match_prefix_hex`. -/
def packet_match_prefix_hex (p : Packet) (s : List Nat) : Packet × Bool :=
  match packet_match_prefix_hex_loop p s p.pos with
  | none => (p, false)
  | some pos => ({ p with pos := u16 pos }, true)

/-- `packet_put_hex_u8`: high nibble first; the second `packet_put` runs only when the
first one succeeded. -/
def packet_put_hex_u8 (p : Packet) (b : Nat) : Packet × Bool :=
  let b := u8 b
  let r := packet_put p (to_hex (b >>> 4))
  if r.2 then packet_put r.1 (to_hex (b &&& 0xF)) else (r.1, false)

/-- `packet_put_hex_u16`: little-endian. -/
def packet_put_hex_u16 (p : Packet) (w : Nat) : Packet × Bool :=
  let w := u16 w
  let r := packet_put_hex_u8 p w
  if r.2 then packet_put_hex_u8 r.1 (w >>> 8) else (r.1, false)

/-- `packet_put_hex_u32`: little-endian. -/
def packet_put_hex_u32 (p : Packet) (x : Nat) : Packet × Bool :=
  let x := u32 x
  let r0 := packet_put_hex_u8 p x
  if !r0.2 then (r0.1, false)
  else
    let r1 := packet_put_hex_u8 r0.1 (x >>> 8)
    if !r1.2 then (r1.1, false)
    else
      let r2 := packet_put_hex_u8 r1.1 (x >>> 16)
      if !r2.2 then (r2.1, false)
      else packet_put_hex_u8 r2.1 (x >>> 24)

/-- The loop of `packet_put_hex_buf`. -/
def packet_put_hex_buf_loop (buf : Nat → Nat) : Nat → Nat → Packet → Packet × Bool
  | 0, _, p => (p, true)
  | n + 1, i, p =>
    let r := packet_put_hex_u8 p (buf i)
    if r.2 then packet_put_hex_buf_loop buf n (i + 1) r.1 else (r.1, false)

/-- `packet_put_hex_buf(p, buf, count)`. -/
def packet_put_hex_buf (p : Packet) (buf : Nat → Nat) (count : Nat) : Packet × Bool :=
  packet_put_hex_buf_loop buf count 0 p

/-! ## The target and the hardware around the probe -/

/-- The target as the probe sees it through the Debug Module. -/
structure Target where
  mem : Mem
  gpr : Nat → Nat
  dpc : Nat
  allhalted : Bool

/-- What the probe does not decide: the outcome of Debug Module requests, the effect of
letting the hart execute, the success of flash operations, and the content of memory the
code reads before writing it. -/
structure Env where
  /-- `ctx_halt`: the target afterwards and the `bool` result. -/
  halt : Target → Target × Bool
  /-- Effect of `ctx_step` on the target. -/
  step : Target → Target
  /-- Effect of `ctx_resume` on the target. -/
  resume : Target → Target
  /-- Effect of `ctx_reset` on the target. -/
  reset : Target → Target
  /-- Whether erase and write of a flash page succeed (see `break_patch_page`). -/
  flash_ok : Nat → Bool
  /-- Content of an uninitialised local buffer, byte by byte. -/
  garbage : Nat → Nat

/-- `ctx_get_gpr`: index 16 (`GPR_MAX`) is the DPC. -/
def ctx_get_gpr (t : Target) (index : Nat) : Nat :=
  if index = 16 then u32 t.dpc else u32 (t.gpr index)

/-- `ctx_set_gpr`. -/
def ctx_set_gpr (t : Target) (index gpr : Nat) : Target :=
  if index = 16 then { t with dpc := u32 gpr } else { t with gpr := upd t.gpr index (u32 gpr) }

/-- `csr_set_dpc`. -/
def csr_set_dpc (t : Target) (r : Nat) : Target := { t with dpc := u32 r }

/-- `break_halt`: returns the engine, the target and the `bool` result. -/
def break_halt (env : Env) (b : Brk) (t : Target) : Brk × Target × Bool :=
  if b.halted then (b, t, true)
  else
    let r := env.halt t
    if !r.2 then (b, r.1, false)
    else
      let u := break_unpatch_flash env.flash_ok { b with halted := true } r.1.mem
      (u.1, { r.1 with mem := u.2 }, true)

/-- `break_resume`: returns the engine, the target and the `bool` result. -/
def break_resume (env : Env) (b : Brk) (t : Target) : Brk × Target × Bool :=
  if !b.halted then (b, t, true)
  else
    let t1 := env.step t
    let dpc := u32 t1.dpc
    if break_find b dpc ≠ -1 then (b, t1, false)
    else
      let p := break_patch_flash env.flash_ok b t1.mem
      let t2 := env.resume { t1 with mem := p.2 }
      ({ p.1 with halted := false }, t2, true)

/-! ## `server.c` : the GDB server -/

inductive SrvState where
  | DISCONNECTED | RUNNING | KILLED | IDLE | RECV_PACKET | RECV_PACKET_ESCAPE
  | RECV_SUFFIX1 | RECV_SUFFIX2 | SEND_PREFIX | SEND_PACKET | SEND_PACKET_ESCAPE
  | SEND_SUFFIX1 | SEND_SUFFIX2 | SEND_SUFFIX3 | RECV_ACK
  deriving DecidableEq

/-- The module globals of `server.c`, the breakpoint engine and the target. -/
structure Probe where
  state : SrvState
  send : Packet
  recv : Packet
  send_valid : Bool
  page_cache : Nat → Nat
  page_base : Int
  page_bitmap : Nat
  expected_checksum : Nat
  checksum : Nat
  last_halt : Nat
  brk : Brk
  tgt : Target

/-- `memory_map`: the text the pointer refers to. -/
def memory_map : String :=
  "<?xml version=\"1.0\"?><!DOCTYPE memory-map PUBLIC \"+//IDN gnu.org//DTD GDB Memory Map V1.0//EN\" \"http://sourceware.org/gdb/gdb-memory-map.dtd\"><memory-map><memory type=\"flash\" start=\"0x00000000\" length=\"0x4000\"><property name=\"blocksize\">64</property></memory><memory type=\"ram\" start=\"0x20000000\" length=\"0x800\"/></memory-map>"

/-- `sizeof(memory_map)`: `memory_map` is declared `const char*`, a pointer of the
32-bit probe. -/
def sizeof_memory_map : Nat := 4

/-- `server_set_resp(buf, size)`: appends to `send`; `send` is not cleared here. -/
def server_set_resp (s : Probe) (buf : Nat → Nat) (size : Nat) : Probe :=
  { s with send := (packet_put_buf s.send buf size).1, send_valid := true }

/-- `server_set_resp` with a string literal and its length. -/
def server_set_resp_str (s : Probe) (str : String) (size : Nat) : Probe :=
  server_set_resp s (cstr_at str) size

/-- `server_set_resp(NULL, 0)`. -/
def server_set_resp_null (s : Probe) : Probe := server_set_resp s (fun _ => 0) 0

/-- `server_clear`. -/
def server_clear (s : Probe) : Probe :=
  { s with page_bitmap := 0, page_base := -1,
           page_cache := fun i => if i < CH32_FLASH_PAGE_SIZE then 0xFF else s.page_cache i }

/-- `server_init`: both packets get 256 bytes; `page_cache` is allocated last, after
`server_clear` ran, so it holds whatever the heap held. -/
def server_init (s : Probe) (heap_send heap_recv heap_cache : Nat → Nat) : Probe :=
  { s with page_bitmap := 0, page_base := -1, page_cache := heap_cache,
           send := packet_init heap_send 256, recv := packet_init heap_recv 256 }

inductive Handler where
  | questionmark | bang | c | D | g | G | H | k | m | M | p | P | q | s | R | v
  | z0 | Z0 | z1 | Z1
  deriving DecidableEq

/-- `server_handlers`, in the order of the table. -/
def server_handlers : List (String × Handler) :=
  [("?", .questionmark), ("!", .bang), ("c", .c), ("D", .D), ("g", .g), ("G", .G),
   ("H", .H), ("k", .k), ("m", .m), ("M", .M), ("p", .p), ("P", .P), ("q", .q),
   ("s", .s), ("R", .R), ("v", .v), ("z0", .z0), ("Z0", .Z0), ("z1", .z1), ("Z1", .Z1)]

/-- The loop of `server_find_handler`. -/
def server_find_handler_loop (name : Nat → Nat) : List (String × Handler) → Option Handler
  | [] => none
  | h :: hs => if s_cmp (cstr h.1) name = 0 then some h.2 else server_find_handler_loop name hs

/-- `server_find_handler(name)`: `name` gives the bytes found at the pointer. -/
def server_find_handler (name : Nat → Nat) : Option Handler :=
  server_find_handler_loop name server_handlers

/-- Idealised `flash_write_pages(dst, src, words)`, succeeding: the bytes of `src`
replace the target bytes at `dst .. dst + 4*words - 1`. -/
def flash_write_pages (t : Target) (dst : Nat) (src : Nat → Nat) (words : Nat) : Target :=
  { t with mem := fun x =>
      if dst ≤ x ∧ x < dst + 4 * words then toByte (src (x - dst)) else t.mem x }

/-- Idealised `flash_erase(addr, ..)` of `size` bytes, succeeding: the bytes read `0xFF`. -/
def flash_erase_bytes (t : Target) (addr size : Nat) : Target :=
  { t with mem := fun x => if addr ≤ x ∧ x < addr + size then toByte 0xFF else t.mem x }

/-- `server_flush_cache`. -/
def server_flush_cache (s : Probe) : Probe :=
  if s.page_base = -1 then s
  else if s.page_bitmap = 0 then server_clear s
  else
    server_clear
      { s with tgt := flash_write_pages s.tgt (ofS32 s.page_base) s.page_cache
                        CH32_FLASH_PAGE_WORDS }

/-- The C expression `1 << page_offset` of `server_put_cache`, an `int` shift converted to
`uint64_t`: exact below 31; at 31 the `int` is negative and sign-extends; from 32 on the
shift count exceeds the width (the ARM shifter then gives 0). -/
def int_one_shl (k : Nat) : Nat :=
  if k < 31 then 1 <<< k else if k = 31 then 0xFFFFFFFF80000000 else 0

/-- `server_put_cache(addr, data)`. -/
def server_put_cache (s : Probe) (addr data : Nat) : Probe :=
  let addr := u32 addr
  let page_offset := addr % CH32_FLASH_PAGE_SIZE
  let page_base_n : Int := s32 (addr - page_offset)
  let s :=
    if s.page_base ≠ page_base_n then
      let s := if s.page_bitmap ≠ 0 then server_flush_cache s else s
      { s with page_base := page_base_n }
    else s
  if s.page_bitmap &&& int_one_shl page_offset ≠ 0 then s
  else
    { s with page_cache := upd s.page_cache page_offset (u8 data),
             page_bitmap := (s.page_bitmap ||| (1 <<< page_offset)) % 18446744073709551616 }

/-- The loop of `server_flash_erase`; `fuel` bounds the number of iterations (each one
lowers `size` by at least a page, so `size / 64 + 1` is enough). A `size` that is neither
zero nor reached by one of the three branches would spin forever (`CHECK(false)` expands to
nothing); the alignment test before the loop excludes it. -/
def server_flash_erase_loop : Nat → Probe → Nat → Nat → Probe
  | 0, s, _, _ => s
  | fuel + 1, s, addr, size =>
    if size = 0 then s
    else if addr = 0x08000000 ∧ size = CH32_FLASH_SIZE then
      let s := { s with tgt := flash_erase_bytes s.tgt 0x08000000 CH32_FLASH_SIZE }
      let s := server_set_resp_str s "OK" 2
      server_flash_erase_loop fuel s (u32 (addr + size)) 0
    else if addr % 1024 = 0 ∧ size ≥ 1024 then
      let s := { s with tgt := flash_erase_bytes s.tgt addr 1024 }
      server_flash_erase_loop fuel s (u32 (addr + 1024)) (size - 1024)
    else if addr % 64 = 0 ∧ size ≥ 64 then
      let s := { s with tgt := flash_erase_bytes s.tgt addr 64 }
      server_flash_erase_loop fuel s (u32 (addr + 64)) (size - 64)
    else server_flash_erase_loop fuel s addr size

/-- `server_flash_erase(addr, size)`. -/
def server_flash_erase (s : Probe) (addr size : Nat) : Probe :=
  let addr := u32 addr
  let size := u32 size
  if addr % CH32_FLASH_PAGE_SIZE ≠ 0 ∨ size % CH32_FLASH_PAGE_SIZE ≠ 0 then
    server_set_resp_str s "E00" 3
  else
    let s := server_flash_erase_loop (size / 64 + 1) s (u32 (addr + 0x08000000)) size
    server_set_resp_str s "OK" 2

/-- `server_handle_questionmark`. -/
def server_handle_questionmark (s : Probe) : Probe :=
  let s := { s with recv := (packet_expect s.recv 63).1 }
  { server_set_resp_str s "T05" 3 with state := .SEND_PREFIX }

/-- `server_handle_bang`. -/
def server_handle_bang (s : Probe) : Probe :=
  let s := { s with recv := (packet_expect s.recv 33).1 }
  { server_set_resp_str s "OK" 2 with state := .SEND_PREFIX }

/-- `server_handle_c`. -/
def server_handle_c (env : Env) (s : Probe) : Probe :=
  let recv := (packet_expect s.recv 99).1
  let r := packet_take_hex recv
  let tgt := if !r.1.error then csr_set_dpc s.tgt r.2 else s.tgt
  let br := break_resume env s.brk tgt
  let s := { s with recv := r.1, brk := br.1, tgt := br.2.1 }
  if !br.2.2 then { server_set_resp_str s "T05" 3 with state := .SEND_PREFIX }
  else { s with state := .RUNNING }

/-- `server_handle_D` (`CHECK(false)` expands to nothing). -/
def server_handle_D (s : Probe) : Probe :=
  let s := { s with recv := (packet_expect s.recv 68).1 }
  { server_set_resp_str s "OK" 2 with state := .SEND_PREFIX }

/-- The loop `for (i = 0; i < 17; i++) packet_put_hex_u32(&send, buf1[i])`, from `i`;
the result of `packet_put_hex_u32` is not looked at. -/
def put_regs_loop (buf1 : Nat → Nat) : Nat → Nat → Packet → Packet
  | 0, _, p => p
  | n + 1, i, p => put_regs_loop buf1 n (i + 1) (packet_put_hex_u32 p (buf1 i)).1

/-- `server_handle_g`. -/
def server_handle_g (s : Probe) : Probe :=
  let s := { s with recv := (packet_expect s.recv 103).1 }
  let s :=
    if s.recv.error then server_set_resp_str s "E01" 3
    else
      let buf1 := fun i => ctx_get_gpr s.tgt i
      { s with send := put_regs_loop buf1 17 0 (packet_clear s.send), send_valid := true }
  { s with state := .SEND_PREFIX }

/-- The loop of `server_handle_G` over the 16 GPRs, from `i`. -/
def set_regs_loop : Nat → Nat → Packet → Target → Packet × Target
  | 0, _, p, t => (p, t)
  | n + 1, i, p, t =>
    let r := packet_take_hex_digits p 8
    set_regs_loop n (i + 1) r.1 (ctx_set_gpr t i r.2)

/-- `server_handle_G`. -/
def server_handle_G (s : Probe) : Probe :=
  let recv := (packet_expect s.recv 71).1
  let r := set_regs_loop 16 0 recv s.tgt
  let v := packet_take_hex_digits r.1 8
  let s := { s with recv := v.1, tgt := csr_set_dpc r.2 v.2 }
  let s := if s.recv.error then server_set_resp_str s "E01" 3 else server_set_resp_str s "OK" 2
  { s with state := .SEND_PREFIX }

/-- `server_handle_H`. -/
def server_handle_H (s : Probe) : Probe :=
  let recv := (packet_expect s.recv 72).1
  let recv := (packet_skip recv 1).1
  let m := packet_match_advance recv 45
  let recv :=
    if m.2 then
      let m1 := packet_match_advance m.1 49
      if m1.2 then m1.1 else { m1.1 with error := true }
    else (packet_take_hex m.1).1
  let s := { s with recv := recv }
  let s := if s.recv.error then server_set_resp_str s "E01" 3 else server_set_resp_str s "OK" 2
  { s with state := .SEND_PREFIX }

/-- `server_handle_k`. -/
def server_handle_k (s : Probe) : Probe :=
  { s with recv := (packet_expect s.recv 107).1, state := .KILLED }

/-- The bytes of a buffer of words (the `uint8_t*` view of `uint32_t buf[]`). -/
def bytes_of_words (ws : List Nat) : Nat → Nat := store_words (fun _ => 0) 0 ws

/-- The `while (len)` loop of `server_handle_m`; `src` and `len` are `int`, kept as 32-bit
patterns (they are only compared for equality and as unsigned values). `fuel` bounds the
iterations: each one lowers `len` by at least 1, so `len` is enough. -/
def server_handle_m_loop (t : Target) : Nat → Nat → Nat → Packet → Packet
  | 0, _, _, send => send
  | fuel + 1, src, len, send =>
    if len = 0 then send
    else if len = 2 then
      let data := ctx_get_mem_u16 t.mem src
      server_handle_m_loop t fuel (u32 (src + 2)) (u32 (len + 4294967296 - 2))
        (packet_put_hex_u16 send data).1
    else if len = 4 then
      let data := ctx_get_mem_u32 t.mem src
      server_handle_m_loop t fuel (u32 (src + 4)) (u32 (len + 4294967296 - 4))
        (packet_put_hex_u32 send data).1
    else if src &&& 3 = 0 ∧ len ≥ 4 then
      let chunk := len &&& 0xFFFFFFFC
      let chunk := if chunk > 1024 then 1024 else chunk
      let buf := bytes_of_words (ctx_get_block_aligned t.mem src 256).1
      server_handle_m_loop t fuel (u32 (src + chunk)) (u32 (len + 4294967296 - chunk))
        (packet_put_hex_buf send buf chunk).1
    else
      let x := ctx_get_mem_u8 t.mem src
      server_handle_m_loop t fuel (u32 (src + 1)) (u32 (len + 4294967296 - 1))
        (packet_put_hex_u8 send x).1

/-- `server_handle_m`: on a parse error it returns without setting `state`. -/
def server_handle_m (s : Probe) : Probe :=
  let recv := (packet_expect s.recv 109).1
  let r1 := packet_take_hex recv
  let recv := (packet_expect r1.1 44).1
  let r2 := packet_take_hex recv
  let s := { s with recv := r2.1 }
  if s.recv.error then server_set_resp_null s
  else
    let send := server_handle_m_loop s.tgt r2.2 r1.2 r2.2 (packet_clear s.send)
    { s with send := send, send_valid := true, state := .SEND_PREFIX }

/-- The `while (len)` loop of `server_handle_M`. `buf` is the local `uint32_t buf[256]`,
byte by byte; the block write always sends `countof(buf)` = 256 words of it. `fuel` bounds
the iterations (`len` is enough). -/
def server_handle_M_loop : Nat → Nat → Nat → Packet → (Nat → Nat) → Mem → Packet × Mem
  | 0, _, _, recv, _, m => (recv, m)
  | fuel + 1, dst, len, recv, buf, m =>
    if len = 0 then (recv, m)
    else if dst &&& 3 = 0 ∧ len ≥ 4 then
      let chunk := len &&& 0xFFFFFFFC
      let chunk := if chunk > 1024 then 1024 else chunk
      let r := packet_take_hex_to_buf recv buf chunk
      let m := (ctx_set_block_aligned m dst (fun i => load_u32 r.2.1 (4 * i)) 256).1
      server_handle_M_loop fuel (u32 (dst + chunk)) (u32 (len + 4294967296 - chunk)) r.1 r.2.1 m
    else
      let r := packet_take_hex_digits recv 2
      let m := (ctx_set_mem_u8 m dst (u8 r.2)).1
      server_handle_M_loop fuel (u32 (dst + 1)) (u32 (len + 4294967296 - 1)) r.1 buf m

/-- `server_handle_M`: on a parse error of the header it returns without setting `state`. -/
def server_handle_M (env : Env) (s : Probe) : Probe :=
  let recv := (packet_expect s.recv 77).1
  let r1 := packet_take_hex recv
  let recv := (packet_expect r1.1 44).1
  let r2 := packet_take_hex recv
  let recv := (packet_expect r2.1 58).1
  let s := { s with recv := recv }
  if s.recv.error then server_set_resp_null s
  else
    let r := server_handle_M_loop r2.2 r1.2 r2.2 s.recv env.garbage s.tgt.mem
    let s := { s with recv := r.1, tgt := { s.tgt with mem := r.2 } }
    let s := if s.recv.error then server_set_resp_str s "E01" 3 else server_set_resp_str s "OK" 2
    { s with state := .SEND_PREFIX }

/-- `server_handle_p`. -/
def server_handle_p (s : Probe) : Probe :=
  let recv := (packet_expect s.recv 112).1
  let r := packet_take_hex recv
  let s := { s with recv := r.1 }
  let s :=
    if !s.recv.error then
      { s with send := (packet_put_hex_u32 (packet_clear s.send) (ctx_get_gpr s.tgt r.2)).1,
               send_valid := true }
    else s
  { s with state := .SEND_PREFIX }

/-- `server_handle_P`. -/
def server_handle_P (s : Probe) : Probe :=
  let recv := (packet_expect s.recv 80).1
  let r1 := packet_take_hex recv
  let recv := (packet_expect r1.1 61).1
  let r2 := packet_take_hex recv
  let s := { s with recv := r2.1 }
  let s :=
    if !s.recv.error then server_set_resp_str { s with tgt := ctx_set_gpr s.tgt r1.2 r2.2 } "OK" 2
    else s
  { s with state := .SEND_PREFIX }

/-- `server_handle_q`. -/
def server_handle_q (env : Env) (s : Probe) : Probe :=
  let m1 := packet_match_prefix s.recv (cstr "qAttached")
  let s :=
    if m1.2 then server_set_resp_str { s with recv := m1.1 } "1" 1
    else
      let m2 := packet_match_prefix s.recv (cstr "qC")
      if m2.2 then server_set_resp_str { s with recv := m2.1 } "QC1" 3
      else
        let m3 := packet_match_prefix s.recv (cstr "qfThreadInfo")
        if m3.2 then server_set_resp_str { s with recv := m3.1 } "m1" 2
        else
          let m4 := packet_match_prefix s.recv (cstr "qsThreadInfo")
          if m4.2 then server_set_resp_str { s with recv := m4.1 } "l" 1
          else
            let m5 := packet_match_prefix s.recv (cstr "qSupported")
            if m5.2 then
              server_set_resp_str { s with recv := { m5.1 with pos := m5.1.len } }
                "PacketSize=32768;qXfer:memory-map:read+" 39
            else
              let m6 := packet_match_prefix s.recv (cstr "qXfer:")
              if m6.2 then
                let m7 := packet_match_prefix m6.1 (cstr "memory-map:read::")
                if m7.2 then
                  let r1 := packet_take_hex m7.1
                  let recv := (packet_expect r1.1 44).1
                  let r2 := packet_take_hex recv
                  let s := { s with recv := r2.1 }
                  if s.recv.error then server_set_resp_str s "E00" 3
                  else
                    let send := (packet_put (packet_clear s.send) 108).1
                    let send := (packet_put_buf send (cstr_at memory_map) sizeof_memory_map).1
                    { s with send := send, send_valid := true }
                else { s with recv := m7.1 }
              else
                let m8 := packet_match_prefix s.recv (cstr "qRcmd,")
                if m8.2 then
                  let m9 := packet_match_prefix_hex m8.1 (cstr "reset")
                  if m9.2 then
                    server_set_resp_str { s with recv := m9.1, tgt := env.reset s.tgt } "OK" 2
                  else { s with recv := m9.1 }
                else s
  let s :=
    if s.send.len = 0 then server_set_resp_null { s with recv := { s.recv with pos := s.recv.len } }
    else s
  { s with state := .SEND_PREFIX }

/-- `server_handle_R`. -/
def server_handle_R (s : Probe) : Probe :=
  let s := { s with recv := (packet_expect s.recv 82).1 }
  { server_set_resp_null s with state := .SEND_PREFIX }

/-- `server_handle_s`. -/
def server_handle_s (env : Env) (s : Probe) : Probe :=
  let s := { s with recv := (packet_expect s.recv 115).1, tgt := env.step s.tgt }
  { server_set_resp_str s "T05" 3 with state := .SEND_PREFIX }

/-- The loop `while (recv.pos < recv.len)` of `server_handle_v` for `vFlashWrite`; `fuel`
bounds the iterations (`recv.len` is enough: each one advances `recv.pos`). -/
def flash_write_loop : Nat → Probe → Nat → Probe
  | 0, s, _ => s
  | fuel + 1, s, addr =>
    if s.recv.pos < s.recv.len then
      let r := packet_take s.recv
      flash_write_loop fuel (server_put_cache { s with recv := r.1 } addr r.2) (u32 (addr + 1))
    else s

/-- `server_handle_v`. -/
def server_handle_v (env : Env) (s : Probe) : Probe :=
  let m1 := packet_match_prefix s.recv (cstr "vFlash")
  let s :=
    if m1.2 then
      let m2 := packet_match_prefix m1.1 (cstr "Write")
      if m2.2 then
        let recv := (packet_expect m2.1 58).1
        let r := packet_take_hex recv
        let recv := (packet_expect r.1 58).1
        let s := flash_write_loop recv.len { s with recv := recv } r.2
        server_set_resp_str s "OK" 2
      else
        let m3 := packet_match_prefix m2.1 (cstr "Done")
        if m3.2 then server_set_resp_str (server_flush_cache { s with recv := m3.1 }) "OK" 2
        else
          let m4 := packet_match_prefix m3.1 (cstr "Erase")
          if m4.2 then
            let recv := (packet_expect m4.1 58).1
            let r1 := packet_take_hex recv
            let recv := (packet_expect r1.1 44).1
            let r2 := packet_take_hex recv
            let s := { s with recv := r2.1 }
            if s.recv.error then server_set_resp_str s "E00" 3
            else server_set_resp_str (server_flash_erase s r1.2 r2.2) "OK" 2
          else { s with recv := m4.1 }
    else
      let m5 := packet_match_prefix s.recv (cstr "vKill")
      if m5.2 then
        server_set_resp_str
          { s with recv := { m5.1 with pos := m5.1.len }, tgt := env.reset s.tgt } "OK" 2
      else
        let m6 := packet_match_prefix s.recv (cstr "vMustReplyEmpty")
        if m6.2 then server_set_resp_null { s with recv := m6.1 }
        else server_set_resp_null { s with recv := { s.recv with pos := s.recv.len } }
  { s with state := .SEND_PREFIX }

/-- The common body of `server_handle_z0` and `server_handle_z1` (`name` is `"z0,"` or
`"z1,"`): the result of `break_clear` is not looked at. -/
def server_handle_z (name : String) (s : Probe) : Probe :=
  let recv := (packet_expect_buf s.recv (cstr name)).1
  let r1 := packet_take_hex recv
  let recv := (packet_expect r1.1 44).1
  let r2 := packet_take_hex recv
  let s := { s with recv := r2.1, brk := (break_clear s.brk r1.2 r2.2).1 }
  { server_set_resp_str s "OK" 2 with state := .SEND_PREFIX }

/-- The common body of `server_handle_Z0` and `server_handle_Z1` (`name` is `"Z0,"` or
`"Z1,"`): the result of `break_set` is not looked at. -/
def server_handle_Z (name : String) (s : Probe) : Probe :=
  let recv := (packet_expect_buf s.recv (cstr name)).1
  let r1 := packet_take_hex recv
  let recv := (packet_expect r1.1 44).1
  let r2 := packet_take_hex recv
  let s := { s with recv := r2.1, brk := (break_set s.brk s.tgt.mem r1.2 r2.2).1 }
  { server_set_resp_str s "OK" 2 with state := .SEND_PREFIX }

/-- Call through the function pointer of a table entry. -/
def Handler.run (env : Env) (s : Probe) : Handler → Probe
  | .questionmark => server_handle_questionmark s
  | .bang => server_handle_bang s
  | .c => server_handle_c env s
  | .D => server_handle_D s
  | .g => server_handle_g s
  | .G => server_handle_G s
  | .H => server_handle_H s
  | .k => server_handle_k s
  | .m => server_handle_m s
  | .M => server_handle_M env s
  | .p => server_handle_p s
  | .P => server_handle_P s
  | .q => server_handle_q env s
  | .s => server_handle_s env s
  | .R => server_handle_R s
  | .v => server_handle_v env s
  | .z0 => server_handle_z "z0," s
  | .Z0 => server_handle_Z "Z0," s
  | .z1 => server_handle_z "z1," s
  | .Z1 => server_handle_Z "Z1," s

/-- `server_handle_packet` (the `PARANOID` block only reads and clears `CMDER`). -/
def server_handle_packet (env : Env) (s : Probe) : Probe :=
  match server_find_handler s.recv.buf with
  | some h =>
    let s := { s with recv := { s.recv with pos := 0 }, send := packet_clear s.send }
    let s := h.run env s
    if s.recv.error then server_set_resp_str s "E00" 3 else s
  | none => server_set_resp_null s

/-- The C expression `(expected_checksum << 4) | from_hex(byte_in)` stored into the
`uint8_t expected_checksum`: with `from_hex` = `-1` every bit of the `int` is set. -/
def push_nibble (expected : Nat) (h : Int) : Nat :=
  if h < 0 then 0xFF else u8 ((expected <<< 4) ||| h.toNat)

/-- `server_update(connected, byte_ie, byte_in, &byte_out)`; `now` is the value
`time_us_32()` returns in this call. The result is the new state and `some byte_out` when
the function returns `true`, `none` when it returns `false`. -/
def server_update (env : Env) (now : Nat) (s : Probe) (connected byte_ie : Bool)
    (byte_in : Nat) : Probe × Option Nat :=
  if !connected then
    if s.state ≠ .DISCONNECTED then
      let r := break_resume env (break_init s.brk) s.tgt
      ({ s with brk := r.1, tgt := r.2.1, state := .DISCONNECTED }, none)
    else (s, none)
  else
    match s.state with
    | .RUNNING =>
      if byte_in = 3 then
        let r := break_halt env s.brk s.tgt
        let s := { s with brk := r.1, tgt := r.2.1 }
        ({ server_set_resp_str s "T05" 3 with state := .SEND_PREFIX }, none)
      else if u32 (now + 4294967296 - s.last_halt) > 100000 then
        let s := { s with last_halt := u32 now }
        if s.tgt.allhalted then
          let r := break_halt env s.brk s.tgt
          let s := { s with brk := r.1, tgt := r.2.1 }
          ({ server_set_resp_str s "T05" 3 with state := .SEND_PREFIX }, none)
        else (s, none)
      else (s, none)
    | .DISCONNECTED =>
      let r := break_halt env s.brk s.tgt
      ({ s with brk := r.1, tgt := r.2.1, state := .IDLE }, none)
    | .IDLE =>
      if !byte_ie then (s, none)
      else if byte_in = 36 then
        ({ s with state := .RECV_PACKET, recv := packet_clear s.recv, checksum := 0 }, none)
      else (s, none)
    | .RECV_PACKET =>
      if !byte_ie then (s, none)
      else if byte_in = 35 then
        ({ s with expected_checksum := 0, state := .RECV_SUFFIX1 }, none)
      else if byte_in = 125 then
        ({ s with checksum := u8 (s.checksum + byte_in), state := .RECV_PACKET_ESCAPE }, none)
      else
        ({ s with checksum := u8 (s.checksum + byte_in),
                  recv := (packet_put s.recv byte_in).1 }, none)
    | .RECV_PACKET_ESCAPE =>
      if !byte_ie then (s, none)
      else
        ({ s with checksum := u8 (s.checksum + byte_in),
                  recv := (packet_put s.recv (byte_in ^^^ 0x20)).1,
                  state := .RECV_PACKET }, none)
    | .RECV_SUFFIX1 =>
      if !byte_ie then (s, none)
      else
        ({ s with expected_checksum := push_nibble s.expected_checksum (from_hex byte_in),
                  state := .RECV_SUFFIX2 }, none)
    | .RECV_SUFFIX2 =>
      if !byte_ie then (s, none)
      else
        let s := { s with expected_checksum := push_nibble s.expected_checksum (from_hex byte_in) }
        if s.expected_checksum ≠ s.checksum then ({ s with state := .IDLE }, some 45)
        else
          let s := server_handle_packet env s
          let s :=
            if s.state = .RECV_SUFFIX2 then
              { s with state := if s.send_valid then .SEND_PREFIX else .IDLE }
            else s
          (s, some 43)
    | .SEND_PREFIX =>
      ({ s with checksum := 0,
                state := if s.send.len ≠ 0 then .SEND_PACKET else .SEND_SUFFIX1,
                send := { s.send with pos := 0 } }, some 36)
    | .SEND_PACKET =>
      let b := s.send.buf s.send.pos
      if b = 35 ∨ b = 36 ∨ b = 125 ∨ b = 42 then
        ({ s with checksum := u8 (s.checksum + 125), state := .SEND_PACKET_ESCAPE }, some 125)
      else
        let s := { s with checksum := u8 (s.checksum + b),
                          send := { s.send with pos := u16 (s.send.pos + 1) } }
        (if s.send.pos = s.send.len then { s with state := .SEND_SUFFIX1 } else s, some b)
    | .SEND_PACKET_ESCAPE =>
      let b := s.send.buf s.send.pos
      ({ s with checksum := u8 (s.checksum + (b ^^^ 0x20)), state := .SEND_PACKET },
        some (b ^^^ 0x20))
    | .SEND_SUFFIX1 => ({ s with state := .SEND_SUFFIX2 }, some 35)
    | .SEND_SUFFIX2 => ({ s with state := .SEND_SUFFIX3 }, some (to_hex ((s.checksum >>> 4) &&& 0xF)))
    | .SEND_SUFFIX3 => ({ s with state := .RECV_ACK }, some (to_hex ((s.checksum >>> 0) &&& 0xF)))
    | .RECV_ACK =>
      if !byte_ie then (s, none)
      else if byte_in = 43 then ({ s with state := .IDLE }, none)
      else if byte_in = 45 then ({ s with state := .SEND_PACKET }, none)
      else (s, none)
    | .KILLED => (s, none)

/-! ## Driving the server -/

/-- State of the probe when `main` enters its loop: statics zeroed, then `break_init` and
`server_init` (the heap blocks hold `heap`). -/
def Probe.boot (heap : Nat → Nat) (t : Target) : Probe :=
  server_init
    { state := .DISCONNECTED,
      send := { buf := fun _ => 0, cap := 0, len := 0, pos := 0, error := false },
      recv := { buf := fun _ => 0, cap := 0, len := 0, pos := 0, error := false },
      send_valid := false, page_cache := fun _ => 0, page_base := 0, page_bitmap := 0,
      expected_checksum := 0, checksum := 0, last_halt := 0,
      brk := break_init Brk.power_on, tgt := t }
    heap heap heap

/-- One tick per byte of `bytes`, the host connected and a byte available in each; returns
the final state and the bytes written to the host, in order. -/
def feed (env : Env) (now : Nat) : Probe → List Nat → Probe × List Nat
  | s, [] => (s, [])
  | s, b :: bs =>
    let r := server_update env now s true true b
    let rest := feed env now r.1 bs
    (rest.1, (match r.2 with | some o => [o] | none => []) ++ rest.2)

/-- Ticks in which the host sends nothing (`byte_ie` false, `byte_in` the stale `last`). -/
def idle (env : Env) (now last : Nat) : Nat → Probe → Probe × List Nat
  | 0, s => (s, [])
  | n + 1, s =>
    let r := server_update env now s true false last
    let rest := idle env now last n r.1
    (rest.1, (match r.2 with | some o => [o] | none => []) ++ rest.2)

/-- A target whose memory and registers are all zero, halted. -/
def Target.zero : Target :=
  { mem := fun _ => toByte 0, gpr := fun _ => 0, dpc := 0, allhalted := true }

/-- A well-behaved environment: halt and resume succeed, a step leaves the DPC alone,
flash operations succeed, uninitialised bytes read `0xAA`. -/
def Env.nice : Env :=
  { halt := fun t => ({ t with allhalted := true }, true),
    step := fun t => t,
    resume := fun t => { t with allhalted := false },
    reset := fun t => t,
    flash_ok := fun _ => true,
    garbage := fun _ => 0xAA }

/-- The probe after boot (heap zeroed, target zeroed) and the first tick with the host
connected: the server is `IDLE`. -/
def Probe.connected : Probe :=
  (server_update Env.nice 0 (Probe.boot (fun _ => 0) Target.zero) true false 0).1

/-- The probe about to transmit the one-byte reply `#`. -/
def Probe.reply_hash : Probe :=
  { Probe.connected with
      state := .SEND_PREFIX,
      send := { Probe.connected.send with buf := cstr_at "#", len := 1 },
      send_valid := true }

/-! ## Specification-side definitions -/

/-- The bytes a packet holds: `buf[0 .. len-1]`. -/
def Packet.content (p : Packet) : List Nat := (List.range p.len).map p.buf

/-- Hex digit of a value below 16, as an ASCII code (capital letters). -/
def spec_hex_digit (d : Nat) : Nat := (cstr "0123456789ABCDEF").getD d 0

/-- The two hex digits of a byte, high nibble first. -/
def spec_hex_byte (b : Nat) : List Nat := [spec_hex_digit (b % 256 / 16), spec_hex_digit (b % 16)]

/-- The eight hex digits of a 32-bit word, least-significant byte first. -/
def spec_hex_le32 (x : Nat) : List Nat :=
  spec_hex_byte x ++ spec_hex_byte (x >>> 8) ++ spec_hex_byte (x >>> 16) ++ spec_hex_byte (x >>> 24)

/-- The 17 registers the reply to `g` lists: `x0 .. x15` of the target, then its DPC. -/
def spec_g_words (t : Target) : List Nat := (List.range 16).map t.gpr ++ [t.dpc]

/-- The reply body the claim describes for `g`: the 17 registers, each as the eight hex
digits of its 32-bit value. -/
def spec_g_reply (t : Target) : List Nat := (spec_g_words t).flatMap spec_hex_le32

/-- An item of a well-formed packet body as transmitted: a byte sent as it is, or a byte
sent after the escape character. -/
inductive BodyItem where
  | plain (b : Nat)
  | escaped (b : Nat)

/-- The bytes on the wire for an item: an escaped byte follows `}` (0x7d). -/
def BodyItem.wire : BodyItem → List Nat
  | .plain b => [b]
  | .escaped b => [125, b]

/-- A plain byte is neither `#` nor `}`; after the escape character any byte may follow. -/
def BodyItem.ok : BodyItem → Prop
  | .plain b => b ≠ 35 ∧ b ≠ 125
  | .escaped _ => True

/-- The bytes on the wire for a body. -/
def wire_body (items : List BodyItem) : List Nat := items.flatMap BodyItem.wire

/-- The probe holding the received packet `g`, about to handle it. -/
def Probe.got_g : Probe :=
  { Probe.connected with
      recv := { Probe.connected.recv with buf := cstr_at "g", len := 1 } }

/-- A halted target with `x_i = 0xA1B2C3D0 + i` and DPC `0x00000ABC`, memory zeroed. -/
def Target.sample : Target :=
  { mem := fun _ => toByte 0, gpr := fun i => 0xA1B2C3D0 + i, dpc := 0xABC, allhalted := true }

/-- The probe holding the received packet `g`, the target being `Target.sample`. -/
def Probe.got_g_sample : Probe := { Probe.got_g with tgt := Target.sample }

/-! ## `flash.c` : verification -/

/-- The compare loop of `flash_verify_pages` from index `i`, `n` words left: `false` at the
first difference. `readback` gives the word found at each index of the readback buffer. -/
def flash_verify_loop (data readback : Nat → Nat) : Nat → Nat → Bool
  | 0, _ => true
  | n + 1, i => if data i ≠ readback i then false else flash_verify_loop data readback n (i + 1)

/-- Number of 32-bit words the buffer `readback = malloc(bytes)` of `flash_verify_pages`
holds, `bytes` being `word_count * sizeof(uint32_t)` as a `uint32_t`. -/
def readback_words (word_count : Nat) : Nat := u32 (word_count * 4) / 4

/-- `flash_verify_pages(addr, data, word_count)` on the target memory `m`: the third argument
handed to `ctx_get_block_aligned` is `bytes`. `heap` is the content of the fresh buffer.
Returns the words `ctx_get_block_aligned` stores from index 0 of `readback` on, and the
`bool` result. -/
def flash_verify_pages (m : Mem) (heap : Nat → Nat) (addr : Nat) (data : Nat → Nat)
    (word_count : Nat) : List Nat × Bool :=
  let bytes := u32 (word_count * 4)
  let stored := (ctx_get_block_aligned m addr bytes).1
  (stored, flash_verify_loop data (fun i => stored.getD i (heap i)) (u32 word_count) 0)

/-! ## `xmodem.c` : the XMODEM receiver -/

def SOH : Nat := 0x01
def STX : Nat := 0x02
def EOT : Nat := 0x04
def ACK : Nat := 0x06
def NAK : Nat := 0x15
def CAN : Nat := 0x18
def MAX_RETRIES : Nat := 10
def CH32_FLASH_ADDR : Nat := 0x08000000
def CH32_FLASH_SECTOR_WORDS : Nat := CH32_FLASH_PAGE_WORDS * 16

/-- The type `xm_state`. -/
inductive XmState where
  | DISCONNECTED | SEND_CRC | RECV_HEADER | RECV_BLK | RECV_BLK_INV | RECV_DATA
  | RECV_CRC1 | RECV_CRC2 | VALIDATE | CANCEL
  deriving DecidableEq

/-- The module globals of `xmodem.c`; `last` is the static of `xmodem_send_request`. -/
structure Xm where
  xmodem_mode : Bool
  state : XmState
  blk_idx : Nat
  blk_inv : Nat
  blk_cur : Nat
  data : Nat → Nat
  data_idx : Nat
  data_size : Nat
  crc : Nat
  retry_cnt : Nat
  dst_addr : Nat
  last : Nat

/-- What the hardware answers during one call of `xmodem_update`: the timer, the DMA
channel and its CRC sniffer, and the results of the flash driver calls (by address, and
word count for write and verify). -/
structure XmHw where
  now : Nat
  dma_busy : Bool
  crc_acc : Nat
  fast_prog_locked : Bool
  erase_sector : Nat → Bool
  erase_page : Nat → Bool
  write_pages : Nat → Nat → Bool
  verify_pages : Nat → Nat → Bool

/-- `xmodem_validate`: `blk_idx`, `blk_inv` and `blk_cur` are `uint8_t`, promoted to `int`
in the sums and comparisons. -/
def xmodem_validate (hw : XmHw) (x : Xm) : Int :=
  if x.blk_idx + x.blk_inv ≠ 0xFF then 0
  else if u16 hw.crc_acc ≠ x.crc then 0
  else if x.blk_idx = x.blk_cur then -1
  else if x.blk_idx = x.blk_cur + 1 then 1
  else 0

/-- `erase_flash_verify`: the driver calls in their order, each one made only when the
ones before it returned `true`. -/
def erase_flash_verify (hw : XmHw) (x : Xm) : Xm × Bool :=
  if x.data_size = 1024 then
    if !hw.erase_sector x.dst_addr then (x, false)
    else if !hw.write_pages x.dst_addr CH32_FLASH_SECTOR_WORDS
        || !hw.verify_pages x.dst_addr CH32_FLASH_SECTOR_WORDS then (x, false)
    else ({ x with dst_addr := u32 (x.dst_addr + CH32_FLASH_SECTOR_WORDS * 4) }, true)
  else
    if !hw.erase_page x.dst_addr then (x, false)
    else if !hw.erase_page (u32 (x.dst_addr + CH32_FLASH_PAGE_SIZE)) then (x, false)
    else if !hw.write_pages x.dst_addr (CH32_FLASH_PAGE_WORDS * 2)
        || !hw.verify_pages x.dst_addr (CH32_FLASH_PAGE_WORDS * 2) then (x, false)
    else ({ x with dst_addr := u32 (x.dst_addr + CH32_FLASH_PAGE_WORDS * 2 * 4) }, true)

/-- `xmodem_handle_block`: the new state and the byte returned. -/
def xmodem_handle_block (hw : XmHw) (x : Xm) : Xm × Nat :=
  let result := xmodem_validate hw x
  if result ≠ 0 then
    if result ≠ -1 then
      let r := erase_flash_verify hw x
      if !r.2 then ({ r.1 with state := .CANCEL }, CAN)
      else ({ r.1 with blk_cur := u8 (r.1.blk_cur + 1), state := .RECV_HEADER }, ACK)
    else ({ x with state := .RECV_HEADER }, ACK)
  else
    let x := { x with retry_cnt := u8 (x.retry_cnt + 1) }
    if x.retry_cnt ≥ MAX_RETRIES then ({ x with state := .CANCEL }, CAN)
    else ({ x with state := .RECV_HEADER }, NAK)

/-- `xmodem_send_request`: the new state and the byte returned (0 for none). -/
def xmodem_send_request (hw : XmHw) (x : Xm) : Xm × Nat :=
  let now := u32 hw.now
  if x.last ≠ 0 ∧ u32 (now + 4294967296 - x.last) < 3000000 then (x, 0)
  else
    let x := { x with retry_cnt := u8 (x.retry_cnt + 1) }
    if x.retry_cnt > MAX_RETRIES then ({ x with state := .CANCEL }, CAN)
    else ({ x with last := now }, 67)

/-- `xmodem_start`: the new state and the `int` returned. -/
def xmodem_start (hw : XmHw) (x : Xm) (byte_ie : Bool) (byte_in : Nat) : Xm × Int :=
  if !byte_ie then (x, 1)
  else if byte_in ≠ SOH ∧ byte_in ≠ STX then (x, 1)
  else
    let x := { x with data_size := if byte_in = SOH then 128 else 1024 }
    if hw.fast_prog_locked then ({ x with state := .CANCEL }, -1)
    else ({ x with dst_addr := CH32_FLASH_ADDR, blk_cur := 0 }, 0)

/-- The statements at the label `header` of `xmodem_update`. -/
def xmodem_header (x : Xm) : Xm :=
  { x with blk_idx := 0, blk_inv := 0, data_idx := 0, crc := 0, state := .RECV_BLK }

/-- The statements at the label `cancel` of `xmodem_update`. -/
def xmodem_cancel (x : Xm) : Xm := { x with xmodem_mode := false, state := .DISCONNECTED }

/-- `xmodem_update(connected, byte_ie, byte_in, &byte_out)`: the new state and
`some byte_out` when the function returns `true`, `none` when it returns `false`. -/
def xmodem_update (hw : XmHw) (x : Xm) (connected byte_ie : Bool) (byte_in : Nat) :
    Xm × Option Nat :=
  let byte_in := u8 byte_in
  if !connected then ({ x with state := .DISCONNECTED }, none)
  else
    match x.state with
    | .RECV_DATA =>
      if !byte_ie then (x, none)
      else
        let x := { x with data := upd x.data x.data_idx byte_in, data_idx := u16 (x.data_idx + 1) }
        if x.data_idx < x.data_size then (x, none)
        else ({ x with state := .RECV_CRC1 }, none)
    | .RECV_BLK =>
      if byte_ie then ({ x with blk_idx := byte_in, state := .RECV_BLK_INV }, none) else (x, none)
    | .RECV_BLK_INV =>
      if byte_ie then ({ x with blk_inv := byte_in, state := .RECV_DATA }, none) else (x, none)
    | .RECV_CRC1 =>
      if byte_ie then ({ x with crc := u16 (byte_in <<< 8), state := .RECV_CRC2 }, none)
      else (x, none)
    | .RECV_CRC2 =>
      if byte_ie then ({ x with crc := x.crc ||| byte_in, state := .VALIDATE }, none)
      else (x, none)
    | .VALIDATE =>
      if hw.dma_busy then (x, none)
      else
        let r := xmodem_handle_block hw x
        (r.1, some (u8 r.2))
    | .DISCONNECTED => ({ x with retry_cnt := 0, state := .SEND_CRC }, none)
    | .SEND_CRC =>
      let r := xmodem_start hw x byte_ie byte_in
      if r.2 = 0 then (xmodem_header r.1, none)
      else if r.2 = -1 then (r.1, some CAN)
      else
        let q := xmodem_send_request hw r.1
        if q.2 ≠ 0 then (q.1, some (u8 q.2)) else (q.1, none)
    | .RECV_HEADER =>
      if !byte_ie then (x, none)
      else if byte_in = SOH ∨ byte_in = STX then (xmodem_header x, none)
      else if byte_in = EOT then (xmodem_cancel x, some ACK)
      else (x, none)
    | .CANCEL => (xmodem_cancel x, some CAN)

/-- One call of `xmodem_update` per byte of `bytes`, the host connected and a byte available
in each; returns the final state and the bytes written to the host, in order. -/
def xfeed (hw : XmHw) : Xm → List Nat → Xm × List Nat
  | x, [] => (x, [])
  | x, b :: bs =>
    let r := xmodem_update hw x true true b
    let rest := xfeed hw r.1 bs
    (rest.1, (match r.2 with | some o => [o] | none => []) ++ rest.2)

/-- One call of `xmodem_update` with no byte from the host. -/
def xtick (hw : XmHw) (x : Xm) : Xm × Option Nat := xmodem_update hw x true false 0

/-- Hardware that is ready and succeeds: DMA idle, flash unlocked, every driver call
returning `true`; the CRC sniffer holds `crc_acc`. -/
def XmHw.good (crc_acc : Nat) : XmHw :=
  { now := 0, dma_busy := false, crc_acc := crc_acc, fast_prog_locked := false,
    erase_sector := fun _ => true, erase_page := fun _ => true,
    write_pages := fun _ _ => true, verify_pages := fun _ _ => true }

/-- The statics of `xmodem.c` at power-on, with `xmodem_mode` switched on. -/
def Xm.power_on : Xm :=
  { xmodem_mode := true, state := .DISCONNECTED, blk_idx := 0, blk_inv := 0, blk_cur := 0,
    data := fun _ => 0, data_idx := 0, data_size := 0, crc := 0, retry_cnt := 0,
    dst_addr := 0, last := 0 }

/-- A frame on the wire: header byte, block number, its inverse, the data bytes and the two
CRC bytes, high byte first. -/
def xm_frame (hdr blk : Nat) (payload : List Nat) (crc : Nat) : List Nat :=
  hdr :: blk :: (255 - blk) :: (payload ++ [crc / 256 % 256, crc % 256])

/-- One exchange with the host from `IDLE`: the packet `pkt` is received, the reply is
transmitted during `n` ticks, and the host acknowledges it with `+`. Returns the final state
and everything written to the host. -/
def exchange (env : Env) (n : Nat) (s : Probe) (pkt : String) : Probe × List Nat :=
  let r1 := feed env 0 s (cstr pkt)
  let r2 := idle env 0 0 n r1.1
  let r3 := feed env 0 r2.1 [43]
  (r3.1, r1.2 ++ r2.2 ++ r3.2)

/-- Several exchanges in a row; returns the final state. -/
def exchanges (env : Env) (n : Nat) (s : Probe) (pkts : List String) : Probe :=
  pkts.foldl (fun s pkt => (exchange env n s pkt).1) s

/-- The 32 calls `break_set(0, 2)`, `break_set(2, 2)`, .., `break_set(0x3e, 2)`. -/
def fill_ops : List BrkOp := (List.range 32).map (fun i => BrkOp.set (2 * i) 2)

/-- The probe, `IDLE`, once the engine has accepted the 32 breakpoints of `fill_ops` (the
calls the handler of `Z0` makes for 32 packets `Z0,addr,2`). -/
def Probe.table_full : Probe :=
  { Probe.connected with
      brk := (run_ops (Probe.connected.brk, Probe.connected.tgt.mem) fill_ops).1 }

/-- The receiver once the host is connected: one call of `xmodem_update` from power-on,
which leaves `DISCONNECTED` for `SEND_CRC`. -/
def Xm.waiting : Xm := (xtick (XmHw.good 0) Xm.power_on).1

/-- The sample payload: 128 bytes `0x55`, whose CRC-16/XMODEM is `0x5B67`. -/
def xm_payload_55 : List Nat := List.replicate 128 0x55

/-- The `n`-th 128-byte frame of a transfer of sample payloads: block number `n mod 256`. -/
def xm_block (n : Nat) : List Nat := xm_frame SOH (n % 256) xm_payload_55 0x5B67

/-- The receiver after the first `n` frames of the transfer, each one followed by the call
of `xmodem_update` that validates it; the hardware succeeds throughout. -/
def xm_session : Nat → Xm
  | 0 => Xm.waiting
  | n + 1 => (xtick (XmHw.good 0x5B67) (xfeed (XmHw.good 0x5B67) (xm_session n) (xm_block (n + 1))).1).1

/-! ## `main.c` : one turn of the main loop -/

def SYN : Nat := 0x16

/-- What `main` works on: the GDB server with the engine and the target, the XMODEM receiver
(its field `xmodem_mode` is the global of that name), and the locals `usb_in` and `key_prev`
that live across the turns of the loop. -/
structure World where
  probe : Probe
  xm : Xm
  usb_in : Nat
  key_prev : Bool

/-- What one turn of the loop finds outside: the USB link (`connected`, and the byte read
when one is available), the key, the hardware behind the two state machines, and the effect
on the probe of the two calls whose code is not embedded here: `swio_reset` with the blink
that follows, and `console_update`. -/
structure MainHw where
  env : Env
  now : Nat
  xhw : XmHw
  connected : Bool
  usb_rx : Option Nat
  key_down : Bool
  swio_reset : Probe → Probe
  console_update : Nat → Probe → Probe

/-- The body of `while (true)` in `main` (`LOGS` is 0): the new state and the byte written
to the host when `usb_oe` is true. -/
def main_step (hw : MainHw) (w : World) : World × Option Nat :=
  let usb_ie := hw.usb_rx.isSome
  let w :=
    match hw.usb_rx with
    | some b =>
      let w := { w with usb_in := u8 b }
      if w.usb_in = SYN then { w with xm := { w.xm with xmodem_mode := true } } else w
    | none => w
  if w.xm.xmodem_mode then
    let r := xmodem_update hw.xhw w.xm hw.connected usb_ie w.usb_in
    ({ w with xm := r.1 }, r.2)
  else
    let w :=
      if hw.key_down then
        if w.key_prev then { w with probe := hw.swio_reset w.probe, key_prev := false } else w
      else { w with key_prev := true }
    let w := if usb_ie then { w with probe := hw.console_update w.usb_in w.probe } else w
    let r := server_update hw.env hw.now w.probe hw.connected usb_ie w.usb_in
    ({ w with probe := r.1 }, r.2)

/-- A quiet turn of the loop carrying the byte `b`: host connected, key up, the console
leaving the probe alone. -/
def MainHw.byte (b : Nat) : MainHw :=
  { env := Env.nice, now := 0, xhw := XmHw.good 0, connected := true, usb_rx := some b,
    key_down := false, swio_reset := fun p => p, console_update := fun _ p => p }

/-- One quiet turn of the loop per byte of `bytes`. -/
def main_feed : World → List Nat → World
  | w, [] => w
  | w, b :: bs => main_feed (main_step (MainHw.byte b) w).1 bs

/-- The state when the host has connected and the server is `IDLE`, XMODEM mode off. -/
def World.idle : World :=
  { probe := Probe.connected, xm := { Xm.power_on with xmodem_mode := false }, usb_in := 0,
    key_prev := true }

/-! ## `packet.c` : what `packet_take_hex` is to compute -/

/-- Value of a byte as a hex digit, upper or lower case; `none` for any other byte. -/
def spec_hex_val (b : Nat) : Option Nat :=
  if (cstr "0123456789abcdef").indexOf b < 16 then some ((cstr "0123456789abcdef").indexOf b)
  else if (cstr "0123456789ABCDEF").indexOf b < 16 then
    some ((cstr "0123456789ABCDEF").indexOf b)
  else none

/-- Value of the `k` hex digits found at `buf[pos .. pos+k-1]`, first digit most
significant (a byte that is no digit counts 0). -/
def spec_hex_value (buf : Nat → Nat) (pos : Nat) : Nat → Nat
  | 0 => 0
  | k + 1 => 16 * spec_hex_value buf pos k + (spec_hex_val (buf (pos + k))).getD 0

/-- The cursor of `p` is on a hex digit `i` bytes further on. -/
def hex_at (p : Packet) (i : Nat) : Prop :=
  p.pos + i < p.len ∧ (spec_hex_val (p.buf (p.pos + i))).isSome = true

/-! ## `context.c` : the register cache -/

def GPR_MAX : Nat := 16

/-- The statics of `context.c` that `ctx_load_prog` and its companions maintain. -/
structure Ctx where
  prog_clobber : Nat
  prog_size : Nat
  prog_cache : Nat → Nat
  reg_cache : Nat → Nat
  dirty_regs : Nat
  cached_regs : Nat

/-- `ctx_init`. -/
def ctx_init (c : Ctx) : Ctx :=
  { prog_clobber := 0, prog_size := 0,
    prog_cache := fun i => if i < 8 then 0xDEADBEEF else c.prog_cache i,
    reg_cache := fun i => if i < GPR_MAX then 0xDEADBEEF else c.reg_cache i,
    dirty_regs := 0, cached_regs := 0 }

/-- The statics at power-on. -/
def Ctx.power_on : Ctx :=
  { prog_clobber := 0, prog_size := 0, prog_cache := fun _ => 0, reg_cache := fun _ => 0,
    dirty_regs := 0, cached_regs := 0 }

/-- One turn of the second loop of `ctx_load_prog`, for register `i`. -/
def ctx_save_reg (t : Target) (clobber : Nat) (c : Ctx) (i : Nat) : Ctx :=
  let mask := 1 <<< i
  if clobber &&& mask = 0 ∨ c.cached_regs &&& mask ≠ 0 then c
  else if c.dirty_regs &&& mask ≠ 0 then c
  else
    { c with reg_cache := upd c.reg_cache i (ctx_get_gpr t i),
             cached_regs := c.cached_regs ||| mask }

/-- `ctx_load_prog(prog, size, clobber)`; `prog` gives the words at the pointer. -/
def ctx_load_prog (t : Target) (c : Ctx) (prog : Nat → Nat) (size clobber : Nat) : Ctx :=
  let c := { c with prog_cache := fun i => if i < u32 size then u32 (prog i) else c.prog_cache i }
  let c := (List.range GPR_MAX).foldl (ctx_save_reg t (u32 clobber)) c
  { c with prog_size := u32 size, prog_clobber := u32 clobber }

/-- `ctx_run_prog`; `ok` tells whether the device became ready within the timeout. -/
def ctx_run_prog (c : Ctx) (ok : Bool) : Ctx × Bool :=
  if !ok then (c, false)
  else ({ c with dirty_regs := c.dirty_regs ||| c.prog_clobber }, true)

/-- One turn of the loop of `ctx_reload_regs`, for register `i`. -/
def ctx_reload_reg (c : Ctx) (t : Target) (i : Nat) : Target :=
  let mask := 1 <<< i
  if c.dirty_regs &&& mask = 0 then t
  else if c.cached_regs &&& mask = 0 then t
  else ctx_set_gpr t i (c.reg_cache i)

/-- `ctx_reload_regs`. -/
def ctx_reload_regs (c : Ctx) (t : Target) : Ctx × Target :=
  ({ c with dirty_regs := 0 }, (List.range GPR_MAX).foldl (ctx_reload_reg c) t)

/-- `ctx_resume`; `in_reset` is the bit `ALLHAVERESET`, `go` the effect of the resume
request on the target. -/
def ctx_resume (c : Ctx) (t : Target) (in_reset : Bool) (go : Target → Target) :
    Ctx × Target × Bool :=
  if in_reset then (c, t, false)
  else
    let r := ctx_reload_regs c t
    ({ r.1 with cached_regs := 0 }, go r.2, true)

/-- `ctx_reset`; `ok` tells whether all four waits on the status succeeded, `rst` is the
effect on the target. On a failed wait the function returns before `ctx_init`. -/
def ctx_reset (c : Ctx) (t : Target) (ok : Bool) (rst : Target → Target) :
    Ctx × Target × Bool :=
  if !ok then (c, rst t, false) else (ctx_init c, rst t, true)

/-- A call of one of the operations, with what the hardware answers in it. -/
inductive CtxOp where
  | load (prog : Nat → Nat) (size clobber : Nat)
  | run (ok : Bool)
  | reload
  | resume (in_reset : Bool) (go : Target → Target)
  | reset (ok : Bool) (rst : Target → Target)

/-- Effect of a call. -/
def CtxOp.exec (s : Ctx × Target) : CtxOp → Ctx × Target
  | .load prog size clobber => (ctx_load_prog s.2 s.1 prog size clobber, s.2)
  | .run ok => ((ctx_run_prog s.1 ok).1, s.2)
  | .reload => ctx_reload_regs s.1 s.2
  | .resume in_reset go => ((ctx_resume s.1 s.2 in_reset go).1, (ctx_resume s.1 s.2 in_reset go).2.1)
  | .reset ok rst => ((ctx_reset s.1 s.2 ok rst).1, (ctx_reset s.1 s.2 ok rst).2.1)

/-- Effect of a sequence of calls. -/
def ctx_ops (s : Ctx × Target) (ops : List CtxOp) : Ctx × Target := ops.foldl CtxOp.exec s

/-- The C expression `dirty_regs & ~cached_regs` on the 32-bit statics. -/
def dirty_uncached (c : Ctx) : Nat := c.dirty_regs &&& (0xFFFFFFFF ^^^ u32 c.cached_regs)

/-- The clobber mask of the call lies over the 16 GPRs. -/
def CtxOp.clobber_ok : CtxOp → Prop
  | .load _ _ clobber => clobber < 65536
  | _ => True

/-- What a sequence of calls leaves for `ctx_run_prog` to find: the value of `prog_clobber`,
and whether it is stale, that is non-zero with `cached_regs` emptied by a successful
`ctx_resume` since it was loaded. -/
def CtxOp.track (s : Nat × Bool) : CtxOp → Nat × Bool
  | .load _ _ clobber => (u32 clobber, false)
  | .run _ => s
  | .reload => s
  | .resume in_reset _ => if in_reset then s else (s.1, decide (s.1 ≠ 0))
  | .reset ok _ => if ok then (0, false) else s

/-- `CtxOp.track` over a sequence of calls. -/
def ctx_track (s : Nat × Bool) (ops : List CtxOp) : Nat × Bool := ops.foldl CtxOp.track s

/-- No `ctx_run_prog` of the sequence succeeds on a stale clobber mask. -/
def stale_run_free (s : Nat × Bool) : List CtxOp → Prop
  | [] => True
  | .run true :: rest => s.2 = false ∧ stale_run_free s rest
  | op :: rest => stale_run_free (op.track s) rest

/-- Every bit set in `a` is set in `b`. -/
def bits_within (a b : Nat) : Prop := ∀ i, a.testBit i = true → b.testBit i = true

/-- The statics agree with what `CtxOp.track` recorded: `prog_clobber` is the tracked mask,
no register is dirty without a copy, a mask that is not stale lies within `cached_regs`, and
a stale one is non-zero over an empty `cached_regs`. -/
def ctx_tracked (c : Ctx) (tr : Nat × Bool) : Prop :=
  tr.1 = c.prog_clobber ∧ tr.1 < 4294967296 ∧
  bits_within c.dirty_regs c.cached_regs ∧
  (tr.2 = false → bits_within c.prog_clobber c.cached_regs) ∧
  (tr.2 = true → c.cached_regs = 0 ∧ tr.1 ≠ 0)

/-! ## `flash.c` : the register traffic of `flash_write_pages` -/

def FLASH_ACTLR : Nat := 0x40022000
def FLASH_CTLR : Nat := 0x40022010
def FLASH_ADDR : Nat := 0x40022014
def DM_DATA0_ADDR : Nat := 0xE00000F4
def CTLR_STRT : Nat := 1 <<< 6
def CTLR_FTPG : Nat := 1 <<< 16
def CTLR_BUFLOAD : Nat := 1 <<< 18
def CTLR_BUFRST : Nat := 1 <<< 19

/-- What `flash_write_pages` asks of the target, in order: a write of `DM_ABSTRACTAUTO`, a
32-bit store to a target address (`ctx_set_mem_u32_aligned`), a GPR write, a write of
`DM_DATA0`, and a run of the program buffer (`ctx_run_prog`). -/
inductive DmWrite where
  | abstractauto (v : Nat)
  | mem_u32 (addr v : Nat)
  | gpr (index v : Nat)
  | data0 (v : Nat)
  | run_prog
  deriving DecidableEq

/-- What the target answers during one call of `flash_write_pages`: the value `FLASH_CTLR`
holds at entry, whether the read of it succeeds (`ctx_get_mem_u32_aligned` returns 0 when its
program times out), the results of the two stores made before the program is loaded, of
`ctx_run_prog`, and of `ctx_abstracts_wait_busy` after word `i`. -/
structure FlashHw where
  ctlr_entry : Nat
  get_ctlr_ok : Bool
  set_addr_ok : Bool
  set_mode_ok : Bool
  run_ok : Bool
  word_ok : Nat → Bool

/-- The `for` loop of `flash_write_pages`, `n` words left from index `i`: the writes made
and whether the loop ran to its end (`false`: it left through `goto cleanup`). -/
def flash_write_words (hw : FlashHw) (src : Nat → Nat) : Nat → Nat → List DmWrite × Bool
  | 0, _ => ([], true)
  | n + 1, i =>
    if !hw.word_ok i then ([.data0 (u32 (src i))], false)
    else
      let r := flash_write_words hw src n (i + 1)
      (.data0 (u32 (src i)) :: r.1, r.2)

/-- `flash_write_pages(dst_addr, src_data, word_count)` as register traffic: the writes it
makes, in order, and its `bool` result. `CHECK` expands to nothing (`LOGS` is 0). -/
def flash_write_pages_trace (hw : FlashHw) (dst_addr : Nat) (src_data : Nat → Nat)
    (word_count : Nat) : List DmWrite × Bool :=
  let dst_addr := u32 dst_addr
  let w1 := [DmWrite.mem_u32 FLASH_ADDR dst_addr]
  if !hw.set_addr_ok then (w1, false)
  else
    let ctlr_save := if hw.get_ctlr_ok then u32 hw.ctlr_entry else 0
    let w2 := w1 ++ [DmWrite.mem_u32 FLASH_CTLR (CTLR_FTPG ||| CTLR_BUFRST)]
    if !hw.set_mode_ok then (w2, false)
    else
      let w3 := w2 ++
        [.gpr 10 FLASH_ACTLR, .gpr 11 DM_DATA0_ADDR, .gpr 12 dst_addr,
         .gpr 13 (CTLR_FTPG ||| CTLR_BUFLOAD), .gpr 14 (CTLR_FTPG ||| CTLR_STRT),
         .gpr 15 (CTLR_FTPG ||| CTLR_BUFRST), .data0 (u32 (src_data 0)), .run_prog]
      let body :=
        if !hw.run_ok then ([], false)
        else
          let r := flash_write_words hw src_data (u32 word_count - 1) 1
          (DmWrite.abstractauto 1 :: r.1, r.2)
      (w3 ++ body.1 ++ [.abstractauto 0, .mem_u32 FLASH_CTLR ctlr_save], body.2)

/-- The value of the write of `DM_ABSTRACTAUTO`, when the write is one. -/
def DmWrite.abstractauto_value : DmWrite → Option Nat
  | .abstractauto v => some v
  | _ => none

/-- The value of the store to `FLASH_CTLR`, when the write is one. -/
def DmWrite.ctlr_value : DmWrite → Option Nat
  | .mem_u32 addr v => if addr = FLASH_CTLR then some v else none
  | _ => none

/-- The last value written to `DM_ABSTRACTAUTO`, `none` when there was no such write. -/
def last_abstractauto (ws : List DmWrite) : Option Nat :=
  (ws.filterMap DmWrite.abstractauto_value).getLast?

/-- The last value stored to `FLASH_CTLR`, `none` when there was no such store. -/
def last_flash_ctlr (ws : List DmWrite) : Option Nat :=
  (ws.filterMap DmWrite.ctlr_value).getLast?

/-- The register traffic `ws` of a call that found `ctlr_entry` in `FLASH_CTLR` ends with
auto-exec disabled and `FLASH_CTLR` written back. -/
def flash_restored (ctlr_entry : Nat) (ws : List DmWrite) : Prop :=
  last_abstractauto ws = some 0 ∧ last_flash_ctlr ws = some (u32 ctlr_entry)

/-- A target on which every request of `flash_write_pages` succeeds; `FLASH_CTLR` holds
`0x8080` (`LOCK` and `FLOCK` set) at entry. -/
def FlashHw.good : FlashHw :=
  { ctlr_entry := 0x8080, get_ctlr_ok := true, set_addr_ok := true, set_mode_ok := true,
    run_ok := true, word_ok := fun _ => true }

/-! ## `context.c` : memory access, with the answers of the Debug Module

The definitions of `ctx_get_mem_u32_aligned` and `ctx_set_mem_u32_aligned` above are the case
in which every run of the access program completes. Here the outcome of each run is given:
the functions of this section are the same code with the two failure paths of the source,
`if (!ctx_run_prog(10000)) return 0;` in the read and `return ctx_run_prog(100000);` in the
write. -/

/-- What the Debug Module answers during one call of `ctx_set_mem_u8/u16/u32`: whether the
run of the program in the `k`-th aligned access of the call (counted from 0) completes in
time, and the memory a store leaves behind when its run timed out (the arguments are the
memory before, the address and the data). -/
structure MemHw where
  run_ok : Nat → Bool
  late_store : Mem → Nat → Nat → Mem

/-- `ctx_get_mem_u32_aligned` as access `k` of a call: 0 when `ctx_run_prog` times out. -/
def Hw.ctx_get_mem_u32_aligned (hw : MemHw) (k : Nat) (m : Mem) (addr : Nat) : Nat :=
  if !hw.run_ok k then 0 else m.read32 (u32 addr)

/-- `ctx_set_mem_u32_aligned` as access `k` of a call: the result is that of
`ctx_run_prog`. -/
def Hw.ctx_set_mem_u32_aligned (hw : MemHw) (k : Nat) (m : Mem) (addr data : Nat) :
    Mem × Bool :=
  if !hw.run_ok k then (hw.late_store m (u32 addr) (u32 data), false)
  else (m.write32 (u32 addr) (u32 data), true)

/-- `ctx_set_mem_u32`: one access for an aligned address; otherwise two reads, a write, and
the second write when the first returned `true` (`&&`). -/
def Hw.ctx_set_mem_u32 (hw : MemHw) (m : Mem) (addr data : Nat) : Mem × Bool :=
  let addr := u32 addr
  let data := u32 data
  let offset := addr &&& 3
  let addr_lo := addr &&& 0xFFFFFFFC
  let addr_hi := u32 (addr + 4) &&& 0xFFFFFFFC
  if offset = 0 then Hw.ctx_set_mem_u32_aligned hw 0 m addr_lo data
  else
    let data_lo := Hw.ctx_get_mem_u32_aligned hw 0 m addr_lo
    let data_hi := Hw.ctx_get_mem_u32_aligned hw 1 m addr_hi
    let (data_lo, data_hi) :=
      if offset = 1 then
        ((data_lo &&& 0x000000FF) ||| shl32 data 8, (data_hi &&& 0xFFFFFF00) ||| (data >>> 24))
      else if offset = 2 then
        ((data_lo &&& 0x0000FFFF) ||| shl32 data 16, (data_hi &&& 0xFFFF0000) ||| (data >>> 16))
      else if offset = 3 then
        ((data_lo &&& 0x00FFFFFF) ||| shl32 data 24, (data_hi &&& 0xFF000000) ||| (data >>> 8))
      else (data_lo, data_hi)
    let r1 := Hw.ctx_set_mem_u32_aligned hw 2 m addr_lo data_lo
    if r1.2 then Hw.ctx_set_mem_u32_aligned hw 3 r1.1 addr_hi data_hi else (r1.1, false)

/-- `ctx_set_mem_u8`: a read and a write. -/
def Hw.ctx_set_mem_u8 (hw : MemHw) (m : Mem) (addr data : Nat) : Mem × Bool :=
  let addr := u32 addr
  let data := u8 data
  let offset := addr &&& 3
  let addr_lo := addr &&& 0xFFFFFFFC
  let data_lo := Hw.ctx_get_mem_u32_aligned hw 0 m addr_lo
  let data_lo :=
    if offset = 0 then (data_lo &&& 0xFFFFFF00) ||| data
    else if offset = 1 then (data_lo &&& 0xFFFF00FF) ||| shl32 data 8
    else if offset = 2 then (data_lo &&& 0xFF00FFFF) ||| shl32 data 16
    else if offset = 3 then (data_lo &&& 0x00FFFFFF) ||| shl32 data 24
    else data_lo
  Hw.ctx_set_mem_u32_aligned hw 1 m addr_lo data_lo

/-- A Debug Module on which every run completes. -/
def MemHw.good : MemHw := { run_ok := fun _ => true, late_store := fun m _ _ => m }

/-- A flash image holding `0x55` at `0x120` (byte 32 of page 4) and zero elsewhere. -/
def flash_0x120 : Mem := fun x => if x = 0x120 then toByte 0x55 else toByte 0

/-- The cache after `ctx_init` at power-on, as `main` leaves it. -/
def Ctx.start : Ctx := ctx_init Ctx.power_on

/-- A packet holding the text `s`, cursor at `pos`. -/
def Packet.of_text (s : String) (pos : Nat) : Packet :=
  { buf := cstr_at s, cap := 256, len := s.length, pos := pos, error := false }

/-! ## Lemmas -/

set_option linter.all false
set_option maxRecDepth 8000

theorem toByte_val (b : Fin 256) : toByte b.val = b := by
  apply Fin.ext
  simp [toByte, Nat.mod_eq_of_lt b.isLt]

theorem u32_wordOfBytes (b0 b1 b2 b3 : Nat) : u32 (wordOfBytes b0 b1 b2 b3) = wordOfBytes b0 b1 b2 b3 := by
  simp only [wordOfBytes, u32]
  omega

theorem break_patch_fold (ok : Nat → Bool) (b : Brk) (t : Mem) (n : Nat) :
    (List.range n).foldl (break_patch_page ok) (b, t) =
      ({ b with
          flash_map := fun p => if p < n ∧ b.dirty_map p ≠ 0 then b.break_map p else b.flash_map p,
          dirty_map := fun p => if p < n then 0 else b.dirty_map p },
       fun x => if x / 64 < n ∧ b.dirty_map (x / 64) ≠ 0 ∧ ok (x / 64) = true
                then toByte (b.flash_dirty x) else t x) := by
  induction n with
  | zero => simp
  | succ n ih =>
    rw [List.range_succ, List.foldl_append, ih]
    simp only [List.foldl_cons, List.foldl_nil, break_patch_page, lt_self_iff_false, if_false,
      false_and]
    by_cases hd : b.dirty_map n = 0
    · simp only [hd, if_true]
      congr 1
      · congr 1
        · funext p
          by_cases hp : p = n
          · subst hp; simp [hd]
          · have : (p < n + 1) = (p < n) := by apply propext; omega
            simp only [this]
        · funext p
          by_cases hp : p = n
          · subst hp; simp [hd]
          · have : (p < n + 1) = (p < n) := by apply propext; omega
            simp only [this]
      · funext x
        by_cases hp : x / 64 = n
        · simp [hp, hd]
        · have : (x / 64 < n + 1) = (x / 64 < n) := by apply propext; omega
          simp only [this]
    · simp only [hd, if_false]
      congr 1
      · congr 1
        · funext p
          simp only [upd]
          by_cases hp : p = n
          · subst hp; simp [hd]
          · have : (p < n + 1) = (p < n) := by apply propext; omega
            simp only [this, hp, if_false]
        · funext p
          simp only [upd]
          by_cases hp : p = n
          · subst hp; simp
          · have : (p < n + 1) = (p < n) := by apply propext; omega
            simp only [this, hp, if_false]
      · funext x
        by_cases hp : x / 64 = n
        · have h1 : n * 64 ≤ x ∧ x < n * 64 + 64 := by omega
          by_cases hk : ok n = true
          · simp [flash_program_page, CH32_FLASH_PAGE_SIZE, hp, hd, hk, h1]
          · simp [hp, hd, hk]
        · have : (x / 64 < n + 1) = (x / 64 < n) := by apply propext; omega
          have h1 : ¬ (n * 64 ≤ x ∧ x < n * 64 + 64) := by omega
          by_cases hk : ok n = true
          · simp only [hk, if_true, flash_program_page, CH32_FLASH_PAGE_SIZE, this, h1, if_false]
          · simp [hk, this]

theorem break_unpatch_fold (ok : Nat → Bool) (b : Brk) (t : Mem) (n : Nat) :
    (List.range n).foldl (break_unpatch_page ok) (b, t) =
      ({ b with
          flash_map := fun p => if p < n then 0 else b.flash_map p,
          dirty_map := fun p => if p < n ∧ b.flash_map p ≠ 0 then 1 else b.dirty_map p },
       fun x => if x / 64 < n ∧ b.flash_map (x / 64) ≠ 0 ∧ ok (x / 64) = true
                then toByte (b.flash_clean x) else t x) := by
  induction n with
  | zero => simp
  | succ n ih =>
    rw [List.range_succ, List.foldl_append, ih]
    simp only [List.foldl_cons, List.foldl_nil, break_unpatch_page, lt_self_iff_false, if_false,
      false_and]
    by_cases hd : b.flash_map n = 0
    · simp only [hd, if_true]
      congr 1
      · congr 1
        · funext p
          by_cases hp : p = n
          · subst hp; simp [hd]
          · have : (p < n + 1) = (p < n) := by apply propext; omega
            simp only [this]
        · funext p
          by_cases hp : p = n
          · subst hp; simp [hd]
          · have : (p < n + 1) = (p < n) := by apply propext; omega
            simp only [this]
      · funext x
        by_cases hp : x / 64 = n
        · simp [hp, hd]
        · have : (x / 64 < n + 1) = (x / 64 < n) := by apply propext; omega
          simp only [this]
    · simp only [hd, if_false]
      congr 1
      · congr 1
        · funext p
          simp only [upd]
          by_cases hp : p = n
          · subst hp; simp
          · have : (p < n + 1) = (p < n) := by apply propext; omega
            simp only [this, hp, if_false]
        · funext p
          simp only [upd]
          by_cases hp : p = n
          · subst hp; simp [hd]
          · have : (p < n + 1) = (p < n) := by apply propext; omega
            simp only [this, hp, if_false]
      · funext x
        by_cases hp : x / 64 = n
        · have h1 : n * 64 ≤ x ∧ x < n * 64 + 64 := by omega
          by_cases hk : ok n = true
          · simp [flash_program_page, CH32_FLASH_PAGE_SIZE, hp, hd, hk, h1]
          · simp [hp, hd, hk]
        · have : (x / 64 < n + 1) = (x / 64 < n) := by apply propext; omega
          have h1 : ¬ (n * 64 ≤ x ∧ x < n * 64 + 64) := by omega
          by_cases hk : ok n = true
          · simp only [hk, if_true, flash_program_page, CH32_FLASH_PAGE_SIZE, this, h1, if_false]
          · simp [hk, this]

theorem break_patch_flash_eq (ok : Nat → Bool) (b : Brk) (t : Mem) :
    break_patch_flash ok b t =
      ({ b with
          flash_map := fun p => if p < 256 ∧ b.dirty_map p ≠ 0 then b.break_map p else b.flash_map p,
          dirty_map := fun p => if p < 256 then 0 else b.dirty_map p },
       fun x => if x / 64 < 256 ∧ b.dirty_map (x / 64) ≠ 0 ∧ ok (x / 64) = true
                then toByte (b.flash_dirty x) else t x) :=
  break_patch_fold ok b t 256

theorem break_unpatch_flash_eq (ok : Nat → Bool) (b : Brk) (t : Mem) :
    break_unpatch_flash ok b t =
      ({ b with
          flash_map := fun p => if p < 256 then 0 else b.flash_map p,
          dirty_map := fun p => if p < 256 ∧ b.flash_map p ≠ 0 then 1 else b.dirty_map p },
       fun x => if x / 64 < 256 ∧ b.flash_map (x / 64) ≠ 0 ∧ ok (x / 64) = true
                then toByte (b.flash_clean x) else t x) :=
  break_unpatch_fold ok b t 256

theorem set_on_empty_table (b : Brk) (t : Mem) (hb : b.breakpoints = empty_table) :
    (break_set b t 0x100 2).1.breakpoints = upd empty_table 0 0x100 ∧
    (break_set b t 0x100 2).1.break_map = upd b.break_map 4 (u8 (b.break_map 4 + 1)) ∧
    (break_set b t 0x100 2).1.flash_map = b.flash_map ∧
    (break_set b t 0x100 2).1.dirty_map = upd b.dirty_map 4 (u8 (b.dirty_map 4 + 1)) := by
  have f1 : break_find_loop empty_table 256 32 0 = -1 := by decide
  have f2 : break_find_loop empty_table 0xDEADBEEF 32 0 = 0 := by decide
  have a1 : u32 0x100 = 256 := by decide
  have a2 : ¬ (u32 (256 + 2) ≥ CH32_FLASH_SIZE ∨ 256 &&& 1 ≠ 0) := by decide
  simp only [break_set, break_find, hb, a1, f1, f2, MAX_BREAKPOINT]
  simp only [a2, if_false]
  simp [CH32_FLASH_PAGE_SIZE]

theorem clear_on_one_entry (b : Brk) (hb : b.breakpoints = upd empty_table 0 0x100) :
    (break_clear b 0x100 2).1.breakpoints = empty_table ∧
    (break_clear b 0x100 2).1.break_map = upd b.break_map 4 (u8 (b.break_map 4 + 255)) ∧
    (break_clear b 0x100 2).1.flash_map = b.flash_map ∧
    (break_clear b 0x100 2).1.dirty_map = upd b.dirty_map 4 (u8 (b.dirty_map 4 + 1)) := by
  have f1 : break_find_loop (upd empty_table 0 0x100) 256 32 0 = 0 := by decide
  have a1 : u32 0x100 = 256 := by decide
  have a2 : ¬ (u32 (256 + 2) ≥ CH32_FLASH_SIZE ∨ 256 &&& 1 ≠ 0) := by decide
  have e : upd (upd empty_table 0 256) 0 0xDEADBEEF = empty_table := by
    funext i
    simp only [upd, empty_table]
    by_cases hi : i = 0
    · subst hi; decide
    · simp only [hi, if_false]
  simp only [break_clear, break_find, hb, a1, f1, MAX_BREAKPOINT]
  simp only [a2, if_false]
  simp [CH32_FLASH_PAGE_SIZE, e]

theorem set_second_entry (b : Brk) (t : Mem) (hb : b.breakpoints = upd empty_table 0 0x100) :
    (break_set b t 0x102 2).1.break_map = upd b.break_map 4 (u8 (b.break_map 4 + 1)) ∧
    (break_set b t 0x102 2).1.flash_map = b.flash_map ∧
    (break_set b t 0x102 2).1.dirty_map = upd b.dirty_map 4 (u8 (b.dirty_map 4 + 1)) := by
  have f1 : break_find_loop (upd empty_table 0 0x100) 258 32 0 = -1 := by decide
  have f2 : break_find_loop (upd empty_table 0 0x100) 0xDEADBEEF 32 0 = 1 := by decide
  have a1 : u32 0x102 = 258 := by decide
  have a2 : ¬ (u32 (258 + 2) ≥ CH32_FLASH_SIZE ∨ 258 &&& 1 ≠ 0) := by decide
  simp only [break_set, break_find, hb, a1, f1, f2, MAX_BREAKPOINT]
  simp only [a2, if_false]
  simp [CH32_FLASH_PAGE_SIZE]

theorem run_ops_append (s : Brk × Mem) (l1 l2 : List BrkOp) :
    run_ops s (l1 ++ l2) = run_ops (run_ops s l1) l2 := by
  simp [run_ops, List.foldl_append]

theorem set_clear_pair_step (s : Brk × Mem) (hb : s.1.breakpoints = empty_table)
    (hbm : s.1.break_map 4 = 0) (hfm : s.1.flash_map 4 = 0) :
    (run_ops s set_clear_pair).1.breakpoints = empty_table ∧
    (run_ops s set_clear_pair).1.break_map 4 = 0 ∧
    (run_ops s set_clear_pair).1.flash_map 4 = 0 ∧
    (run_ops s set_clear_pair).1.dirty_map 4 = u8 (u8 (s.1.dirty_map 4 + 1) + 1) := by
  obtain ⟨s1, s2, s3, s4⟩ := set_on_empty_table s.1 s.2 hb
  obtain ⟨c1, c2, c3, c4⟩ := clear_on_one_entry (break_set s.1 s.2 0x100 2).1 s1
  simp only [run_ops, set_clear_pair, List.foldl_cons, List.foldl_nil, BrkOp.run]
  refine ⟨c1, ?_, ?_, ?_⟩
  · rw [c2, s2]; simp [upd, hbm, u8]
  · rw [c3, s3]; exact hfm
  · rw [c4, s4]; simp [upd]

theorem set_clear_pairs (k : Nat) : ∀ (s : Brk × Mem), s.1.breakpoints = empty_table →
    s.1.break_map 4 = 0 → s.1.flash_map 4 = 0 → s.1.dirty_map 4 < 256 →
    (run_ops s (List.replicate k set_clear_pair).flatten).1.breakpoints = empty_table ∧
    (run_ops s (List.replicate k set_clear_pair).flatten).1.break_map 4 = 0 ∧
    (run_ops s (List.replicate k set_clear_pair).flatten).1.flash_map 4 = 0 ∧
    (run_ops s (List.replicate k set_clear_pair).flatten).1.dirty_map 4 =
      (s.1.dirty_map 4 + 2 * k) % 256 := by
  induction k with
  | zero =>
    intro s hb hbm hfm hd
    have e : run_ops s (List.replicate 0 set_clear_pair).flatten = s := rfl
    rw [e]
    exact ⟨hb, hbm, hfm, by omega⟩
  | succ k ih =>
    intro s hb hbm hfm hd
    obtain ⟨p1, p2, p3, p4⟩ := set_clear_pair_step s hb hbm hfm
    have hd' : (run_ops s set_clear_pair).1.dirty_map 4 < 256 := by
      rw [p4]; simp only [u8]; omega
    obtain ⟨q1, q2, q3, q4⟩ := ih (run_ops s set_clear_pair) p1 p2 p3 hd'
    have e : (List.replicate (k + 1) set_clear_pair).flatten =
        set_clear_pair ++ (List.replicate k set_clear_pair).flatten := rfl
    rw [e, run_ops_append]
    refine ⟨q1, q2, q3, ?_⟩
    rw [q4, p4]
    simp only [u8]
    omega

theorem wrap_tail (s : Brk × Mem) (hb : s.1.breakpoints = empty_table)
    (hbm : s.1.break_map 4 = 0) (hfm : s.1.flash_map 4 = 0) (hd : s.1.dirty_map 4 = 254) :
    (run_ops s [BrkOp.set 0x100 2, BrkOp.set 0x102 2, BrkOp.patch]).1.flash_map 4 = 0 ∧
    (run_ops s [BrkOp.set 0x100 2, BrkOp.set 0x102 2, BrkOp.patch]).1.break_map 4 = 2 ∧
    (run_ops s [BrkOp.set 0x100 2, BrkOp.set 0x102 2, BrkOp.patch]).1.dirty_map 4 = 0 := by
  obtain ⟨s1, s2, s3, s4⟩ := set_on_empty_table s.1 s.2 hb
  obtain ⟨r2, r3, r4⟩ := set_second_entry (break_set s.1 s.2 0x100 2).1 s.2 s1
  simp only [run_ops, List.foldl_cons, List.foldl_nil, BrkOp.run, break_patch_flash_eq]
  simp only [r2, r3, r4, s2, s3, s4, hbm, hfm, hd, upd, u8]
  decide

theorem wrap_ops_result (t : Mem) :
    (run_ops (Brk.start, t) wrap_ops).1.flash_map 4 = 0 ∧
    (run_ops (Brk.start, t) wrap_ops).1.break_map 4 = 2 ∧
    (run_ops (Brk.start, t) wrap_ops).1.dirty_map 4 = 0 := by
  have h0 : (Brk.start, t).1.breakpoints = empty_table := by
    funext i
    simp [Brk.start, break_init, Brk.power_on, empty_table, MAX_BREAKPOINT]
  obtain ⟨q1, q2, q3, q4⟩ := set_clear_pairs 127 (Brk.start, t) h0 rfl rfl (Nat.zero_lt_succ 255)
  have q4' : (run_ops (Brk.start, t) (List.replicate 127 set_clear_pair).flatten).1.dirty_map 4 = 254 := by
    rw [q4]; rfl
  rw [wrap_ops, run_ops_append]
  exact wrap_tail _ q1 q2 q3 q4'

theorem straddle_eval :
    (break_set Brk.start straddle_flash 62 4).2 = 0 ∧
    (break_patch_flash (fun _ => true) (break_set Brk.start straddle_flash 62 4).1
      straddle_flash).2.read32 62 = 0x00000073 := by
  rw [break_patch_flash_eq]
  decide

theorem escape_loop_step (env : Env) (now last : Nat) (s : Probe)
    (h : s.send.buf s.send.pos = 35)
    (hs : s.state = .SEND_PACKET ∨ s.state = .SEND_PACKET_ESCAPE) :
    ((server_update env now s true false last).1.state = .SEND_PACKET ∨
     (server_update env now s true false last).1.state = .SEND_PACKET_ESCAPE) ∧
    (server_update env now s true false last).1.send = s.send := by
  rcases hs with hs | hs
  · simp [server_update, hs, h]
  · simp [server_update, hs, h]

theorem escape_loop_idle (env : Env) (now last : Nat) (n : Nat) : ∀ (s : Probe),
    s.send.buf s.send.pos = 35 →
    (s.state = .SEND_PACKET ∨ s.state = .SEND_PACKET_ESCAPE) →
    ((idle env now last n s).1.state = .SEND_PACKET ∨
     (idle env now last n s).1.state = .SEND_PACKET_ESCAPE) := by
  induction n with
  | zero => intro s _ hs; exact hs
  | succ n ih =>
    intro s h hs
    obtain ⟨h1, h2⟩ := escape_loop_step env now last s h hs
    simp only [idle]
    exact ih _ (by rw [h2]; exact h) h1

theorem packet_put_ok (p : Packet) (b : Nat) (h : p.len < p.cap) (hc : p.cap ≤ 65535) :
    (packet_put p b).2 = true ∧ (packet_put p b).1.len = p.len + 1 ∧
    (packet_put p b).1.cap = p.cap ∧ (packet_put p b).1.error = p.error ∧
    (packet_put p b).1.pos = p.pos ∧
    (packet_put p b).1.content = p.content ++ [u8 b] := by
  have h1 : ¬ (p.len ≥ p.cap) := by omega
  have h2 : u16 (p.len + 1) = p.len + 1 := by simp only [u16]; omega
  simp only [packet_put, h1, if_false, h2, Packet.content, true_and]
  rw [List.range_succ, List.map_append]
  simp only [List.map_cons, List.map_nil, upd, if_true]
  congr 1
  apply List.map_congr_left
  intro i hi
  have : i ≠ p.len := by
    have := List.mem_range.mp hi
    omega
  simp only [upd, this, if_false]

theorem to_hex_digit (d : Nat) (h : d < 16) : to_hex d = spec_hex_digit d := by
  interval_cases d <;> decide

theorem packet_put_hex_u8_ok (p : Packet) (b : Nat) (h : p.len + 2 ≤ p.cap) (hc : p.cap ≤ 65535) :
    (packet_put_hex_u8 p b).2 = true ∧ (packet_put_hex_u8 p b).1.len = p.len + 2 ∧
    (packet_put_hex_u8 p b).1.cap = p.cap ∧ (packet_put_hex_u8 p b).1.error = p.error ∧
    (packet_put_hex_u8 p b).1.pos = p.pos ∧
    (packet_put_hex_u8 p b).1.content = p.content ++ spec_hex_byte b := by
  obtain ⟨a1, a2, a3, a4, a5, a6⟩ := packet_put_ok p (to_hex (u8 b >>> 4)) (by omega) hc
  obtain ⟨b1, b2, b3, b4, b5, b6⟩ :=
    packet_put_ok (packet_put p (to_hex (u8 b >>> 4))).1 (to_hex (u8 b &&& 0xF))
      (by rw [a2, a3]; omega) (by rw [a3]; exact hc)
  have e1 : u8 (to_hex (u8 b >>> 4)) = spec_hex_digit (b % 256 / 16) := by
    have hlt : u8 b >>> 4 < 16 := by simp only [u8]; omega
    rw [to_hex_digit _ hlt]
    have : u8 b >>> 4 = b % 256 / 16 := by simp only [u8]; omega
    rw [this]
    have h16 : b % 256 / 16 < 16 := by omega
    generalize b % 256 / 16 = d at h16
    interval_cases d <;> decide
  have e2 : u8 (to_hex (u8 b &&& 0xF)) = spec_hex_digit (b % 16) := by
    have hm : u8 b &&& 0xF = b % 16 := by
      have := Nat.and_pow_two_sub_one_eq_mod (u8 b) 4
      simp only [u8] at *
      norm_num at this
      omega
    rw [hm]
    have h16 : b % 16 < 16 := by omega
    rw [to_hex_digit _ h16]
    generalize b % 16 = d at h16
    interval_cases d <;> decide
  simp only [packet_put_hex_u8, a1, if_true]
  refine ⟨b1, ?_, ?_, ?_, ?_, ?_⟩
  · rw [b2, a2]
  · rw [b3, a3]
  · rw [b4, a4]
  · rw [b5, a5]
  · rw [b6, a6, e1, e2]; simp [spec_hex_byte]

theorem packet_put_hex_u32_ok (p : Packet) (x : Nat) (h : p.len + 8 ≤ p.cap) (hc : p.cap ≤ 65535) :
    (packet_put_hex_u32 p x).2 = true ∧ (packet_put_hex_u32 p x).1.len = p.len + 8 ∧
    (packet_put_hex_u32 p x).1.cap = p.cap ∧ (packet_put_hex_u32 p x).1.error = p.error ∧
    (packet_put_hex_u32 p x).1.pos = p.pos ∧
    (packet_put_hex_u32 p x).1.content = p.content ++ spec_hex_le32 (u32 x) := by
  obtain ⟨a1, a2, a3, a4, a5, a6⟩ := packet_put_hex_u8_ok p (u32 x) (by omega) hc
  obtain ⟨b1, b2, b3, b4, b5, b6⟩ :=
    packet_put_hex_u8_ok (packet_put_hex_u8 p (u32 x)).1 (u32 x >>> 8)
      (by rw [a2, a3]; omega) (by rw [a3]; exact hc)
  obtain ⟨c1, c2, c3, c4, c5, c6⟩ :=
    packet_put_hex_u8_ok (packet_put_hex_u8 (packet_put_hex_u8 p (u32 x)).1 (u32 x >>> 8)).1
      (u32 x >>> 16) (by rw [b2, b3, a2, a3]; omega) (by rw [b3, a3]; exact hc)
  obtain ⟨d1, d2, d3, d4, d5, d6⟩ :=
    packet_put_hex_u8_ok
      (packet_put_hex_u8 (packet_put_hex_u8 (packet_put_hex_u8 p (u32 x)).1 (u32 x >>> 8)).1
        (u32 x >>> 16)).1
      (u32 x >>> 24) (by rw [c2, c3, b2, b3, a2, a3]; omega) (by rw [c3, b3, a3]; exact hc)
  simp only [packet_put_hex_u32, a1, b1, c1, Bool.not_true, Bool.false_eq_true, if_false]
  refine ⟨d1, ?_, ?_, ?_, ?_, ?_⟩
  · rw [d2, c2, b2, a2]
  · rw [d3, c3, b3, a3]
  · rw [d4, c4, b4, a4]
  · rw [d5, c5, b5, a5]
  · rw [d6, c6, b6, a6]; simp [spec_hex_le32, List.append_assoc]

theorem put_regs_loop_ok (buf1 : Nat → Nat) (n : Nat) : ∀ (i : Nat) (p : Packet),
    p.len + 8 * n ≤ p.cap → p.cap ≤ 65535 →
    (put_regs_loop buf1 n i p).len = p.len + 8 * n ∧
    (put_regs_loop buf1 n i p).cap = p.cap ∧
    (put_regs_loop buf1 n i p).error = p.error ∧
    (put_regs_loop buf1 n i p).content =
      p.content ++ (List.range n).flatMap (fun k => spec_hex_le32 (u32 (buf1 (i + k)))) := by
  induction n with
  | zero => intro i p _ _; simp [put_regs_loop]
  | succ n ih =>
    intro i p h hc
    obtain ⟨a1, a2, a3, a4, a5, a6⟩ := packet_put_hex_u32_ok p (buf1 i) (by omega) hc
    obtain ⟨q1, q2, q3, q4⟩ := ih (i + 1) (packet_put_hex_u32 p (buf1 i)).1
      (by rw [a2, a3]; omega) (by rw [a3]; exact hc)
    simp only [put_regs_loop]
    refine ⟨?_, ?_, ?_, ?_⟩
    · rw [q1, a2]; omega
    · rw [q2, a3]
    · rw [q3, a4]
    · rw [q4, a6, List.range_succ_eq_map, List.flatMap_cons, List.flatMap_map, List.append_assoc]
      congr 2
      apply List.flatMap_congr
      intro k _
      simp only [Function.comp, Nat.add_assoc, Nat.add_comm 1 k]

theorem find_handler_g (buf : Nat → Nat) (h : buf 0 = 103) : server_find_handler buf = some .g := by
  have e1 : cstr "?" = [63] := by decide
  have e2 : cstr "!" = [33] := by decide
  have e3 : cstr "c" = [99] := by decide
  have e4 : cstr "D" = [68] := by decide
  have e5 : cstr "g" = [103] := by decide
  simp [server_find_handler, server_handlers, server_find_handler_loop, s_cmp, s_cmp_from,
    e1, e2, e3, e4, e5, h]

theorem packet_expect_hit (p : Packet) (b : Nat) (h1 : p.pos < p.len) (h2 : p.buf p.pos = b) :
    packet_expect p b = ({ p with pos := u16 (p.pos + 1) }, true) := by
  simp [packet_expect, packet_match_advance, packet_match, h1, h2]

theorem server_handle_g_eq (s1 : Probe) (r : Packet)
    (hx : packet_expect s1.recv 103 = (r, true)) (hr : r.error = false) :
    server_handle_g s1 =
      { s1 with recv := r,
                send := put_regs_loop (fun i => ctx_get_gpr s1.tgt i) 17 0 (packet_clear s1.send),
                send_valid := true, state := .SEND_PREFIX } := by
  unfold server_handle_g
  simp only [hx, hr, Bool.false_eq_true, if_false]

theorem spec_hex_byte_mod (b : Nat) : spec_hex_byte (b % 256) = spec_hex_byte b := by
  unfold spec_hex_byte
  rw [Nat.mod_mod, show b % 256 % 16 = b % 16 by omega]

theorem spec_hex_le32_u32 (x : Nat) : spec_hex_le32 (u32 x) = spec_hex_le32 x := by
  have e0 : spec_hex_byte (u32 x) = spec_hex_byte x := by
    unfold spec_hex_byte u32
    rw [show x % 4294967296 % 256 = x % 256 by omega, show x % 4294967296 % 16 = x % 16 by omega]
  have e1 : spec_hex_byte (u32 x >>> 8) = spec_hex_byte (x >>> 8) := by
    unfold spec_hex_byte u32
    simp only [Nat.shiftRight_eq_div_pow]
    rw [show x % 4294967296 / 2 ^ 8 % 256 = x / 2 ^ 8 % 256 by omega,
      show x % 4294967296 / 2 ^ 8 % 16 = x / 2 ^ 8 % 16 by omega]
  have e2 : spec_hex_byte (u32 x >>> 16) = spec_hex_byte (x >>> 16) := by
    unfold spec_hex_byte u32
    simp only [Nat.shiftRight_eq_div_pow]
    rw [show x % 4294967296 / 2 ^ 16 % 256 = x / 2 ^ 16 % 256 by omega,
      show x % 4294967296 / 2 ^ 16 % 16 = x / 2 ^ 16 % 16 by omega]
  have e3 : spec_hex_byte (u32 x >>> 24) = spec_hex_byte (x >>> 24) := by
    unfold spec_hex_byte u32
    simp only [Nat.shiftRight_eq_div_pow]
    rw [show x % 4294967296 / 2 ^ 24 % 256 = x / 2 ^ 24 % 256 by omega,
      show x % 4294967296 / 2 ^ 24 % 16 = x / 2 ^ 24 % 16 by omega]
  unfold spec_hex_le32
  rw [e0, e1, e2, e3]

theorem g_words_reply (t : Target) :
    (List.range 17).flatMap (fun k => spec_hex_le32 (u32 (ctx_get_gpr t (0 + k))))
      = spec_g_reply t := by
  have h17 : List.range 17 = List.range 16 ++ [16] := List.range_succ 16
  unfold spec_g_reply spec_g_words
  rw [h17, List.flatMap_append, List.flatMap_append, List.flatMap_map]
  congr 1
  · apply List.flatMap_congr
    intro k hk
    have hk16 : k < 16 := List.mem_range.mp hk
    have hne : ¬ (k = 16) := by omega
    simp only [ctx_get_gpr, Nat.zero_add, hne, if_false, spec_hex_le32_u32]
  · simp [ctx_get_gpr, spec_hex_le32_u32]

theorem handle_g_reply (env : Env) (s : Probe) (hb : s.recv.buf 0 = 103) (hl : 1 ≤ s.recv.len)
    (he : s.recv.error = false) (hc : s.send.cap = 256) :
    (server_handle_packet env s).send.content = spec_g_reply s.tgt ∧
    (server_handle_packet env s).send.len = 136 ∧
    (server_handle_packet env s).send.error = false ∧
    (server_handle_packet env s).send_valid = true ∧
    (server_handle_packet env s).state = .SEND_PREFIX := by
  obtain ⟨q1, q2, q3, q4⟩ := put_regs_loop_ok (fun i => ctx_get_gpr s.tgt i) 17 0
    (packet_clear s.send) (by simp [packet_clear, hc]) (by simp [packet_clear, hc])
  have hu : ∀ k, u32 (ctx_get_gpr s.tgt k) = ctx_get_gpr s.tgt k := by
    intro k
    simp only [ctx_get_gpr]
    split_ifs <;> simp [u32]
  have hx := packet_expect_hit { s.recv with pos := 0 } 103 (by simpa using hl) hb
  have hg := server_handle_g_eq
    { s with recv := { s.recv with pos := 0 }, send := packet_clear s.send } _ hx he
  have hr : ∀ s1 : Probe, Handler.run env s1 .g = server_handle_g s1 := fun _ => rfl
  have hf := find_handler_g _ hb
  have key : server_handle_packet env s =
      { s with recv := { s.recv with pos := u16 1 },
               send := put_regs_loop (fun i => ctx_get_gpr s.tgt i) 17 0 (packet_clear s.send),
               send_valid := true, state := .SEND_PREFIX } := by
    unfold server_handle_packet
    rw [hf]
    simp only [hr]
    rw [hg]
    simp only [he, Bool.false_eq_true, if_false]
    rfl
  have k1 : (server_handle_packet env s).send =
      put_regs_loop (fun i => ctx_get_gpr s.tgt i) 17 0 (packet_clear s.send) := by rw [key]
  have k2 : (server_handle_packet env s).send_valid = true := by rw [key]
  have k3 : (server_handle_packet env s).state = .SEND_PREFIX := by rw [key]
  rw [k1, k2, k3, q4, q1, q3]
  refine ⟨?_, ?_, ?_, rfl, rfl⟩
  · rw [g_words_reply]
    simp [packet_clear, Packet.content]
  · simp [packet_clear]
  · simp [packet_clear]

theorem step_idle_dollar (env : Env) (now : Nat) (s : Probe) (hs : s.state = .IDLE) :
    server_update env now s true true 36 =
      ({ s with state := .RECV_PACKET, recv := packet_clear s.recv, checksum := 0 }, none) := by
  simp [server_update, hs]

theorem step_recv_plain (env : Env) (now : Nat) (s : Probe) (b : Nat)
    (hs : s.state = .RECV_PACKET) (h1 : b ≠ 35) (h2 : b ≠ 125) :
    server_update env now s true true b =
      ({ s with checksum := u8 (s.checksum + b), recv := (packet_put s.recv b).1 }, none) := by
  simp [server_update, hs, h1, h2]

theorem step_recv_brace (env : Env) (now : Nat) (s : Probe) (hs : s.state = .RECV_PACKET) :
    server_update env now s true true 125 =
      ({ s with checksum := u8 (s.checksum + 125), state := .RECV_PACKET_ESCAPE }, none) := by
  simp [server_update, hs]

theorem step_recv_escape (env : Env) (now : Nat) (s : Probe) (b : Nat)
    (hs : s.state = .RECV_PACKET_ESCAPE) :
    server_update env now s true true b =
      ({ s with checksum := u8 (s.checksum + b), recv := (packet_put s.recv (b ^^^ 0x20)).1,
                state := .RECV_PACKET }, none) := by
  simp [server_update, hs]

theorem step_recv_hash (env : Env) (now : Nat) (s : Probe) (hs : s.state = .RECV_PACKET) :
    server_update env now s true true 35 =
      ({ s with expected_checksum := 0, state := .RECV_SUFFIX1 }, none) := by
  simp [server_update, hs]

theorem step_suffix1 (env : Env) (now : Nat) (s : Probe) (b : Nat) (hs : s.state = .RECV_SUFFIX1) :
    server_update env now s true true b =
      ({ s with expected_checksum := push_nibble s.expected_checksum (from_hex b),
                state := .RECV_SUFFIX2 }, none) := by
  simp [server_update, hs]

theorem step_suffix2_bad (env : Env) (now : Nat) (s : Probe) (b : Nat) (hs : s.state = .RECV_SUFFIX2)
    (hne : push_nibble s.expected_checksum (from_hex b) ≠ s.checksum) :
    server_update env now s true true b =
      ({ s with expected_checksum := push_nibble s.expected_checksum (from_hex b),
                state := .IDLE }, some 45) := by
  simp [server_update, hs, hne]

theorem step_suffix2_good (env : Env) (now : Nat) (s : Probe) (b : Nat) (hs : s.state = .RECV_SUFFIX2)
    (heq : push_nibble s.expected_checksum (from_hex b) = s.checksum) :
    (server_update env now s true true b).2 = some 43 := by
  simp [server_update, hs, heq]

theorem feed_nil (env : Env) (now : Nat) (s : Probe) : feed env now s [] = (s, []) := rfl

theorem feed_cons (env : Env) (now : Nat) (s : Probe) (b : Nat) (bs : List Nat) :
    feed env now s (b :: bs) =
      ((feed env now (server_update env now s true true b).1 bs).1,
       (match (server_update env now s true true b).2 with | some o => [o] | none => []) ++
         (feed env now (server_update env now s true true b).1 bs).2) := rfl

theorem feed_append (env : Env) (now : Nat) (l1 : List Nat) : ∀ (s : Probe) (l2 : List Nat),
    feed env now s (l1 ++ l2) =
      ((feed env now (feed env now s l1).1 l2).1,
       (feed env now s l1).2 ++ (feed env now (feed env now s l1).1 l2).2) := by
  induction l1 with
  | nil => intro s l2; simp [feed_nil]
  | cons b bs ih =>
    intro s l2
    rw [List.cons_append, feed_cons, feed_cons, ih]
    simp only [List.append_assoc]

theorem u8_add_u8 (c b : Nat) : u8 (u8 c + b) = u8 (c + b) := by
  simp only [u8]; omega

/-- While a body is received the server stays in `RECV_PACKET`, answers nothing, and only
the running checksum and the receive packet change. -/
theorem feed_body (env : Env) (now : Nat) (items : List BodyItem) : ∀ (s : Probe) (c : Nat),
    s.state = .RECV_PACKET → s.checksum = u8 c → (∀ it ∈ items, it.ok) →
    ∃ recv, feed env now s (wire_body items) =
      ({ s with checksum := u8 (c + (wire_body items).sum), recv := recv }, []) := by
  induction items with
  | nil =>
    intro s c hs hc _
    refine ⟨s.recv, ?_⟩
    simp only [wire_body, List.flatMap_nil, feed_nil, List.sum_nil, Nat.add_zero, ← hc]
  | cons it items ih =>
    intro s c hs hc hok
    have hok1 : it.ok := hok it (List.mem_cons_self _ _)
    have hok2 : ∀ i ∈ items, i.ok := fun i hi => hok i (List.mem_cons_of_mem _ hi)
    cases it with
    | plain b =>
      obtain ⟨h1, h2⟩ := hok1
      have hw : wire_body (BodyItem.plain b :: items) = b :: wire_body items := rfl
      obtain ⟨recv, hr⟩ := ih { s with checksum := u8 (s.checksum + b), recv := (packet_put s.recv b).1 }
        (c + b) hs (by simp only [hc, u8_add_u8]) hok2
      refine ⟨recv, ?_⟩
      rw [hw, feed_cons, step_recv_plain env now s b hs h1 h2]
      simp only [hr, List.sum_cons, List.nil_append, Nat.add_assoc]
    | escaped b =>
      have hw : wire_body (BodyItem.escaped b :: items) = 125 :: b :: wire_body items := rfl
      obtain ⟨recv, hr⟩ := ih
        { s with checksum := u8 (u8 (s.checksum + 125) + b),
                 recv := (packet_put s.recv (b ^^^ 0x20)).1 }
        (c + 125 + b) hs (by simp only [hc, u8_add_u8]) hok2
      refine ⟨recv, ?_⟩
      rw [hw, feed_cons, step_recv_brace env now s hs, feed_cons,
        step_recv_escape env now _ b rfl]
      simp only [hs] at hr ⊢
      simp only [hr, List.sum_cons, List.nil_append, Nat.add_assoc]

theorem from_hex_digit (b : Nat) (h : 0 ≤ from_hex b) : ∃ d : Nat, d < 16 ∧ from_hex b = (d : Int) := by
  unfold from_hex at h ⊢
  split_ifs at h ⊢ with h1 h2 h3
  · exact ⟨b - 48, by omega, by omega⟩
  · exact ⟨b - 97 + 10, by omega, by omega⟩
  · exact ⟨b - 65 + 10, by omega, by omega⟩
  · omega

theorem push_nibble_pair : ∀ d e : Fin 16,
    push_nibble (push_nibble 0 (d.val : Int)) (e.val : Int) = 16 * d.val + e.val := by
  decide

theorem feed_suffix_bad (env : Env) (now : Nat) (s : Probe) (h l : Nat)
    (hs : s.state = .RECV_PACKET)
    (hne : push_nibble (push_nibble 0 (from_hex h)) (from_hex l) ≠ s.checksum) :
    feed env now s [35, h, l] =
      ({ s with expected_checksum := push_nibble (push_nibble 0 (from_hex h)) (from_hex l),
                state := .IDLE }, [45]) := by
  simp [feed_cons, feed_nil, server_update, hs, hne]

theorem feed_suffix_good (env : Env) (now : Nat) (s : Probe) (h l : Nat)
    (hs : s.state = .RECV_PACKET)
    (heq : push_nibble (push_nibble 0 (from_hex h)) (from_hex l) = s.checksum) :
    (feed env now s [35, h, l]).2 = [43] := by
  simp [feed_cons, feed_nil, server_update, hs, heq]

theorem push_nibble_hex (h l : Nat) (hh : 0 ≤ from_hex h) (hl : 0 ≤ from_hex l) :
    ((push_nibble (push_nibble 0 (from_hex h)) (from_hex l) : Nat) : Int) =
      16 * from_hex h + from_hex l := by
  obtain ⟨d, hd, e1⟩ := from_hex_digit h hh
  obtain ⟨e, he, e2⟩ := from_hex_digit l hl
  rw [e1, e2]
  have := push_nibble_pair ⟨d, hd⟩ ⟨e, he⟩
  simp only at this
  rw [this]
  push_cast
  rfl

/-- C1: the round trip fails for an unaligned 32-bit access. `ctx_set_mem_u32` stores
`0x00800000` at `0x20000401` (offset 1) into zeroed memory and succeeds, the four bytes at
that address hold the value, and `ctx_get_mem_u32` at the same address returns
`0xFF800000`: the `int` low word is shifted right arithmetically. -/
theorem ctx_get_mem_u32_sign_extends :
    (ctx_set_mem_u32 (fun _ => toByte 0) 0x20000401 0x00800000).2 = true ∧
    (ctx_set_mem_u32 (fun _ => toByte 0) 0x20000401 0x00800000).1.load32 0x20000401
      = 0x00800000 ∧
    ctx_get_mem_u32 (ctx_set_mem_u32 (fun _ => toByte 0) 0x20000401 0x00800000).1 0x20000401
      = 0xFF800000 := by
  decide

/-- C3: a size-4 breakpoint at `0x3E` lies across pages 0 and 1. `break_set` accepts it
(slot 0), but after `break_patch_flash` the two bytes in page 1 are the ones the flash held
before, for every flash content; on `straddle_flash` the word at `0x3E` reads `0x00000073`,
not `0x00100073`. -/
theorem break_patch_straddle (t : Mem) :
    (break_set Brk.start t 62 4).2 = 0 ∧
    (break_patch_flash (fun _ => true) (break_set Brk.start t 62 4).1 t).2 64 = t 64 ∧
    (break_patch_flash (fun _ => true) (break_set Brk.start t 62 4).1 t).2 65 = t 65 ∧
    (break_patch_flash (fun _ => true) (break_set Brk.start straddle_flash 62 4).1
      straddle_flash).2.read32 62 = 0x00000073 := by
  have hd : (break_set Brk.start t 62 4).1.dirty_map 1 = 0 := by
    simp [break_set, break_find, break_find_loop, Brk.start, break_init, Brk.power_on, u32,
      u8, upd, MAX_BREAKPOINT, CH32_FLASH_SIZE, CH32_FLASH_PAGE_SIZE]
  refine ⟨?_, ?_, ?_, ?_⟩
  · simp [break_set, break_find, break_find_loop, Brk.start, break_init, Brk.power_on, u32,
      MAX_BREAKPOINT, CH32_FLASH_SIZE, CH32_FLASH_PAGE_SIZE]
  · rw [break_patch_flash_eq]
    simp [hd]
  · rw [break_patch_flash_eq]
    simp [hd]
  · exact straddle_eval.2

/-- C4: from the state after power-on and `break_init`, 127 set/clear pairs at `0x100`, two
more `break_set` on the same page (256 increments of the 8-bit `dirty_map[4]`) and then
`break_patch_flash` end with `flash_map[4] = 0`, `break_map[4] = 2` and `dirty_map[4] = 0`:
the page holding two breakpoints has not been patched. -/
theorem break_patch_skips_wrapped_page (t : Mem) :
    (run_ops (Brk.start, t) wrap_ops).1.flash_map 4 = 0 ∧
    (run_ops (Brk.start, t) wrap_ops).1.break_map 4 = 2 ∧
    (run_ops (Brk.start, t) wrap_ops).1.dirty_map 4 = 0 :=
  wrap_ops_result t

/-- C5: from `IDLE`, after `$`, a well-formed escaped body, `#` and two hex digits `h`, `l`
(one byte per tick), the only byte the server has written is `+` exactly when
`16*hex(h)+hex(l)` is the sum modulo 256 of the body bytes as transmitted; otherwise the only
byte written is `-`, the server is back in `IDLE` and nothing but the receive packet and the
two checksum bytes has changed (no handler has run). -/
theorem recv_checksum_ack (env : Env) (now : Nat) (s : Probe) (items : List BodyItem)
    (h l : Nat) (hs : s.state = .IDLE) (hok : ∀ it ∈ items, it.ok)
    (hh : 0 ≤ from_hex h) (hl : 0 ≤ from_hex l) :
    ((feed env now s (36 :: (wire_body items ++ [35, h, l]))).2 = [43] ↔
        16 * from_hex h + from_hex l = ((u8 (wire_body items).sum : Nat) : Int)) ∧
    (16 * from_hex h + from_hex l ≠ ((u8 (wire_body items).sum : Nat) : Int) →
      (feed env now s (36 :: (wire_body items ++ [35, h, l]))).2 = [45] ∧
      ∃ recv, (feed env now s (36 :: (wire_body items ++ [35, h, l]))).1 =
        { s with state := .IDLE, recv := recv,
                 checksum := u8 (wire_body items).sum,
                 expected_checksum := push_nibble (push_nibble 0 (from_hex h)) (from_hex l) }) := by
  obtain ⟨recv, hb⟩ := feed_body env now items
    { s with state := .RECV_PACKET, recv := packet_clear s.recv, checksum := 0 } 0 rfl rfl hok
  have hp := push_nibble_hex h l hh hl
  have hf : feed env now s (36 :: (wire_body items ++ [35, h, l])) =
      feed env now { s with state := .RECV_PACKET, recv := recv,
                            checksum := u8 (wire_body items).sum } [35, h, l] := by
    rw [feed_cons, step_idle_dollar env now s hs, feed_append, hb]
    simp only [Nat.zero_add, List.nil_append]
  rw [hf]
  have bad : 16 * from_hex h + from_hex l ≠ ((u8 (wire_body items).sum : Nat) : Int) →
      feed env now { s with state := .RECV_PACKET, recv := recv,
                            checksum := u8 (wire_body items).sum } [35, h, l] =
        Prod.mk { s with state := .IDLE, recv := recv,
                         checksum := u8 (wire_body items).sum,
                         expected_checksum :=
                           push_nibble (push_nibble 0 (from_hex h)) (from_hex l) } [45] := by
    intro hne
    rw [feed_suffix_bad env now _ h l rfl]
    intro he
    apply hne
    rw [← hp, he]
  refine ⟨⟨?_, ?_⟩, ?_⟩
  · intro h43
    by_contra hne
    rw [bad hne] at h43
    have h45 : ([45] : List Nat) = [43] := h43
    exact absurd h45 (by decide)
  · intro heq
    apply feed_suffix_good env now _ h l rfl
    have : ((push_nibble (push_nibble 0 (from_hex h)) (from_hex l) : Nat) : Int) =
        ((u8 (wire_body items).sum : Nat) : Int) := by rw [hp, heq]
    exact Int.ofNat_inj.mp this
  · intro hne
    rw [bad hne]
    exact ⟨rfl, recv, rfl⟩

theorem recv_checksum_ack_witness :
    (Probe.connected.state = .IDLE ∧ (∀ it ∈ [BodyItem.plain 63, BodyItem.escaped 3], it.ok) ∧
      0 ≤ from_hex 98 ∧ 0 ≤ from_hex 102) ∧
    ((feed Env.nice 0 Probe.connected
        (36 :: (wire_body [BodyItem.plain 63, BodyItem.escaped 3] ++ [35, 98, 102]))).2 = [43] ↔
      16 * from_hex 98 + from_hex 102 =
        ((u8 (wire_body [BodyItem.plain 63, BodyItem.escaped 3]).sum : Nat) : Int)) :=
  ⟨⟨rfl, by simp [BodyItem.ok], by decide, by decide⟩,
   (recv_checksum_ack Env.nice 0 Probe.connected [BodyItem.plain 63, BodyItem.escaped 3] 98 102
      rfl (by simp [BodyItem.ok]) (by decide) (by decide)).1⟩

/-- C6: with the one-byte reply `#` to transmit, the first five bytes written are `$`, `}`,
0x03, `}`, 0x03, and after any number of ticks the server is still in `SEND_PACKET` or
`SEND_PACKET_ESCAPE`: the escaped byte is sent again and again, `#` and the checksum are never
sent and `RECV_ACK` is never reached. -/
theorem send_escape_never_ends (n : Nat) :
    (idle Env.nice 0 0 5 Probe.reply_hash).2 = [36, 125, 3, 125, 3] ∧
    ((idle Env.nice 0 0 (n + 1) Probe.reply_hash).1.state = .SEND_PACKET ∨
     (idle Env.nice 0 0 (n + 1) Probe.reply_hash).1.state = .SEND_PACKET_ESCAPE) := by
  refine ⟨by decide, ?_⟩
  simp only [idle]
  apply escape_loop_idle
  · decide
  · decide

/-- C7: when the received packet starts with `g` (no receive error pending, send capacity
256 as `server_init` sets it), `server_handle_packet` leaves in the send packet exactly the
17 registers of the target, `x0 .. x15` then the DPC, each as the 8 hex digits of its 32-bit
value, least-significant byte first and high nibble first: 136 characters, error flag clear,
reply valid, state `SEND_PREFIX`. -/
theorem server_handle_g_reply (env : Env) (s : Probe) (hb : s.recv.buf 0 = 103)
    (hl : 1 ≤ s.recv.len) (he : s.recv.error = false) (hc : s.send.cap = 256) :
    (server_handle_packet env s).send.content = spec_g_reply s.tgt ∧
    (server_handle_packet env s).send.len = 136 ∧
    (server_handle_packet env s).send.error = false ∧
    (server_handle_packet env s).send_valid = true ∧
    (server_handle_packet env s).state = .SEND_PREFIX :=
  handle_g_reply env s hb hl he hc

/-- C7, witness: with `x_i = 0xA1B2C3D0 + i` and DPC `0x00000ABC` the reply is
`D0C3B2A1 D1C3B2A1 .. DFC3B2A1 BC0A0000`. -/
theorem server_handle_g_reply_witness :
    (Probe.got_g_sample.recv.buf 0 = 103 ∧ 1 ≤ Probe.got_g_sample.recv.len ∧
      Probe.got_g_sample.recv.error = false ∧ Probe.got_g_sample.send.cap = 256) ∧
    (server_handle_packet Env.nice Probe.got_g_sample).send.content =
      cstr "D0C3B2A1D1C3B2A1D2C3B2A1D3C3B2A1D4C3B2A1D5C3B2A1D6C3B2A1D7C3B2A1D8C3B2A1D9C3B2A1DAC3B2A1DBC3B2A1DCC3B2A1DDC3B2A1DEC3B2A1DFC3B2A1BC0A0000" ∧
    (server_handle_packet Env.nice Probe.got_g_sample).send.len = 136 ∧
    (server_handle_packet Env.nice Probe.got_g_sample).send.error = false :=
  ⟨⟨by decide, by decide, by decide, by decide⟩,
   ((server_handle_g_reply Env.nice Probe.got_g_sample (by decide) (by decide) (by decide)
      (by decide)).1).trans (by decide),
   (server_handle_g_reply Env.nice Probe.got_g_sample (by decide) (by decide) (by decide)
      (by decide)).2.1,
   (server_handle_g_reply Env.nice Probe.got_g_sample (by decide) (by decide) (by decide)
      (by decide)).2.2.1⟩

/-- C8: the packet `M20000400,8:0102030405060708` is acknowledged, and the byte at
`0x20000408`, outside the 8 bytes addressed and zero before, holds afterwards the
uninitialised content of the handler's buffer (`0xAA` here): the block write is given the
256 words of the buffer, not the words decoded. -/
theorem server_handle_M_writes_past_range :
    (feed Env.nice 0 Probe.connected (cstr "$M20000400,8:0102030405060708#95")).2 = [43] ∧
    Probe.connected.tgt.mem 0x20000408 = toByte 0 ∧
    (feed Env.nice 0 Probe.connected
      (cstr "$M20000400,8:0102030405060708#95")).1.tgt.mem 0x20000408 = toByte 0xAA := by
  decide

/-- C9: the packet `c` without an address puts the server into `RUNNING`; the byte 0x03
then makes it transmit `$E00T05#5E`: the body is `E00T05`, not `T05`. -/
theorem continue_break_reply :
    (feed Env.nice 0 Probe.connected (cstr "$c#63")).1.state = .RUNNING ∧
    (idle Env.nice 0 3 12
      (feed Env.nice 0 (feed Env.nice 0 Probe.connected (cstr "$c#63")).1 [3]).1).2
      = cstr "$E00T05#5E" := by
  decide

/-- C10: after the packet `?` has been answered `$T05#B9` and acknowledged, the packet `X`,
which has a valid checksum and no handler, is acknowledged and answered `$T05#B9` again, not
`$#00`: the send packet is not cleared on that path. -/
theorem unknown_packet_repeats_reply :
    (feed Env.nice 0
        (idle Env.nice 0 0 8 (feed Env.nice 0 Probe.connected (cstr "$?#3f")).1).1
        (cstr "+$X#58")).2 = cstr "+" ∧
    (idle Env.nice 0 0 8
      (feed Env.nice 0
        (idle Env.nice 0 0 8 (feed Env.nice 0 Probe.connected (cstr "$?#3f")).1).1
        (cstr "+$X#58")).1).2 = cstr "$T05#B9" := by
  decide

theorem break_find_loop_first (bps : Nat → Nat) (addr : Nat) : ∀ (n i k : Nat),
    k < n → bps (i + k) = addr → (∀ j, j < k → bps (i + j) ≠ addr) →
    break_find_loop bps addr n i = ((i + k : Nat) : Int) := by
  intro n
  induction n with
  | zero => intro i k hk; omega
  | succ n ih =>
    intro i k hk he hlt
    cases k with
    | zero =>
      have h0 : bps i = addr := by simpa using he
      simp only [break_find_loop, h0, if_true, Nat.add_zero]
    | succ k =>
      have h0 : bps i ≠ addr := by simpa using hlt 0 (Nat.succ_pos k)
      simp only [break_find_loop, h0, if_false]
      rw [ih (i + 1) k (by omega) (by rwa [show i + 1 + k = i + (k + 1) by omega])]
      · congr 1; omega
      · intro j hj
        have := hlt (j + 1) (by omega)
        rwa [show i + 1 + j = i + (j + 1) by omega]

theorem break_find_loop_nonneg (bps : Nat → Nat) (addr : Nat) : ∀ (n i : Nat),
    break_find_loop bps addr n i = -1 ∨ 0 ≤ break_find_loop bps addr n i := by
  intro n
  induction n with
  | zero => intro i; left; rfl
  | succ n ih =>
    intro i
    simp only [break_find_loop]
    split_ifs
    · right; exact Int.ofNat_nonneg i
    · exact ih (i + 1)

theorem break_find_hit (b : Brk) (addr : Nat) (h : ∃ i, i < 32 ∧ b.breakpoints i = addr) :
    break_find b addr ≠ -1 := by
  classical
  obtain ⟨i, hi, he⟩ := h
  have hex : ∃ k, k < 32 ∧ b.breakpoints k = addr := ⟨i, hi, he⟩
  have hk := Nat.find_spec hex
  have hmin : ∀ j, j < Nat.find hex → b.breakpoints (0 + j) ≠ addr := by
    intro j hj hje
    have := Nat.find_min hex hj
    apply this
    refine ⟨by omega, ?_⟩
    simpa using hje
  have := break_find_loop_first b.breakpoints addr 32 0 (Nat.find hex) hk.1
    (by simpa using hk.2) hmin
  unfold break_find MAX_BREAKPOINT
  rw [this]
  omega

theorem read_words_length (m : Mem) : ∀ (n addr : Nat), (read_words m addr n).length = n := by
  intro n
  induction n with
  | zero => intro addr; rfl
  | succ n ih => intro addr; simp [read_words, ih]

theorem flash_verify_stored (m : Mem) (heap : Nat → Nat) (addr : Nat) (data : Nat → Nat)
    (n : Nat) :
    (flash_verify_pages m heap addr data n).1.length = max (u32 (n * 4)) 1 := by
  simp only [flash_verify_pages, ctx_get_block_aligned, read_words_length]

theorem break_resume_not_halted (env : Env) (b : Brk) (t : Target) (h : b.halted = false) :
    break_resume env b t = (b, t, true) := by
  simp [break_resume, h]

theorem break_resume_on_breakpoint (env : Env) (b : Brk) (t : Target) (h : b.halted = true)
    (hit : ∃ i, i < 32 ∧ b.breakpoints i = u32 (env.step t).dpc) :
    break_resume env b t = (b, env.step t, false) := by
  have hf := break_find_hit b (u32 (env.step t).dpc) hit
  simp [break_resume, h, hf]

theorem c19_test :
    (break_set Brk.start straddle_flash 0x100 2).1.dirty_map 4 = 1 ∧
    (break_patch_flash (fun _ => false) (break_set Brk.start straddle_flash 0x100 2).1
      straddle_flash).1.dirty_map 4 = 0 ∧
    (break_patch_flash (fun _ => false) (break_set Brk.start straddle_flash 0x100 2).1
      straddle_flash).1.flash_map 4 = 1 ∧
    (break_patch_flash (fun _ => false) (break_set Brk.start straddle_flash 0x100 2).1
      straddle_flash).2.load16 0x100 = 0 := by
  rw [break_patch_flash_eq]
  decide

theorem xfeed_nil (hw : XmHw) (x : Xm) : xfeed hw x [] = (x, []) := rfl

theorem xfeed_cons (hw : XmHw) (x : Xm) (b : Nat) (bs : List Nat) :
    xfeed hw x (b :: bs) =
      ((xfeed hw (xmodem_update hw x true true b).1 bs).1,
       (match (xmodem_update hw x true true b).2 with | some o => [o] | none => []) ++
         (xfeed hw (xmodem_update hw x true true b).1 bs).2) := rfl

theorem xfeed_append (hw : XmHw) (l1 : List Nat) : ∀ (x : Xm) (l2 : List Nat),
    xfeed hw x (l1 ++ l2) =
      ((xfeed hw (xfeed hw x l1).1 l2).1, (xfeed hw x l1).2 ++ (xfeed hw (xfeed hw x l1).1 l2).2) := by
  induction l1 with
  | nil => intro x l2; simp [xfeed_nil]
  | cons b bs ih =>
    intro x l2
    rw [List.cons_append, xfeed_cons, xfeed_cons, ih]
    simp only [List.append_assoc]

theorem xm_data_step (hw : XmHw) (x : Xm) (b : Nat) (hs : x.state = .RECV_DATA)
    (hi : x.data_idx + 1 < x.data_size) (hz : x.data_size ≤ 1024) :
    xmodem_update hw x true true b =
      ({ x with data := upd x.data x.data_idx (u8 b), data_idx := x.data_idx + 1 }, none) := by
  have h1 : u16 (x.data_idx + 1) = x.data_idx + 1 := by simp only [u16]; omega
  simp [xmodem_update, hs, h1, hi]

theorem xm_data_last (hw : XmHw) (x : Xm) (b : Nat) (hs : x.state = .RECV_DATA)
    (hi : x.data_idx + 1 = x.data_size) (hz : x.data_size ≤ 1024) :
    xmodem_update hw x true true b =
      ({ x with data := upd x.data x.data_idx (u8 b), data_idx := x.data_size,
                state := .RECV_CRC1 }, none) := by
  have h1 : u16 (x.data_idx + 1) = x.data_size := by simp only [u16]; omega
  simp [xmodem_update, hs, h1]

theorem xm_data_run (hw : XmHw) (l : List Nat) : ∀ (x : Xm), x.state = .RECV_DATA →
    x.data_idx + l.length < x.data_size → x.data_size ≤ 1024 →
    ∃ d, xfeed hw x l = ({ x with data := d, data_idx := x.data_idx + l.length }, []) := by
  induction l with
  | nil => intro x _ _ _; exact ⟨x.data, rfl⟩
  | cons b bs ih =>
    intro x hs hi hz
    simp only [List.length_cons] at hi
    obtain ⟨d, hd⟩ := ih { x with data := upd x.data x.data_idx (u8 b), data_idx := x.data_idx + 1 }
      hs (by simp only; omega) hz
    refine ⟨d, ?_⟩
    rw [xfeed_cons, xm_data_step hw x b hs (by omega) hz, hd]
    simp only [List.length_cons, List.nil_append, Nat.add_assoc, Nat.add_comm 1]

theorem xm_payload (hw : XmHw) (l : List Nat) (x : Xm) (hs : x.state = .RECV_DATA)
    (h0 : x.data_idx = 0) (hl : l.length = x.data_size) (hp : 0 < x.data_size)
    (hz : x.data_size ≤ 1024) :
    ∃ d, xfeed hw x l = ({ x with data := d, data_idx := x.data_size, state := .RECV_CRC1 }, []) := by
  have hne : l ≠ [] := by
    intro h; rw [h] at hl; simp at hl; omega
  obtain ⟨bs, b, rfl⟩ : ∃ bs b, l = bs ++ [b] := ⟨l.dropLast, l.getLast hne,
    (List.dropLast_append_getLast hne).symm⟩
  simp only [List.length_append, List.length_singleton] at hl
  obtain ⟨d, hd⟩ := xm_data_run hw bs x hs (by omega) hz
  refine ⟨upd d (x.data_idx + bs.length) (u8 b), ?_⟩
  have hstep := xm_data_last hw { x with data := d, data_idx := x.data_idx + bs.length } b hs
    (by simp only; omega) hz
  rw [xfeed_append, hd]
  simp only [xfeed_cons, xfeed_nil, hstep, List.append_nil, List.nil_append]

theorem crc_join (c : Nat) (h : c < 65536) :
    u16 ((u8 (c / 256 % 256)) <<< 8) ||| u8 (c % 256) = c := by
  have e1 : u8 (c / 256 % 256) = c / 256 := by simp only [u8]; omega
  have e2 : u8 (c % 256) = c % 256 := by simp only [u8]; omega
  have e3 : u16 ((c / 256) <<< 8) = 2 ^ 8 * (c / 256) := by
    simp only [u16, Nat.shiftLeft_eq]; omega
  rw [e1, e2, e3, ← Nat.mul_add_lt_is_or (Nat.mod_lt c (by decide)) (c / 256)]
  omega

theorem xm_frame_received (hw : XmHw) (x : Xm) (hdr blk : Nat) (payload : List Nat) (crc : Nat)
    (hs : x.state = .RECV_HEADER) (hh : hdr = SOH ∨ hdr = STX) (hb : blk < 256)
    (hl : payload.length = x.data_size) (hp : 0 < x.data_size) (hz : x.data_size ≤ 1024)
    (hc : crc < 65536) :
    ∃ d, xfeed hw x (xm_frame hdr blk payload crc) =
      ({ x with blk_idx := blk, blk_inv := 255 - blk, data := d, data_idx := x.data_size,
                crc := crc, state := .VALIDATE }, []) := by
  have s1 : xmodem_update hw x true true hdr = (xmodem_header x, none) := by
    rcases hh with h | h <;> simp [xmodem_update, hs, h, u8, SOH, STX]
  have s2 : xmodem_update hw (xmodem_header x) true true blk =
      ({ xmodem_header x with blk_idx := blk, state := .RECV_BLK_INV }, none) := by
    have : u8 blk = blk := by simp only [u8]; omega
    simp [xmodem_update, xmodem_header, this]
  have s3 : xmodem_update hw { xmodem_header x with blk_idx := blk, state := .RECV_BLK_INV }
      true true (255 - blk) =
      ({ xmodem_header x with blk_idx := blk, blk_inv := 255 - blk, state := .RECV_DATA }, none) := by
    have : u8 (255 - blk) = 255 - blk := by simp only [u8]; omega
    simp [xmodem_update, xmodem_header, this]
  obtain ⟨d, hd⟩ := xm_payload hw payload
    { xmodem_header x with blk_idx := blk, blk_inv := 255 - blk, state := .RECV_DATA }
    rfl rfl hl hp hz
  refine ⟨d, ?_⟩
  have hj := crc_join crc hc
  unfold xm_frame
  rw [xfeed_cons, s1, xfeed_cons, s2, xfeed_cons, s3, xfeed_append, hd]
  simp [xfeed_cons, xfeed_nil, xmodem_update, xmodem_header, hj]

theorem xm_validate_next (hw : XmHw) (x : Xm) (hsum : x.blk_idx + x.blk_inv = 0xFF)
    (hcrc : u16 hw.crc_acc = x.crc) (hnext : x.blk_idx = x.blk_cur + 1) :
    xmodem_validate hw x = 1 := by
  have hne : x.blk_idx ≠ x.blk_cur := by omega
  simp only [xmodem_validate]
  rw [if_neg (by omega), if_neg (by simp [hcrc]), if_neg hne, if_pos hnext]

theorem xm_accept (hw : XmHw) (x : Xm) (hs : x.state = .VALIDATE) (hb : hw.dma_busy = false)
    (hsum : x.blk_idx + x.blk_inv = 0xFF) (hcrc : u16 hw.crc_acc = x.crc)
    (hnext : x.blk_idx = x.blk_cur + 1) (hok : (erase_flash_verify hw x).2 = true) :
    xtick hw x =
      ({ (erase_flash_verify hw x).1 with
           blk_cur := u8 ((erase_flash_verify hw x).1.blk_cur + 1), state := .RECV_HEADER },
       some ACK) := by
  have hv := xm_validate_next hw x hsum hcrc hnext
  have h3 : u8 ACK = ACK := rfl
  simp [xtick, xmodem_update, hs, hb, xmodem_handle_block, hv, hok, h3]

theorem xm_reject_wrap (hw : XmHw) (x : Xm) (hs : x.state = .VALIDATE) (hb : hw.dma_busy = false)
    (hcur : x.blk_cur = 255) (hidx : x.blk_idx = 0) (hr : x.retry_cnt + 1 < 10) :
    xtick hw x = ({ x with retry_cnt := x.retry_cnt + 1, state := .RECV_HEADER }, some NAK) := by
  have hv : xmodem_validate hw x = 0 := by
    simp only [xmodem_validate, hcur, hidx]
    split_ifs <;> first | rfl | omega | contradiction
  have h1 : u8 (x.retry_cnt + 1) = x.retry_cnt + 1 := by simp only [u8]; omega
  have h2 : ¬ (x.retry_cnt + 1 ≥ MAX_RETRIES) := by simp only [MAX_RETRIES]; omega
  have h3 : u8 NAK = NAK := rfl
  simp [xtick, xmodem_update, hs, hb, xmodem_handle_block, hv, h1, h2, h3]

theorem erase_flash_verify_good (c : Nat) (x : Xm) (h : x.data_size = 128) :
    erase_flash_verify (XmHw.good c) x = ({ x with dst_addr := u32 (x.dst_addr + 128) }, true) := by
  simp [erase_flash_verify, XmHw.good, h, CH32_FLASH_PAGE_WORDS]

theorem xm_block_accepted (c : Nat) (x : Xm) (blk : Nat) (payload : List Nat)
    (hs : x.state = .RECV_HEADER) (hsz : x.data_size = 128) (hl : payload.length = 128)
    (hc : c < 65536) (hblk : blk = x.blk_cur + 1) (hb : blk < 256) :
    ∃ y, xtick (XmHw.good c) (xfeed (XmHw.good c) x (xm_frame SOH blk payload c)).1
        = (y, some ACK) ∧
      y.state = .RECV_HEADER ∧ y.blk_cur = blk ∧ y.data_size = 128 ∧
      y.retry_cnt = x.retry_cnt ∧ y.dst_addr = u32 (x.dst_addr + 128) := by
  obtain ⟨d, hd⟩ := xm_frame_received (XmHw.good c) x SOH blk payload c hs (Or.inl rfl) hb
    (by rw [hsz]; exact hl) (by omega) (by omega) hc
  have hcrc : u16 (XmHw.good c).crc_acc = c := by
    simp only [XmHw.good, u16]; omega
  have hefv := erase_flash_verify_good c
    { x with blk_idx := blk, blk_inv := 255 - blk, data := d, data_idx := x.data_size,
             crc := c, state := .VALIDATE } hsz
  have hacc := xm_accept (XmHw.good c)
    { x with blk_idx := blk, blk_inv := 255 - blk, data := d, data_idx := x.data_size,
             crc := c, state := .VALIDATE }
    rfl rfl (by simp only; omega) hcrc hblk (by rw [hefv])
  rw [hefv] at hacc
  rw [hd, hacc]
  refine ⟨_, rfl, rfl, ?_, hsz, rfl, rfl⟩
  simp only [u8]
  omega

theorem xm_session_inv (n : Nat) : n < 255 →
    (xm_session (n + 1)).state = .RECV_HEADER ∧ (xm_session (n + 1)).blk_cur = n + 1 ∧
    (xm_session (n + 1)).data_size = 128 ∧ (xm_session (n + 1)).retry_cnt = 0 := by
  induction n with
  | zero => intro _; decide
  | succ n ih =>
    intro hn
    obtain ⟨i1, i2, i3, i4⟩ := ih (by omega)
    have hb : xm_block (n + 1 + 1) = xm_frame SOH (n + 2) xm_payload_55 0x5B67 := by
      simp only [xm_block]
      rw [Nat.mod_eq_of_lt (by omega)]
    obtain ⟨y, hy, y1, y2, y3, y4, _⟩ := xm_block_accepted 0x5B67 (xm_session (n + 1)) (n + 2)
      xm_payload_55 i1 i3 rfl (by decide) (by rw [i2]) (by omega)
    have e : xm_session (n + 1 + 1) =
        (xtick (XmHw.good 0x5B67)
          (xfeed (XmHw.good 0x5B67) (xm_session (n + 1)) (xm_block (n + 1 + 1))).1).1 := rfl
    rw [e, hb, hy]
    exact ⟨y1, y2, y3, by rw [y4, i4]⟩

theorem xm_session_at (m n : Nat) (hm : m = n + 1) (hn : n < 255) :
    (xm_session m).state = .RECV_HEADER ∧ (xm_session m).blk_cur = m ∧
    (xm_session m).data_size = 128 ∧ (xm_session m).retry_cnt = 0 := by
  subst hm
  exact xm_session_inv n hn

theorem xm_wrap_rejected (c : Nat) (x : Xm) (payload : List Nat)
    (hs : x.state = .RECV_HEADER) (hcur : x.blk_cur = 255) (hsz : x.data_size = 128)
    (hr : x.retry_cnt = 0) (hl : payload.length = 128) (hc : c < 65536) :
    xtick (XmHw.good c) (xfeed (XmHw.good c) x (xm_frame SOH 0 payload c)).1 =
      ({ (xfeed (XmHw.good c) x (xm_frame SOH 0 payload c)).1 with
           retry_cnt := 1, state := .RECV_HEADER }, some NAK) ∧
    (xfeed (XmHw.good c) x (xm_frame SOH 0 payload c)).1.blk_cur = 255 ∧
    (xfeed (XmHw.good c) x (xm_frame SOH 0 payload c)).1.blk_idx = 0 ∧
    (xfeed (XmHw.good c) x (xm_frame SOH 0 payload c)).1.blk_inv = 255 ∧
    (xfeed (XmHw.good c) x (xm_frame SOH 0 payload c)).1.crc = c := by
  obtain ⟨d, hd⟩ := xm_frame_received (XmHw.good c) x SOH 0 payload c hs (Or.inl rfl)
    (by decide) (by rw [hsz]; exact hl) (by omega) (by omega) hc
  have hrej := xm_reject_wrap (XmHw.good c)
    { x with blk_idx := 0, blk_inv := 255 - 0, data := d, data_idx := x.data_size,
             crc := c, state := .VALIDATE }
    rfl rfl hcur rfl (by simp only [hr]; decide)
  rw [hd]
  refine ⟨?_, hcur, rfl, rfl, rfl⟩
  simp only []
  rw [hrej]
  simp only [hr, Nat.zero_add]

theorem xm_block_256_rejected :
    xtick (XmHw.good 0x5B67) (xfeed (XmHw.good 0x5B67) (xm_session 255) (xm_block 256)).1 =
      ({ (xfeed (XmHw.good 0x5B67) (xm_session 255) (xm_block 256)).1 with
           retry_cnt := 1, state := .RECV_HEADER }, some NAK) ∧
    (xfeed (XmHw.good 0x5B67) (xm_session 255) (xm_block 256)).1.blk_cur = 255 ∧
    (xfeed (XmHw.good 0x5B67) (xm_session 255) (xm_block 256)).1.blk_idx = 0 ∧
    (xfeed (XmHw.good 0x5B67) (xm_session 255) (xm_block 256)).1.blk_inv = 255 ∧
    (xfeed (XmHw.good 0x5B67) (xm_session 255) (xm_block 256)).1.crc = 0x5B67 := by
  obtain ⟨i1, i2, i3, i4⟩ := xm_session_at 255 254 rfl (by decide)
  have hb : xm_block 256 = xm_frame SOH 0 xm_payload_55 0x5B67 := rfl
  rw [hb]
  exact xm_wrap_rejected 0x5B67 (xm_session 255) xm_payload_55 i1 i2 i3 i4 rfl (by decide)

theorem xm_frame_data (hw : XmHw) (x : Xm) (hdr blk : Nat) (payload : List Nat)
    (hs : x.state = .RECV_HEADER) (hh : hdr = SOH ∨ hdr = STX) (hb : blk < 256)
    (hl : payload.length = x.data_size) (hp : 0 < x.data_size) (hz : x.data_size ≤ 1024) :
    ∃ d, xfeed hw x (hdr :: blk :: (255 - blk) :: payload) =
      ({ x with blk_idx := blk, blk_inv := 255 - blk, data := d, data_idx := x.data_size,
                crc := 0, state := .RECV_CRC1 }, []) := by
  have s1 : xmodem_update hw x true true hdr = (xmodem_header x, none) := by
    rcases hh with h | h <;> simp [xmodem_update, hs, h, u8, SOH, STX]
  have s2 : xmodem_update hw (xmodem_header x) true true blk =
      ({ xmodem_header x with blk_idx := blk, state := .RECV_BLK_INV }, none) := by
    have : u8 blk = blk := by simp only [u8]; omega
    simp [xmodem_update, xmodem_header, this]
  have s3 : xmodem_update hw { xmodem_header x with blk_idx := blk, state := .RECV_BLK_INV }
      true true (255 - blk) =
      ({ xmodem_header x with blk_idx := blk, blk_inv := 255 - blk, state := .RECV_DATA }, none) := by
    have : u8 (255 - blk) = 255 - blk := by simp only [u8]; omega
    simp [xmodem_update, xmodem_header, this]
  obtain ⟨d, hd⟩ := xm_payload hw payload
    { xmodem_header x with blk_idx := blk, blk_inv := 255 - blk, state := .RECV_DATA }
    rfl rfl hl hp hz
  refine ⟨d, ?_⟩
  rw [xfeed_cons, s1, xfeed_cons, s2, xfeed_cons, s3, hd]
  simp [xmodem_header]

theorem break_patch_failed_page (ok : Nat → Bool) (b : Brk) (t : Mem) (p : Nat)
    (hp : p < 256) (hd : b.dirty_map p ≠ 0) (hf : ok p = false) :
    (break_patch_flash ok b t).1.dirty_map p = 0 ∧
    (break_patch_flash ok b t).1.flash_map p = b.break_map p ∧
    (∀ x, x / 64 = p → (break_patch_flash ok b t).2 x = t x) ∧
    (∀ ok2 x, x / 64 = p →
      (break_patch_flash ok2 (break_patch_flash ok b t).1 (break_patch_flash ok b t).2).2 x
        = t x) := by
  simp only [break_patch_flash_eq]
  refine ⟨by simp [hp], by simp [hp, hd], ?_, ?_⟩
  · intro x hx
    simp [hx, hf]
  · intro ok2 x hx
    simp [hx, hf, hp]

/-! ## Claims : server replies, XMODEM receiver, flash verification, breakpoint engine -/

/-- C11: the reply to `vFlashErase:addr,len` is not `OK` or `E00` alone. With page-aligned
arguments (`0,40`) the reply sent is `$OKOK#34`, for the whole chip (`0,4000`) it is
`$OKOKOK#CE`, and with a misaligned address (`1,40`) it is `$E00OK#3F`: `server_flash_erase`
and the handler each append a response to the send packet. -/
theorem vflash_erase_reply_doubled :
    (exchange Env.nice 8 Probe.connected "$vFlashErase:0,40#4e").2 = cstr "+$OKOK#34" ∧
    (exchange Env.nice 10 Probe.connected "$vFlashErase:0,4000#ae").2 = cstr "+$OKOKOK#CE" ∧
    (exchange Env.nice 9 Probe.connected "$vFlashErase:1,40#4f").2 = cstr "+$E00OK#3F" := by
  decide

/-- C12: the reply to `qXfer:memory-map:read::0,1000` is `$l<?xm#CC`: the letter `l` and the
first `sizeof(memory_map)` = 4 bytes of the XML text, not the text up to `</memory-map>`. -/
theorem memory_map_reply_truncated :
    (exchange Env.nice 9 Probe.connected "$qXfer:memory-map:read::0,1000#ab").2
      = cstr "+$l<?xm#CC" ∧
    (cstr memory_map).length = 326 := by
  decide

/-- C13: after 255 accepted 128-byte blocks (the hardware succeeding throughout) the
receiver is in `RECV_HEADER` with `blk_cur = 255`. The next frame carries block number
0 = (255 + 1) mod 256, inverse 255 and the CRC the sniffer computes; it is answered `NAK`,
`blk_cur` stays 255 and `retry_cnt` goes to 1. -/
theorem xmodem_block_wrap_rejected :
    ((xm_session 255).state = .RECV_HEADER ∧ (xm_session 255).blk_cur = 255 ∧
      (xm_session 255).data_size = 128 ∧ (xm_session 255).retry_cnt = 0) ∧
    xm_block 256 = xm_frame SOH ((255 + 1) % 256) xm_payload_55 0x5B67 ∧
    xtick (XmHw.good 0x5B67) (xfeed (XmHw.good 0x5B67) (xm_session 255) (xm_block 256)).1 =
      ({ (xfeed (XmHw.good 0x5B67) (xm_session 255) (xm_block 256)).1 with
           retry_cnt := 1, state := .RECV_HEADER }, some NAK) ∧
    (xfeed (XmHw.good 0x5B67) (xm_session 255) (xm_block 256)).1.blk_cur = 255 ∧
    (xfeed (XmHw.good 0x5B67) (xm_session 255) (xm_block 256)).1.blk_idx = 0 ∧
    (xfeed (XmHw.good 0x5B67) (xm_session 255) (xm_block 256)).1.blk_inv = 255 ∧
    (xfeed (XmHw.good 0x5B67) (xm_session 255) (xm_block 256)).1.crc = 0x5B67 :=
  ⟨xm_session_at 255 254 rfl (by decide), rfl, xm_block_256_rejected⟩

/-- C14: the block size is the one of the first header. In every state waiting for a header
with `data_size = 128`, a frame that starts with `STX` has 128 data bytes consumed (the
receiver is then in `RECV_CRC1`), and one that starts with `SOH` while `data_size = 1024`
has 1024 consumed. In the sample transfer the first frame (`SOH`) is accepted and the second
one, with header `STX`, is in `RECV_CRC1` after 128 data bytes. -/
theorem xmodem_block_size_fixed_at_start :
    (∀ (hw : XmHw) (x : Xm) (blk : Nat) (payload : List Nat), x.state = .RECV_HEADER →
      blk < 256 → x.data_size = 128 → payload.length = 128 →
      (xfeed hw x (STX :: blk :: (255 - blk) :: payload)).1.state = .RECV_CRC1) ∧
    (∀ (hw : XmHw) (x : Xm) (blk : Nat) (payload : List Nat), x.state = .RECV_HEADER →
      blk < 256 → x.data_size = 1024 → payload.length = 1024 →
      (xfeed hw x (SOH :: blk :: (255 - blk) :: payload)).1.state = .RECV_CRC1) ∧
    (xm_session 1).state = .RECV_HEADER ∧ (xm_session 1).data_size = 128 ∧
    (xfeed (XmHw.good 0x5B67) (xm_session 1)
      (STX :: 2 :: 253 :: xm_payload_55)).1.state = .RECV_CRC1 ∧
    (xfeed (XmHw.good 0x5B67) (xm_session 1)
      (STX :: 2 :: 253 :: xm_payload_55)).1.data_idx = 128 := by
  refine ⟨?_, ?_, by decide, by decide, by decide, by decide⟩
  · intro hw x blk payload hs hb hsz hl
    obtain ⟨d, hd⟩ := xm_frame_data hw x STX blk payload hs (Or.inr rfl) hb
      (by rw [hsz]; exact hl) (by omega) (by omega)
    rw [hd]
  · intro hw x blk payload hs hb hsz hl
    obtain ⟨d, hd⟩ := xm_frame_data hw x SOH blk payload hs (Or.inl rfl) hb
      (by rw [hsz]; exact hl) (by omega) (by omega)
    rw [hd]

/-- C15: `flash_verify_pages` hands the byte count to `ctx_get_block_aligned` as its word
count: for every memory, address and data the block read stores `max (4 * n mod 2^32) 1`
words; for `n = 32` (one 128-byte XMODEM block) these are 128 words, into a buffer that
holds 32. -/
theorem flash_verify_pages_overruns_readback (m : Mem) (heap : Nat → Nat) (addr : Nat)
    (data : Nat → Nat) (n : Nat) :
    (flash_verify_pages m heap addr data n).1.length = max (u32 (n * 4)) 1 ∧
    (flash_verify_pages m heap addr data 32).1.length = 128 ∧
    readback_words 32 = 32 := by
  refine ⟨flash_verify_stored m heap addr data n, ?_, by decide⟩
  rw [flash_verify_stored]
  decide

/-- C16: `break_resume` on an engine that is not halted returns `true` and leaves the
engine and the target as they are. On a halted engine, when the DPC after the single step is
in the breakpoint table, it returns `false`; the engine (with `halted` and the three maps)
is unchanged and the target is the one the step left: the result does not involve the flash
or the resume request. -/
theorem break_resume_into_breakpoint (env : Env) (b : Brk) (t : Target) :
    (b.halted = false → break_resume env b t = (b, t, true)) ∧
    (b.halted = true → (∃ i, i < 32 ∧ b.breakpoints i = u32 (env.step t).dpc) →
      break_resume env b t = (b, env.step t, false)) :=
  ⟨break_resume_not_halted env b t, break_resume_on_breakpoint env b t⟩

theorem break_resume_into_breakpoint_witness :
    break_resume Env.nice (break_init Brk.power_on) Target.zero
      = (break_init Brk.power_on, Target.zero, true) ∧
    break_resume Env.nice (break_set Brk.start straddle_flash 0x100 2).1
        { Target.zero with dpc := 0x100 }
      = ((break_set Brk.start straddle_flash 0x100 2).1,
         Env.nice.step { Target.zero with dpc := 0x100 }, false) :=
  ⟨(break_resume_into_breakpoint Env.nice (break_init Brk.power_on) Target.zero).1 rfl,
   (break_resume_into_breakpoint Env.nice (break_set Brk.start straddle_flash 0x100 2).1
      { Target.zero with dpc := 0x100 }).2 rfl ⟨0, by decide, by decide⟩⟩

/-- C18: with `halted` false (the engine right after `break_init` at power-on)
`break_set(0x100, 2)` returns slot 0, stores the address and counts the breakpoint in
`break_map[4]`, and `break_clear(0x100, 2)` then returns 0 and empties the slot: neither
function fails. -/
theorem break_set_ignores_halted :
    (break_init Brk.power_on).halted = false ∧
    (break_set (break_init Brk.power_on) straddle_flash 0x100 2).2 = 0 ∧
    (break_set (break_init Brk.power_on) straddle_flash 0x100 2).1.breakpoints 0 = 0x100 ∧
    (break_set (break_init Brk.power_on) straddle_flash 0x100 2).1.break_map 4 = 1 ∧
    (break_set (break_init Brk.power_on) straddle_flash 0x100 2).1.dirty_map 4 = 1 ∧
    (break_set (break_init Brk.power_on) straddle_flash 0x100 2).1.halted = false ∧
    (break_clear (break_set (break_init Brk.power_on) straddle_flash 0x100 2).1 0x100 2).2 = 0 ∧
    (break_clear (break_set (break_init Brk.power_on) straddle_flash 0x100 2).1
      0x100 2).1.breakpoints 0 = 0xDEADBEEF := by
  decide

/-- C19: when the erase and the write of a dirty page `p` fail, `break_patch_flash` still
ends with `dirty_map[p] = 0` and `flash_map[p] = break_map[p]`; the target page is the one
it was, and it still is after a second `break_patch_flash` whose flash operations succeed:
the page is not retried. -/
theorem break_patch_ignores_flash_failure (ok : Nat → Bool) (b : Brk) (t : Mem) (p : Nat)
    (hp : p < 256) (hd : b.dirty_map p ≠ 0) (hf : ok p = false) :
    (break_patch_flash ok b t).1.dirty_map p = 0 ∧
    (break_patch_flash ok b t).1.flash_map p = b.break_map p ∧
    (∀ x, x / 64 = p → (break_patch_flash ok b t).2 x = t x) ∧
    (∀ x, x / 64 = p →
      (break_patch_flash (fun _ => true) (break_patch_flash ok b t).1
        (break_patch_flash ok b t).2).2 x = t x) :=
  ⟨(break_patch_failed_page ok b t p hp hd hf).1, (break_patch_failed_page ok b t p hp hd hf).2.1,
   (break_patch_failed_page ok b t p hp hd hf).2.2.1,
   (break_patch_failed_page ok b t p hp hd hf).2.2.2 (fun _ => true)⟩

theorem break_patch_ignores_flash_failure_witness :
    (4 < 256 ∧ (break_set Brk.start straddle_flash 0x100 2).1.dirty_map 4 ≠ 0) ∧
    (break_patch_flash (fun _ => false) (break_set Brk.start straddle_flash 0x100 2).1
      straddle_flash).1.dirty_map 4 = 0 ∧
    (break_patch_flash (fun _ => false) (break_set Brk.start straddle_flash 0x100 2).1
      straddle_flash).1.flash_map 4 = (break_set Brk.start straddle_flash 0x100 2).1.break_map 4 :=
  ⟨⟨by decide, by decide⟩,
   (break_patch_ignores_flash_failure (fun _ => false)
      (break_set Brk.start straddle_flash 0x100 2).1 straddle_flash 4 (by decide) (by decide)
      rfl).1,
   (break_patch_ignores_flash_failure (fun _ => false)
      (break_set Brk.start straddle_flash 0x100 2).1 straddle_flash 4 (by decide) (by decide)
      rfl).2.1⟩

/-- C20: with the 32 slots of the table occupied, `break_set(0x100, 2)` returns -1, and the
packet `Z0,100,2` is acknowledged and answered `$OK#9A`, not `E01`. -/
theorem z0_reply_ok_when_table_full :
    Probe.table_full.state = .IDLE ∧
    Probe.table_full.brk.breakpoint_count = 32 ∧
    (∀ i, i < 32 → Probe.table_full.brk.breakpoints i = 2 * i) ∧
    (break_set Probe.table_full.brk Probe.table_full.tgt.mem 0x100 2).2 = -1 ∧
    (exchange Env.nice 6 Probe.table_full "$Z0,100,2#a5").2 = cstr "+$OK#9A" := by
  decide

theorem main_step_syn (hw : MainHw) (w : World) (b : Nat) (hrx : hw.usb_rx = some b)
    (hb : u8 b = SYN) :
    main_step hw w =
      ({ w with usb_in := SYN,
                xm := (xmodem_update hw.xhw { w.xm with xmodem_mode := true }
                        hw.connected true SYN).1 },
       (xmodem_update hw.xhw { w.xm with xmodem_mode := true } hw.connected true SYN).2) := by
  simp [main_step, hrx, hb]

theorem from_hex_check_lt (b : Nat) (hb : b < 256) : from_hex_check b = spec_hex_val b := by
  revert b
  decide

theorem spec_hex_val_big (b : Nat) (hb : 256 ≤ b) : spec_hex_val b = none := by
  have h1 : cstr "0123456789abcdef" =
      [48, 49, 50, 51, 52, 53, 54, 55, 56, 57, 97, 98, 99, 100, 101, 102] := by decide
  have h2 : cstr "0123456789ABCDEF" =
      [48, 49, 50, 51, 52, 53, 54, 55, 56, 57, 65, 66, 67, 68, 69, 70] := by decide
  have n1 : b ∉ cstr "0123456789abcdef" := by
    rw [h1]; intro h; simp at h; omega
  have n2 : b ∉ cstr "0123456789ABCDEF" := by
    rw [h2]; intro h; simp at h; omega
  have l1 : (cstr "0123456789abcdef").length = 16 := by decide
  have l2 : (cstr "0123456789ABCDEF").length = 16 := by decide
  have e1 := List.indexOf_eq_length.mpr n1
  have e2 := List.indexOf_eq_length.mpr n2
  unfold spec_hex_val
  rw [e1, e2, l1, l2]
  rfl

theorem from_hex_check_eq (b : Nat) : from_hex_check b = spec_hex_val b := by
  by_cases hb : b < 256
  · exact from_hex_check_lt b hb
  · rw [spec_hex_val_big b (by omega)]
    unfold from_hex_check
    rw [if_neg (by omega), if_neg (by omega), if_neg (by omega)]

theorem from_hex_check_digit (b d : Nat) (h : from_hex_check b = some d) : d < 16 := by
  unfold from_hex_check at h
  split_ifs at h <;> simp at h <;> omega

theorem spec_hex_value_shift (buf : Nat → Nat) (pos k : Nat) :
    spec_hex_value buf pos (k + 1) =
      (spec_hex_val (buf pos)).getD 0 * 16 ^ k + spec_hex_value buf (pos + 1) k := by
  induction k with
  | zero => simp [spec_hex_value]
  | succ k ih =>
    have e1 : spec_hex_value buf pos (k + 1 + 1) =
        16 * spec_hex_value buf pos (k + 1) + (spec_hex_val (buf (pos + (k + 1)))).getD 0 := rfl
    have e2 : spec_hex_value buf (pos + 1) (k + 1) =
        16 * spec_hex_value buf (pos + 1) k + (spec_hex_val (buf (pos + 1 + k))).getD 0 := rfl
    have e3 : pos + (k + 1) = pos + 1 + k := by omega
    rw [e1, e2, ih, e3, pow_succ]
    ring

theorem packet_take_hex_loop_run (p : Packet) (hlen : p.len ≤ 65535) :
    ∀ (n accum pos : Nat) (any : Bool), n ≤ 8 → accum < 16 ^ (8 - n) →
      ∃ k, k ≤ n ∧
        (∀ i, i < k → pos + i < p.len ∧ (spec_hex_val (p.buf (pos + i))).isSome = true) ∧
        (k < n → ¬ (pos + k < p.len ∧ (spec_hex_val (p.buf (pos + k))).isSome = true)) ∧
        packet_take_hex_loop p n accum pos any =
          (accum * 16 ^ k + spec_hex_value p.buf pos k, pos + k, any || decide (0 < k)) := by
  intro n
  induction n with
  | zero =>
    intro accum pos any _ _
    exact ⟨0, le_refl 0, fun i hi => absurd hi (Nat.not_lt_zero i), fun h => absurd h (Nat.lt_irrefl 0),
      by simp [packet_take_hex_loop, spec_hex_value]⟩
  | succ n ih =>
    intro accum pos any hn hacc
    by_cases hpos : pos ≥ p.len
    · refine ⟨0, Nat.zero_le _, fun i hi => absurd hi (Nat.not_lt_zero i), ?_, ?_⟩
      · intro _ h; simp only [Nat.add_zero] at h; omega
      · simp [packet_take_hex_loop, hpos, spec_hex_value]
    · cases hd : from_hex_check (p.buf pos) with
      | none =>
        refine ⟨0, Nat.zero_le _, fun i hi => absurd hi (Nat.not_lt_zero i), ?_, ?_⟩
        · intro _ h
          simp only [Nat.add_zero, ← from_hex_check_eq, hd] at h
          simp at h
        · simp [packet_take_hex_loop, hpos, hd, spec_hex_value]
      | some d =>
        have hd16 := from_hex_check_digit _ _ hd
        have hsv : spec_hex_val (p.buf pos) = some d := by rw [← from_hex_check_eq, hd]
        have hpow : 16 ^ (8 - n) = 16 * 16 ^ (8 - (n + 1)) := by
          rw [show 8 - n = (8 - (n + 1)) + 1 by omega, pow_succ]; ring
        have hle : 16 ^ (8 - (n + 1)) ≤ 16 ^ 7 := Nat.pow_le_pow_right (by decide) (by omega)
        have h167 : (16 : Nat) ^ 7 = 268435456 := by norm_num
        have hsh : u32 (accum <<< 4) ||| d = 16 * accum + d := by
          have : accum <<< 4 = 16 * accum := by rw [Nat.shiftLeft_eq]; ring
          rw [this]
          have hu : u32 (16 * accum) = 2 ^ 4 * accum := by
            unfold u32; omega
          rw [hu, ← Nat.mul_add_lt_is_or (by simpa using hd16) accum]
        have hp1 : u32 (pos + 1) = pos + 1 := by unfold u32; omega
        obtain ⟨k, hk, hall, hstop, hrun⟩ := ih (16 * accum + d) (pos + 1) true (by omega)
          (by rw [hpow]; omega)
        refine ⟨k + 1, by omega, ?_, ?_, ?_⟩
        · intro i hi
          cases i with
          | zero =>
            refine ⟨by simp only [Nat.add_zero]; omega, ?_⟩
            simp only [Nat.add_zero, hsv]; rfl
          | succ i =>
            have := hall i (by omega)
            rw [show pos + (i + 1) = pos + 1 + i by omega]
            exact this
        · intro hlt
          rw [show pos + (k + 1) = pos + 1 + k by omega]
          exact hstop (by omega)
        · have e : packet_take_hex_loop p (n + 1) accum pos any =
              packet_take_hex_loop p n (u32 (accum <<< 4) ||| d) (u32 (pos + 1)) true := by
            simp [packet_take_hex_loop, hpos, hd]
          rw [e, hsh, hp1, hrun, spec_hex_value_shift, hsv]
          simp only [Option.getD_some, Bool.true_or, Nat.zero_lt_succ, decide_True, Bool.or_true,
            Prod.mk.injEq, and_true]
          refine ⟨?_, by omega⟩
          rw [pow_succ]; ring

theorem and_one_shl_eq_zero (x i : Nat) : x &&& (1 <<< i) = 0 ↔ x.testBit i = false := by
  rw [Nat.one_shiftLeft]
  constructor
  · intro h
    have h1 := congrArg (fun y => y.testBit i) h
    simpa [Nat.testBit_two_pow_self] using h1
  · intro h
    apply Nat.eq_of_testBit_eq
    intro j
    rw [Nat.testBit_and, Nat.testBit_two_pow, Nat.zero_testBit]
    by_cases hij : i = j
    · subst hij; simp [h]
    · simp [hij]

theorem testBit_or_one_shl (x i j : Nat) :
    (x ||| (1 <<< i)).testBit j = (x.testBit j || decide (i = j)) := by
  rw [Nat.one_shiftLeft, Nat.testBit_or, Nat.testBit_two_pow]

theorem bits_within_refl (a : Nat) : bits_within a a := fun _ h => h

theorem bits_within_trans {a b c : Nat} (h1 : bits_within a b) (h2 : bits_within b c) :
    bits_within a c := fun i h => h2 i (h1 i h)

theorem bits_within_zero (a : Nat) : bits_within 0 a := by
  intro i h
  rw [Nat.zero_testBit] at h
  exact absurd h (by decide)

theorem bits_within_or {a b c : Nat} (h1 : bits_within a c) (h2 : bits_within b c) :
    bits_within (a ||| b) c := by
  intro i h
  rw [Nat.testBit_or, Bool.or_eq_true] at h
  rcases h with h | h
  · exact h1 i h
  · exact h2 i h

theorem dirty_uncached_zero (c : Ctx) (h : bits_within c.dirty_regs c.cached_regs) :
    dirty_uncached c = 0 := by
  apply Nat.eq_of_testBit_eq
  intro i
  unfold dirty_uncached u32
  rw [Nat.zero_testBit, Nat.testBit_and, Nat.testBit_xor]
  cases hd : c.dirty_regs.testBit i with
  | false => rfl
  | true =>
    have hc := h i hd
    by_cases hi : i < 32
    · have e1 : (4294967296 : Nat) = 2 ^ 32 := by norm_num
      have e2 : (4294967295 : Nat) = 2 ^ 32 - 1 := by norm_num
      rw [e1, Nat.testBit_mod_two_pow, hc, e2, Nat.testBit_two_pow_sub_one]
      simp [hi]
    · have l1 : (0xFFFFFFFF : Nat) < 2 ^ i :=
        lt_of_lt_of_le (by norm_num : (0xFFFFFFFF : Nat) < 2 ^ 32)
          (Nat.pow_le_pow_right (by decide) (by omega))
      have l2 : c.cached_regs % 4294967296 < 2 ^ i :=
        lt_of_lt_of_le (Nat.mod_lt _ (by decide))
          (by
            have : (4294967296 : Nat) = 2 ^ 32 := by norm_num
            rw [this]; exact Nat.pow_le_pow_right (by decide) (by omega))
      rw [Nat.testBit_lt_two_pow l1, Nat.testBit_lt_two_pow l2]
      rfl

theorem ctx_save_reg_step (t : Target) (clobber : Nat) (c : Ctx) (a : Nat) :
    (ctx_save_reg t clobber c a).dirty_regs = c.dirty_regs ∧
    bits_within c.cached_regs (ctx_save_reg t clobber c a).cached_regs ∧
    (bits_within c.dirty_regs c.cached_regs → clobber.testBit a = true →
      (ctx_save_reg t clobber c a).cached_regs.testBit a = true) := by
  unfold ctx_save_reg
  simp only []
  by_cases h1 : clobber &&& 1 <<< a = 0 ∨ c.cached_regs &&& 1 <<< a ≠ 0
  · rw [if_pos h1]
    refine ⟨rfl, bits_within_refl _, ?_⟩
    intro _ hcl
    rcases h1 with h1 | h1
    · rw [and_one_shl_eq_zero] at h1
      rw [h1] at hcl
      exact absurd hcl (by decide)
    · have : ¬ c.cached_regs.testBit a = false := fun hf =>
        h1 ((and_one_shl_eq_zero _ _).mpr hf)
      simpa using this
  · rw [if_neg h1]
    have h1c : c.cached_regs.testBit a = false := by
      by_contra hne
      exact h1 (Or.inr (fun hz => hne ((and_one_shl_eq_zero _ _).mp hz)))
    by_cases h2 : c.dirty_regs &&& 1 <<< a ≠ 0
    · rw [if_pos h2]
      refine ⟨rfl, bits_within_refl _, ?_⟩
      intro hin _
      have hd : c.dirty_regs.testBit a = true := by
        by_contra hne
        have hf : c.dirty_regs.testBit a = false := by simpa using hne
        exact h2 ((and_one_shl_eq_zero _ _).mpr hf)
      have := hin a hd
      rw [h1c] at this
      exact absurd this (by decide)
    · rw [if_neg h2]
      refine ⟨rfl, ?_, ?_⟩
      · intro i hi
        simp only [testBit_or_one_shl, hi, Bool.true_or]
      · intro _ _
        simp only [testBit_or_one_shl, decide_True, Bool.or_true]

theorem ctx_save_regs (t : Target) (clobber : Nat) (l : List Nat) :
    ∀ c : Ctx,
      (l.foldl (ctx_save_reg t clobber) c).dirty_regs = c.dirty_regs ∧
      bits_within c.cached_regs (l.foldl (ctx_save_reg t clobber) c).cached_regs ∧
      (bits_within c.dirty_regs c.cached_regs → ∀ i, i ∈ l → clobber.testBit i = true →
        (l.foldl (ctx_save_reg t clobber) c).cached_regs.testBit i = true) := by
  induction l with
  | nil =>
    intro c
    exact ⟨rfl, bits_within_refl _, fun _ i hi => absurd hi (List.not_mem_nil i)⟩
  | cons a l ih =>
    intro c
    obtain ⟨s1, s2, s3⟩ := ctx_save_reg_step t clobber c a
    obtain ⟨i1, i2, i3⟩ := ih (ctx_save_reg t clobber c a)
    rw [List.foldl_cons]
    refine ⟨by rw [i1, s1], bits_within_trans s2 i2, ?_⟩
    intro hin i hi hcl
    rcases List.mem_cons.mp hi with h | h
    · subst h
      exact i2 _ (s3 hin hcl)
    · exact i3 (by rw [s1]; exact bits_within_trans hin s2) i h hcl

theorem ctx_load_prog_inv (t : Target) (c : Ctx) (prog : Nat → Nat) (size clobber : Nat)
    (hc : clobber < 65536) (hin : bits_within c.dirty_regs c.cached_regs) :
    bits_within (ctx_load_prog t c prog size clobber).dirty_regs
      (ctx_load_prog t c prog size clobber).cached_regs ∧
    bits_within (ctx_load_prog t c prog size clobber).prog_clobber
      (ctx_load_prog t c prog size clobber).cached_regs := by
  have hu : u32 clobber = clobber := by unfold u32; omega
  obtain ⟨i1, i2, i3⟩ := ctx_save_regs t (u32 clobber) (List.range GPR_MAX)
    { c with prog_cache := fun i => if i < u32 size then u32 (prog i) else c.prog_cache i }
  unfold ctx_load_prog
  simp only []
  refine ⟨?_, ?_⟩
  · rw [i1]
    exact bits_within_trans hin i2
  · intro i hi
    rw [hu] at hi
    have hi16 : i < 16 := by
      by_contra hge
      have : clobber < 2 ^ i :=
        lt_of_lt_of_le (by simpa using hc : clobber < 2 ^ 16)
          (Nat.pow_le_pow_right (by decide) (by omega))
      rw [Nat.testBit_lt_two_pow this] at hi
      exact absurd hi (by decide)
    exact i3 hin i (List.mem_range.mpr hi16) (by rw [hu]; exact hi)

theorem ctx_track_step (c : Ctx) (t : Target) (tr : Nat × Bool) (op : CtxOp)
    (hk : ctx_tracked c tr) (hc : op.clobber_ok) (hr : op = .run true → tr.2 = false) :
    ctx_tracked (CtxOp.exec (c, t) op).1 (op.track tr) := by
  obtain ⟨k1, k2, k3, k4, k5⟩ := hk
  cases op with
  | load prog size clobber =>
    have hok : clobber < 65536 := hc
    obtain ⟨l1, l2⟩ := ctx_load_prog_inv t c prog size clobber hok k3
    have hu : u32 clobber < 4294967296 := Nat.mod_lt _ (by decide)
    exact ⟨rfl, hu, l1, fun _ => l2, fun h => absurd (h : false = true) Bool.false_ne_true⟩
  | run ok =>
    cases ok with
    | false => exact ⟨k1, k2, k3, k4, k5⟩
    | true =>
      have hf := hr rfl
      refine ⟨k1, k2, bits_within_or k3 (k4 hf), k4, ?_⟩
      intro h
      have h2 : tr.2 = true := h
      rw [hf] at h2
      exact absurd h2 (by decide)
  | reload => exact ⟨k1, k2, bits_within_zero _, k4, k5⟩
  | resume in_reset go =>
    cases in_reset with
    | true => exact ⟨k1, k2, k3, k4, k5⟩
    | false =>
      refine ⟨k1, k2, bits_within_zero _, ?_, ?_⟩
      · intro h
        have h0 : tr.1 = 0 := by
          have h' : decide (tr.1 ≠ 0) = false := h
          simpa using h'
        have hz : c.prog_clobber = 0 := by rw [← k1, h0]
        show bits_within c.prog_clobber 0
        rw [hz]
        exact bits_within_zero _
      · intro h
        have h' : decide (tr.1 ≠ 0) = true := h
        exact ⟨rfl, by simpa using h'⟩
  | reset ok rst =>
    cases ok with
    | false => exact ⟨k1, k2, k3, k4, k5⟩
    | true =>
      exact ⟨rfl, (show (0 : Nat) < 4294967296 by decide), bits_within_zero _,
        fun _ => bits_within_zero _, fun h => absurd (h : false = true) Bool.false_ne_true⟩

theorem ctx_track_ops : ∀ (ops : List CtxOp) (s : Ctx × Target) (tr : Nat × Bool),
    ctx_tracked s.1 tr → (∀ op, op ∈ ops → op.clobber_ok) → stale_run_free tr ops →
    ctx_tracked (ctx_ops s ops).1 (ctx_track tr ops) := by
  intro ops
  induction ops with
  | nil => intro s tr h _ _; exact h
  | cons op ops ih =>
    intro s tr hk hc hp
    have hc2 : ∀ o, o ∈ ops → o.clobber_ok := fun o ho => hc o (List.mem_cons_of_mem _ ho)
    have e1 : ctx_ops s (op :: ops) = ctx_ops (CtxOp.exec s op) ops := rfl
    have e2 : ctx_track tr (op :: ops) = ctx_track (op.track tr) ops := rfl
    have hrun : op = .run true → tr.2 = false := by
      intro h
      subst h
      exact hp.1
    have hrest : stale_run_free (op.track tr) ops := by
      cases op with
      | load prog size clobber => exact hp
      | run ok =>
        cases ok with
        | false => exact hp
        | true => exact hp.2
      | reload => exact hp
      | resume in_reset go => exact hp
      | reset ok rst => exact hp
    rw [e1, e2]
    exact ih _ _ (ctx_track_step s.1 s.2 tr op hk (hc op (List.mem_cons_self _ _)) hrun)
      hc2 hrest

theorem stale_run_dirty (c : Ctx) (tr : Nat × Bool) (hk : ctx_tracked c tr)
    (hs : tr.2 = true) : dirty_uncached (ctx_run_prog c true).1 ≠ 0 := by
  obtain ⟨k1, k2, _, _, k5⟩ := hk
  obtain ⟨hz, hne⟩ := k5 hs
  rw [k1] at hne k2
  obtain ⟨i, hi⟩ := Nat.ne_zero_implies_bit_true hne
  have hi32 : i < 32 := by
    by_contra hge
    have : c.prog_clobber < 2 ^ i :=
      lt_of_lt_of_le (by simpa using k2 : c.prog_clobber < 2 ^ 32)
        (Nat.pow_le_pow_right (by decide) (by omega))
    rw [Nat.testBit_lt_two_pow this] at hi
    exact absurd hi (by decide)
  intro h0
  have hb := congrArg (fun y => y.testBit i) h0
  simp only [dirty_uncached, ctx_run_prog, Bool.not_true, Bool.false_eq_true, if_false, hz, u32,
    Nat.zero_mod, Nat.xor_zero, Nat.testBit_and, Nat.testBit_or, hi, Bool.or_true,
    Bool.true_and, Nat.zero_testBit] at hb
  have e2 : (4294967295 : Nat) = 2 ^ 32 - 1 := by norm_num
  rw [e2, Nat.testBit_two_pow_sub_one] at hb
  simp [hi32] at hb

theorem last_abstractauto_end (ws : List DmWrite) (v : Nat) :
    last_abstractauto (ws ++ [.abstractauto 0, .mem_u32 FLASH_CTLR v]) = some 0 := by
  unfold last_abstractauto
  rw [List.filterMap_append]
  have e : List.filterMap DmWrite.abstractauto_value
      [.abstractauto 0, .mem_u32 FLASH_CTLR v] = [0] := rfl
  rw [e, List.getLast?_append]
  rfl

theorem last_flash_ctlr_end (ws : List DmWrite) (v : Nat) :
    last_flash_ctlr (ws ++ [.abstractauto 0, .mem_u32 FLASH_CTLR v]) = some v := by
  unfold last_flash_ctlr
  rw [List.filterMap_append]
  have e : List.filterMap DmWrite.ctlr_value
      [.abstractauto 0, .mem_u32 FLASH_CTLR v] = [v] := by
    simp [List.filterMap, DmWrite.ctlr_value]
  rw [e, List.getLast?_append]
  rfl

/-! ## Claims : retransmission, mode switch, hex fields, engine invariants, register cache,
flash write, receive buffer, handler selection -/

/-- C21: the packet `?` is answered `$T05#B9` and the server waits in `RECV_ACK`; the byte
`+` moves it to `IDLE`. On the byte `-` it goes to `SEND_PACKET` with the cursor still at the
end of the reply: the next eight ticks emit eight bytes 0 found behind the reply in the send
buffer, not `T05#B9`, and the server is still in `SEND_PACKET`. -/
theorem nack_sends_bytes_behind_reply :
    (idle Env.nice 0 0 8 (feed Env.nice 0 Probe.connected (cstr "$?#3f")).1).2
      = cstr "$T05#B9" ∧
    (idle Env.nice 0 0 8 (feed Env.nice 0 Probe.connected (cstr "$?#3f")).1).1.state
      = .RECV_ACK ∧
    (feed Env.nice 0
      (idle Env.nice 0 0 8 (feed Env.nice 0 Probe.connected (cstr "$?#3f")).1).1 [43]).1.state
      = .IDLE ∧
    (idle Env.nice 0 45 8 (feed Env.nice 0
      (idle Env.nice 0 0 8 (feed Env.nice 0 Probe.connected (cstr "$?#3f")).1).1 [45]).1).2
      = [0, 0, 0, 0, 0, 0, 0, 0] ∧
    (idle Env.nice 0 45 8 (feed Env.nice 0
      (idle Env.nice 0 0 8 (feed Env.nice 0 Probe.connected (cstr "$?#3f")).1).1 [45]).1).1.state
      = .SEND_PACKET := by
  decide

/-- C22, counterexample: the server is in `RECV_PACKET` after `$vFlashWrite:0:`; the turn of
the main loop that reads the byte 0x16 sets `xmodem_mode` and leaves the server as it was:
the byte is not stored in the receive buffer. -/
theorem syn_inside_packet_switches_mode :
    (main_feed World.idle (cstr "$vFlashWrite:0:")).probe.state = .RECV_PACKET ∧
    (main_feed World.idle (cstr "$vFlashWrite:0:")).xm.xmodem_mode = false ∧
    (main_step (MainHw.byte 0x16)
      (main_feed World.idle (cstr "$vFlashWrite:0:"))).1.xm.xmodem_mode = true ∧
    (main_step (MainHw.byte 0x16)
      (main_feed World.idle (cstr "$vFlashWrite:0:"))).1.probe.recv.len = 14 ∧
    (main_feed World.idle (cstr "$vFlashWrite:0:")).probe.recv.len = 14 ∧
    (main_step (MainHw.byte 0x16)
      (main_feed World.idle (cstr "$vFlashWrite:0:"))).1.probe.state = .RECV_PACKET := by
  decide

/-- C22, amended: a turn of the main loop that reads the byte 0x16 sets `xmodem_mode` and
hands the byte to `xmodem_update`, whatever the state of the GDB server, which is left
untouched (as are the console and the key). -/
theorem syn_always_switches_to_xmodem (hw : MainHw) (w : World) (b : Nat)
    (hrx : hw.usb_rx = some b) (hb : u8 b = SYN) :
    main_step hw w =
      ({ w with usb_in := SYN,
                xm := (xmodem_update hw.xhw { w.xm with xmodem_mode := true }
                        hw.connected true SYN).1 },
       (xmodem_update hw.xhw { w.xm with xmodem_mode := true } hw.connected true SYN).2) ∧
    (main_step hw w).1.probe = w.probe := by
  have h := main_step_syn hw w b hrx hb
  exact ⟨h, by rw [h]⟩

/-- C22, witness: the byte 0x16 read inside the packet `$vFlashWrite:0:`. -/
theorem syn_always_switches_to_xmodem_witness :
    (main_step (MainHw.byte 0x16) (main_feed World.idle (cstr "$vFlashWrite:0:"))).1.probe
      = (main_feed World.idle (cstr "$vFlashWrite:0:")).probe :=
  (syn_always_switches_to_xmodem (MainHw.byte 0x16)
    (main_feed World.idle (cstr "$vFlashWrite:0:")) 0x16 rfl rfl).2

/-- C23: `packet_take_hex` on a packet whose length fits the `uint16_t` field. When the cursor
is at the end of the packet or not on a hex digit, it sets `error`, returns 0 and leaves the
cursor where it was. Otherwise there is a run of `k` hex digits at the cursor, `1 ≤ k ≤ 8`,
that is the longest of at most 8 (it ends at the end of the packet, at a byte that is no hex
digit, or at 8 digits): the cursor advances by `k`, nothing else changes, and the result is
the value of those digits, upper or lower case. -/
theorem packet_take_hex_longest_run (p : Packet) (hlen : p.len ≤ 65535) :
    (¬ hex_at p 0 → packet_take_hex p = ({ p with error := true }, 0)) ∧
    (hex_at p 0 →
      ∃ k, 0 < k ∧ k ≤ 8 ∧ (∀ i, i < k → hex_at p i) ∧ (k < 8 → ¬ hex_at p k) ∧
        packet_take_hex p = ({ p with pos := p.pos + k }, spec_hex_value p.buf p.pos k)) := by
  obtain ⟨k, hk, hall, hstop, hrun⟩ :=
    packet_take_hex_loop_run p hlen 8 0 p.pos false (le_refl 8) (by norm_num)
  constructor
  · intro h0
    have hk0 : k = 0 := by
      by_contra hne
      exact h0 (hall 0 (by omega))
    subst hk0
    simp [packet_take_hex, hrun]
  · intro h0
    have hk0 : 0 < k := by
      rcases Nat.eq_zero_or_pos k with h | h
      · subst h
        exact absurd h0 (hstop (by decide))
      · exact h
    refine ⟨k, hk0, hk, hall, hstop, ?_⟩
    have hin := (hall (k - 1) (by omega)).1
    have hu : u16 (p.pos + k) = p.pos + k := by unfold u16; omega
    simp [packet_take_hex, hrun, hk0, hu]

/-- C23, witness: on the text `m1fZ` the run at cursor 1 is `1f`, of value `0x1f`, and the
cursor stops at 3; at cursor 3 there is no digit. -/
theorem packet_take_hex_longest_run_witness :
    (Packet.of_text "m1fZ" 1).len ≤ 65535 ∧ hex_at (Packet.of_text "m1fZ" 1) 0 ∧
    (∃ k, 0 < k ∧ k ≤ 8 ∧ (∀ i, i < k → hex_at (Packet.of_text "m1fZ" 1) i) ∧
      (k < 8 → ¬ hex_at (Packet.of_text "m1fZ" 1) k) ∧
      packet_take_hex (Packet.of_text "m1fZ" 1)
        = ({ Packet.of_text "m1fZ" 1 with pos := (Packet.of_text "m1fZ" 1).pos + k },
           spec_hex_value (Packet.of_text "m1fZ" 1).buf (Packet.of_text "m1fZ" 1).pos k)) ∧
    (packet_take_hex (Packet.of_text "m1fZ" 1)).2 = 0x1f ∧
    (packet_take_hex (Packet.of_text "m1fZ" 1)).1.pos = 3 ∧
    ¬ hex_at (Packet.of_text "m1fZ" 3) 0 ∧
    packet_take_hex (Packet.of_text "m1fZ" 3)
      = ({ Packet.of_text "m1fZ" 3 with error := true }, 0) :=
  ⟨by decide, ⟨by decide, by decide⟩,
   (packet_take_hex_longest_run (Packet.of_text "m1fZ" 1) (by decide)).2 ⟨by decide, by decide⟩,
   by decide, by decide, fun h => absurd h.2 (by decide),
   (packet_take_hex_longest_run (Packet.of_text "m1fZ" 3) (by decide)).1
     (fun h => absurd h.2 (by decide))⟩

/-- C24: on a flash holding `0x55` at `0x120`, `break_set(0x100, 2)` from the start state
makes page 4 hold a breakpoint and snapshots it into `flash_clean`, but copies only the
first 16 bytes of the page into `flash_dirty`: at `0x120`, which is no breakpoint address,
`flash_clean` holds `0x55` and `flash_dirty` holds 0. -/
theorem break_set_copies_16_bytes :
    (run_ops (Brk.start, flash_0x120) [.set 0x100 2]).1.break_map 4 = 1 ∧
    (run_ops (Brk.start, flash_0x120) [.set 0x100 2]).1.flash_clean 0x120 = 0x55 ∧
    (run_ops (Brk.start, flash_0x120) [.set 0x100 2]).1.flash_dirty 0x120 = 0 ∧
    (run_ops (Brk.start, flash_0x120) [.set 0x100 2]).1.flash_dirty 0x100 = 0x02 ∧
    (run_ops (Brk.start, flash_0x120) [.set 0x100 2]).1.flash_dirty 0x101 = 0x90 := by
  decide

/-- C25: after `break_set(0x100, 2)` and `break_init` the table is empty (count 0, every
slot the sentinel) and `break_map[4]` is still 1. -/
theorem break_init_keeps_break_map :
    (run_ops (Brk.start, Target.zero.mem) [.set 0x100 2, .init]).1.breakpoint_count = 0 ∧
    (∀ i, i < 32 →
      (run_ops (Brk.start, Target.zero.mem) [.set 0x100 2, .init]).1.breakpoints i
        = 0xDEADBEEF) ∧
    (run_ops (Brk.start, Target.zero.mem) [.set 0x100 2, .init]).1.break_map 4 = 1 := by
  decide

/-- C26: `break_set(0xFFFFFFFE, 2)` from the start state succeeds (slot 0): the sum
`addr + size` wraps to 0. The table then holds `0xFFFFFFFE`, which is not below `0x4000`, and
the counter touched is `break_map[67108863]`, beyond the 256 pages. -/
theorem break_set_accepts_wrapped_addr :
    (break_set Brk.start Target.zero.mem 0xFFFFFFFE 2).2 = 0 ∧
    (break_set Brk.start Target.zero.mem 0xFFFFFFFE 2).1.breakpoints 0 = 0xFFFFFFFE ∧
    0xFFFFFFFE / CH32_FLASH_PAGE_SIZE = 67108863 ∧
    (break_set Brk.start Target.zero.mem 0xFFFFFFFE 2).1.break_map 67108863 = 1 ∧
    (exchange Env.nice 6 Probe.connected "$Z0,fffffffe,2#43").1.brk.breakpoints 0
      = 0xFFFFFFFE := by
  decide

/-- C27, counterexample: from `ctx_init`, `ctx_load_prog` with the clobber mask `0xC00`
(`a0`, `a1`), then `ctx_resume`, then `ctx_run_prog` leave `dirty_regs = 0xC00` and
`cached_regs = 0`. -/
theorem run_after_resume_dirty_uncached :
    (ctx_ops (Ctx.start, Target.zero)
      [.load (fun _ => 0) 4 0xC00, .resume false (fun t => t), .run true]).1.dirty_regs
      = 0xC00 ∧
    (ctx_ops (Ctx.start, Target.zero)
      [.load (fun _ => 0) 4 0xC00, .resume false (fun t => t), .run true]).1.cached_regs
      = 0 ∧
    dirty_uncached (ctx_ops (Ctx.start, Target.zero)
      [.load (fun _ => 0) 4 0xC00, .resume false (fun t => t), .run true]).1 ≠ 0 := by
  decide

/-- C27, amended: in a sequence of `ctx_load_prog` (clobber mask over the 16 GPRs),
`ctx_run_prog`, `ctx_reload_regs`, `ctx_resume` and `ctx_reset` from `ctx_init`, in any order
and whatever the hardware answers, `dirty_regs & ~cached_regs == 0` holds as long as no
`ctx_run_prog` has succeeded on a stale clobber mask (a non-zero mask loaded before a
successful `ctx_resume`, with no `ctx_load_prog` and no successful `ctx_reset` since); and a
`ctx_run_prog` that succeeds on a stale mask breaks it. -/
theorem ctx_dirty_within_cached (c : Ctx) (t : Target) (ops : List CtxOp)
    (hc : ∀ op, op ∈ ops → op.clobber_ok) (hp : stale_run_free (0, false) ops) :
    dirty_uncached (ctx_ops (ctx_init c, t) ops).1 = 0 ∧
    ((ctx_track (0, false) ops).2 = true →
      dirty_uncached (ctx_ops (ctx_init c, t) (ops ++ [.run true])).1 ≠ 0) := by
  have h0 : ctx_tracked (ctx_init c, t).1 (0, false) :=
    ⟨rfl, by decide, bits_within_zero _, fun _ => bits_within_zero _,
      fun h => absurd h (by decide)⟩
  have hk := ctx_track_ops ops (ctx_init c, t) (0, false) h0 hc hp
  refine ⟨dirty_uncached_zero _ hk.2.2.1, ?_⟩
  intro hs
  have e : ctx_ops (ctx_init c, t) (ops ++ [.run true]) =
      CtxOp.exec (ctx_ops (ctx_init c, t) ops) (.run true) := by
    simp [ctx_ops, List.foldl_append]
  rw [e]
  exact stale_run_dirty _ _ hk hs

/-- C27, witness: a load and a run, then a second run, a reload and a run, a failed reset, a
refused resume and a run, and a successful resume: the invariant holds at the end, the mask
`0xC00` is stale, and one more successful run breaks the invariant. -/
theorem ctx_dirty_within_cached_witness :
    dirty_uncached (ctx_ops (ctx_init Ctx.power_on, Target.zero)
      [.load (fun _ => 0) 4 0xC00, .run true, .run true, .reload, .run true,
       .reset false (fun t => t), .resume true (fun t => t), .run true,
       .resume false (fun t => t)]).1 = 0 ∧
    dirty_uncached (ctx_ops (ctx_init Ctx.power_on, Target.zero)
      ([.load (fun _ => 0) 4 0xC00, .run true, .run true, .reload, .run true,
        .reset false (fun t => t), .resume true (fun t => t), .run true,
        .resume false (fun t => t)] ++ [.run true])).1 ≠ 0 :=
  ⟨(ctx_dirty_within_cached Ctx.power_on Target.zero
      [.load (fun _ => 0) 4 0xC00, .run true, .run true, .reload, .run true,
       .reset false (fun t => t), .resume true (fun t => t), .run true,
       .resume false (fun t => t)]
      (by
        intro op hop
        simp only [List.mem_cons, List.mem_singleton, List.not_mem_nil, or_false] at hop
        rcases hop with h | h | h | h | h | h | h | h | h <;> subst h <;>
          simp [CtxOp.clobber_ok])
      ⟨rfl, rfl, rfl, rfl, trivial⟩).1,
   (ctx_dirty_within_cached Ctx.power_on Target.zero
      [.load (fun _ => 0) 4 0xC00, .run true, .run true, .reload, .run true,
       .reset false (fun t => t), .resume true (fun t => t), .run true,
       .resume false (fun t => t)]
      (by
        intro op hop
        simp only [List.mem_cons, List.mem_singleton, List.not_mem_nil, or_false] at hop
        rcases hop with h | h | h | h | h | h | h | h | h <;> subst h <;>
          simp [CtxOp.clobber_ok])
      ⟨rfl, rfl, rfl, rfl, trivial⟩).2 rfl⟩

/-- C28, counterexample: when the store of `FTPG | BUFRST` to `FLASH_CTLR` fails,
`flash_write_pages` returns `false` having written `DM_ABSTRACTAUTO` not at all and
`FLASH_CTLR` last with `0x90000`, not with the `0x8080` it held at entry; and when the read of
`FLASH_CTLR` fails, the value written back at the end is 0. -/
theorem flash_write_pages_early_exit :
    (flash_write_pages_trace { FlashHw.good with set_mode_ok := false } 0 (fun _ => 0) 16).2
      = false ∧
    last_abstractauto
      (flash_write_pages_trace { FlashHw.good with set_mode_ok := false } 0 (fun _ => 0) 16).1
      = none ∧
    last_flash_ctlr
      (flash_write_pages_trace { FlashHw.good with set_mode_ok := false } 0 (fun _ => 0) 16).1
      = some 0x90000 ∧
    ¬ flash_restored 0x8080
      (flash_write_pages_trace { FlashHw.good with set_mode_ok := false } 0 (fun _ => 0) 16).1 ∧
    last_flash_ctlr
      (flash_write_pages_trace { FlashHw.good with get_ctlr_ok := false } 0 (fun _ => 0) 16).1
      = some 0 ∧
    ¬ flash_restored 0x8080
      (flash_write_pages_trace { FlashHw.good with get_ctlr_ok := false } 0 (fun _ => 0) 16).1 := by
  simp only [flash_restored]
  decide

/-- C28, amended: when the two stores that open `flash_write_pages` (`FLASH_ADDR`, then
`FTPG | BUFRST` to `FLASH_CTLR`) succeed and `FLASH_CTLR` was read, then on every exit
(success, a failed first run of the program, a per-word timeout) the last value written to
`DM_ABSTRACTAUTO` is 0 and the last value stored to `FLASH_CTLR` is the one it held at
entry. -/
theorem flash_write_pages_cleanup (hw : FlashHw) (dst_addr : Nat) (src_data : Nat → Nat)
    (word_count : Nat) (h1 : hw.set_addr_ok = true) (h2 : hw.set_mode_ok = true)
    (h3 : hw.get_ctlr_ok = true) :
    flash_restored hw.ctlr_entry
      (flash_write_pages_trace hw dst_addr src_data word_count).1 := by
  unfold flash_restored flash_write_pages_trace
  simp only [h1, h2, h3, Bool.not_true, Bool.false_eq_true, if_false, if_true]
  exact ⟨last_abstractauto_end _ _, last_flash_ctlr_end _ _⟩

/-- C28, witness: the third word of a page times out. -/
theorem flash_write_pages_cleanup_witness :
    (flash_write_pages_trace { FlashHw.good with word_ok := fun i => decide (i ≠ 2) } 0
      (fun _ => 0) 16).2 = false ∧
    flash_restored 0x8080
      (flash_write_pages_trace { FlashHw.good with word_ok := fun i => decide (i ≠ 2) } 0
        (fun _ => 0) 16).1 :=
  ⟨by decide,
   flash_write_pages_cleanup { FlashHw.good with word_ok := fun i => decide (i ≠ 2) } 0
     (fun _ => 0) 16 rfl rfl rfl⟩

/-- C29: the reply to `qSupported` advertises `PacketSize=32768`, and the receive buffer
holds 256 bytes: a body of 256 bytes `a` is stored, the 257th `packet_put` fails and sets
`recv.error`. -/
theorem recv_overflows_at_257_bytes :
    (exchange Env.nice 48 Probe.connected "$qSupported#37").2
      = cstr "+$PacketSize=32768;qXfer:memory-map:read+#BA" ∧
    Probe.connected.recv.cap = 256 ∧
    (feed Env.nice 0 Probe.connected (36 :: List.replicate 256 97)).1.recv.error = false ∧
    (feed Env.nice 0 Probe.connected (36 :: List.replicate 257 97)).1.recv.error = true ∧
    (feed Env.nice 0 Probe.connected (36 :: List.replicate 257 97)).1.recv.len = 256 := by
  decide

/-- C30: the body `Z` received as the first packet selects no handler and is answered
`$#00`; received after the packet `Z0,100,2` it finds `0` left behind it in the receive
buffer, selects the handler of `Z0` and is answered `$OKE00#3F`. The body held by `recv` is
`Z` in both runs. -/
theorem handler_depends_on_stale_bytes :
    (feed Env.nice 0 Probe.connected (cstr "$Z")).1.recv.content = cstr "Z" ∧
    (feed Env.nice 0 (exchange Env.nice 6 Probe.connected "$Z0,100,2#a5").1
      (cstr "$Z")).1.recv.content = cstr "Z" ∧
    server_find_handler (feed Env.nice 0 Probe.connected (cstr "$Z")).1.recv.buf = none ∧
    server_find_handler
      (feed Env.nice 0 (exchange Env.nice 6 Probe.connected "$Z0,100,2#a5").1
        (cstr "$Z")).1.recv.buf = some .Z0 ∧
    (exchange Env.nice 4 Probe.connected "$Z#5a").2 = cstr "+$#00" ∧
    (exchange Env.nice 10 (exchange Env.nice 6 Probe.connected "$Z0,100,2#a5").1 "$Z#5a").2
      = cstr "+$OKE00#3F" := by
  decide

end Ch32
